import Mathlib

/-!
# ctb::MeshTiler — mesh assembly and geometric error budget

A shallow embedding of `src/MeshTiler.cpp` (cesium-terrain-builder).

* `WrapperMesh` is the vertex sink that `ctb::chunk::heightfield::generateMesh`
  drives through `emit_vertex`; it is embedded as a record of its fields and
  its methods as functions on that record.
* C++ `double` values are elements of a type `α` that carries the arithmetic
  operations the code uses (`+ - * /` and the integer-to-double conversions).
  Statements that only depend on which operations are applied hold for every
  such `α`; statements that need the laws of exact arithmetic are stated over
  an ordered field; `Binary64` below instantiates `α` with correctly rounded
  binary64 arithmetic.
* C++ `int` is 32 bits wide and is embedded in `Int` with explicit wrap-around.
-/

namespace ctb

/-! ## Data model -/

/-- Grid position held in `Coordinate<int>` (the element type of `mTriangles`). -/
structure GridCoord where
  x : Int
  y : Int
deriving DecidableEq, Repr

/-- Mesh vertex in CRS coordinates: `CRSVertex(x, y, z)`. -/
structure CRSVertex (α : Type) where
  x : α
  y : α
  z : α
deriving DecidableEq, Repr

/-- Indexed triangle mesh `ctb::Mesh`: `vertices` and `indices` are the two
`std::vector`s, `push_back` is appending at the end. A vertex index is a
natural number; the conversions of `vertices.size()` to `int` and to the
32-bit element type of `indices` are the identity for the vertex counts of a
tile. -/
structure Mesh (α : Type) where
  vertices : List (CRSVertex α)
  indices : List Nat
deriving DecidableEq, Repr

/-- Extent `CRSBounds` read through `getMinX`, `getMinY`, `getMaxX`, `getMaxY`. -/
structure CRSBounds (α : Type) where
  minX : α
  minY : α
  maxX : α
  maxY : α
deriving DecidableEq, Repr

/-- The two const members of `ctb::chunk::heightfield` that `appendVertex`
calls on the heightfield handed to `emit_vertex`. -/
structure HeightfieldView (α : Type) where
  indexOfGridCoordinate : Int → Int → Int
  height : Int → Int → α

/-- The array `Coordinate<int> mTriangles[3]`. -/
structure TriSlots where
  s0 : GridCoord
  s1 : GridCoord
  s2 : GridCoord
deriving DecidableEq, Repr

/-- The store `mTriangles[i] = p`; an index outside `0..2` is outside the
array and has no defined result. -/
def TriSlots.write (t : TriSlots) (i : Int) (p : GridCoord) : Option TriSlots :=
  if i = 0 then some { t with s0 := p }
  else if i = 1 then some { t with s1 := p }
  else if i = 2 then some { t with s2 := p }
  else none

/-- Fields of `class WrapperMesh`. `mIndicesMap` is the `std::map<int, int>`
as an association list, looked up with `List.lookup` (`find`) and extended at
the head for a key that is absent (`insert`). -/
structure WrapperMesh (α : Type) where
  mBounds : CRSBounds α
  mMesh : Mesh α
  mCellSizeX : α
  mCellSizeY : α
  mIndicesMap : List (Int × Nat)
  mTriangles : TriSlots
  mTriOddOrder : Bool
  mTriIndex : Int

/-- Width of the C++ `unsigned int` behind `i_tile` (declared in `types.hpp`). -/
def uintModulus : Nat := 4294967296

/-- The subtraction `tileSize - 1` on `i_tile`, which wraps for `tileSize = 0`. -/
def i_tile_pred (tileSize : Nat) : Nat :=
  (tileSize % uintModulus + (uintModulus - 1)) % uintModulus

section Assembler

variable {α : Type}

/-- The constructor `WrapperMesh(bounds, mesh, tileSizeX, tileSizeY)`. The
slots of `mTriangles` are written before they are read, so their initial
content plays no role; it is taken to be `(0, 0)`. -/
def WrapperMesh.construct [Sub α] [Div α] [NatCast α]
    (bounds : CRSBounds α) (mesh : Mesh α) (tileSizeX tileSizeY : Nat) : WrapperMesh α :=
  { mBounds := bounds
    mMesh := mesh
    mCellSizeX := (bounds.maxX - bounds.minX) / ((i_tile_pred tileSizeX : Nat) : α)
    mCellSizeY := (bounds.maxY - bounds.minY) / ((i_tile_pred tileSizeY : Nat) : α)
    mIndicesMap := []
    mTriangles := ⟨⟨0, 0⟩, ⟨0, 0⟩, ⟨0, 0⟩⟩
    mTriOddOrder := false
    mTriIndex := 0 }

/-- The method `clear()`. -/
def WrapperMesh.clear (w : WrapperMesh α) : WrapperMesh α :=
  { w with
    mMesh := { vertices := [], indices := [] }
    mIndicesMap := []
    mTriOddOrder := false
    mTriIndex := 0 }

/-- The vertex `appendVertex` pushes for grid position `(x, y)`:
`CRSVertex(xmin + (x * mCellSizeX), ymax - (y * mCellSizeY), height)`. -/
def WrapperMesh.gridVertex [Add α] [Sub α] [Mul α] [IntCast α]
    (w : WrapperMesh α) (hf : HeightfieldView α) (x y : Int) : CRSVertex α :=
  { x := w.mBounds.minX + ((x : Int) : α) * w.mCellSizeX
    y := w.mBounds.maxY - ((y : Int) : α) * w.mCellSizeY
    z := hf.height x y }

/-- The method `appendVertex(heightfield, x, y)`. -/
def WrapperMesh.appendVertex [Add α] [Sub α] [Mul α] [IntCast α]
    (w : WrapperMesh α) (hf : HeightfieldView α) (x y : Int) : WrapperMesh α :=
  let index := hf.indexOfGridCoordinate x y
  match w.mIndicesMap.lookup index with
  | none =>
    let iv := w.mMesh.vertices.length
    { w with
      mMesh :=
        { vertices := w.mMesh.vertices ++ [w.gridVertex hf x y]
          indices := w.mMesh.indices ++ [iv] }
      mIndicesMap := (index, iv) :: w.mIndicesMap }
  | some iv =>
    { w with mMesh := { w.mMesh with indices := w.mMesh.indices ++ [iv] } }

/-- The method `emit_vertex(heightfield, x, y)`. The result is `none` only
when the store into `mTriangles` falls outside the array. -/
def WrapperMesh.emit_vertex [Add α] [Sub α] [Mul α] [IntCast α]
    (w : WrapperMesh α) (hf : HeightfieldView α) (x y : Int) : Option (WrapperMesh α) :=
  match w.mTriangles.write w.mTriIndex ⟨x, y⟩ with
  | none => none
  | some t =>
    let w1 := { w with mTriangles := t, mTriIndex := w.mTriIndex + 1 }
    if w1.mTriIndex = 3 then
      let w2 := { w1 with mTriOddOrder := !w1.mTriOddOrder }
      let w3 :=
        if w2.mTriOddOrder then
          ((w2.appendVertex hf t.s0.x t.s0.y).appendVertex hf t.s1.x t.s1.y).appendVertex
            hf t.s2.x t.s2.y
        else
          ((w2.appendVertex hf t.s1.x t.s1.y).appendVertex hf t.s0.x t.s0.y).appendVertex
            hf t.s2.x t.s2.y
      some { w3 with
        mTriangles := { s0 := t.s1, s1 := t.s2, s2 := t.s2 }
        mTriIndex := w3.mTriIndex - 1 }
    else
      some w1

/-- A run of `emit_vertex` calls, one per grid vertex of the emission
sequence, in order; this is what `heightfield.generateMesh(mesh, 0)` does to
its sink after resetting it with `clear()`. -/
def WrapperMesh.emitAll [Add α] [Sub α] [Mul α] [IntCast α]
    (hf : HeightfieldView α) : WrapperMesh α → List GridCoord → Option (WrapperMesh α)
  | w, [] => some w
  | w, p :: ps =>
    match w.emit_vertex hf p.x p.y with
    | none => none
    | some w1 => WrapperMesh.emitAll hf w1 ps

/-- Safety invariant of the assembler: every stored index and every index
recorded in `mIndicesMap` refers to an existing vertex, the index list holds
whole triangles, and the slot counter is inside the array. -/
def WrapperMesh.Safe (w : WrapperMesh α) : Prop :=
  (∀ i ∈ w.mMesh.indices, i < w.mMesh.vertices.length) ∧
  (∀ k v, w.mIndicesMap.lookup k = some v → v < w.mMesh.vertices.length) ∧
  3 ∣ w.mMesh.indices.length ∧
  (w.mTriIndex = 0 ∨ w.mTriIndex = 1 ∨ w.mTriIndex = 2)

/-- Grid positions that one `emit_vertex(heightfield, x, y)` call hands to
`appendVertex`, in call order: none while the slots are filling, the three
slots in the order chosen by the flipped `mTriOddOrder` once the third slot
is written. -/
def WrapperMesh.appendCalls (w : WrapperMesh α) (x y : Int) : List GridCoord :=
  if w.mTriIndex + 1 = 3 then
    if (!w.mTriOddOrder) = true then [w.mTriangles.s0, w.mTriangles.s1, ⟨x, y⟩]
    else [w.mTriangles.s1, w.mTriangles.s0, ⟨x, y⟩]
  else []

/-- Grid positions handed to `appendVertex` over a whole run of `emit_vertex`
calls: the corners of the emitted triangles, in emission order. -/
def WrapperMesh.appendCallsAll [Add α] [Sub α] [Mul α] [IntCast α]
    (hf : HeightfieldView α) : WrapperMesh α → List GridCoord → List GridCoord
  | _, [] => []
  | w, p :: ps =>
    match w.emit_vertex hf p.x p.y with
    | none => []
    | some w1 => w.appendCalls p.x p.y ++ WrapperMesh.appendCallsAll hf w1 ps

/-- The distinct elements of a list in order of first occurrence. -/
def firstUses (calls : List GridCoord) : List GridCoord :=
  calls.foldl (fun acc p => if p ∈ acc then acc else acc ++ [p]) []

/-- State of the mesh and of `mIndicesMap` after `appendVertex` has been
called on the grid positions `calls`, starting from an empty mesh and map:
one vertex per distinct position in first-use order, one index per call, and
the map sending the key of each used position to its rank. `D` is a set of
grid positions on which `indexOfGridCoordinate` is injective. -/
def WrapperMesh.Assembled [Add α] [Sub α] [Mul α] [IntCast α]
    (hf : HeightfieldView α) (D : GridCoord → Prop) (w : WrapperMesh α)
    (calls : List GridCoord) : Prop :=
  w.mMesh.vertices = (firstUses calls).map (fun p => w.gridVertex hf p.x p.y) ∧
  w.mMesh.indices = calls.map (fun p => (firstUses calls).indexOf p) ∧
  (∀ q, D q → w.mIndicesMap.lookup (hf.indexOfGridCoordinate q.x q.y) =
    if q ∈ firstUses calls then some ((firstUses calls).indexOf q) else none) ∧
  (∀ p ∈ calls, D p)

/-- The sink `w` has the bounds and cell sizes of `base`, and every vertex of
its mesh is the grid vertex of `base` at a position in `S`. -/
def WrapperMesh.GridBuilt [Add α] [Sub α] [Mul α] [IntCast α]
    (hf : HeightfieldView α) (S : GridCoord → Prop) (base w : WrapperMesh α) : Prop :=
  w.mBounds = base.mBounds ∧ w.mCellSizeX = base.mCellSizeX ∧ w.mCellSizeY = base.mCellSizeY ∧
  ∀ v ∈ w.mMesh.vertices, ∃ p, S p ∧ v = base.gridVertex hf p.x p.y

/-- Corners of the triangles of a strip `v0, v1, v2, ...`, in the order
`emit_vertex` resolves them; `odd` is the value of `mTriOddOrder` before the
next triangle. -/
def stripCorners : Bool → List GridCoord → List GridCoord
  | odd, a :: b :: c :: rest =>
    (if (!odd) = true then [a, b, c] else [b, a, c]) ++ stripCorners (!odd) (b :: c :: rest)
  | _, _ => []

end Assembler

/-! ## Machine integers -/

/-- Reduction of an integer to the range of the 32-bit C++ `int`. -/
def wrapInt32 (n : Int) : Int :=
  (n + 2147483648) % 4294967296 - 2147483648

/-- The expression `a << n` on `int`. For `n < 32` this is `a * 2^n` reduced
to 32 bits. C++ leaves the shift undefined for `n >= 32`; the count is taken
modulo 32 here, which is what the x86-64 and AArch64 shift instructions do. -/
def shiftLeftInt32 (a : Int) (n : Nat) : Int :=
  wrapInt32 (a * 2 ^ (n % 32))

/-! ## Geometric error budget -/

section GeometricError

variable {α : Type}

/-- The static method `MeshTiler::getEstimatedLevelZeroGeometricErrorForAHeightmap`.
`M_PI` is the constant of `<cmath>`; the product of the two `int` arguments
is an `int`, converted to `double` after it has been formed. -/
def getEstimatedLevelZeroGeometricErrorForAHeightmap [Mul α] [Div α] [IntCast α]
    (M_PI : α) (maximumRadius heightmapTerrainQuality : α)
    (tileWidth numberOfTilesAtLevelZero : Int) : α :=
  let error := maximumRadius * ((2 : Int) : α) * M_PI * heightmapTerrainQuality
  error / ((wrapInt32 (tileWidth * numberOfTilesAtLevelZero) : Int) : α)

/-- A call of `getEstimatedLevelZeroGeometricErrorForAHeightmap` seen by its
caller: the body has neither a `throw` nor a check of its arguments, so every
call returns the computed `double`. -/
def callGetEstimatedLevelZeroGeometricErrorForAHeightmap [Mul α] [Div α] [IntCast α]
    (M_PI : α) (maximumRadius heightmapTerrainQuality : α)
    (tileWidth numberOfTilesAtLevelZero : Int) : Except String α :=
  Except.ok (getEstimatedLevelZeroGeometricErrorForAHeightmap M_PI maximumRadius
    heightmapTerrainQuality tileWidth numberOfTilesAtLevelZero)

/-- The statement `maximumGeometricError /= (double)(1 << coord.zoom)` of
`prepareSettingsOfTile`. -/
def geometricErrorForZoom [Div α] [IntCast α] (levelZeroError : α) (zoom : Nat) : α :=
  levelZeroError / ((shiftLeftInt32 1 zoom : Int) : α)

end GeometricError

/-! ## Tile processing: `prepareSettingsOfTile` and `createMesh` -/

/-- Tile address `TileCoordinate`: zoom level, column, row. -/
structure TileCoordinate where
  zoom : Nat
  x : Nat
  y : Nat
deriving DecidableEq, Repr

/-- Height buffer `ctb::RasterHeightsBuff`: the samples `mHeights` tagged with
the coordinate of their tile. -/
structure RasterHeightsBuff (β : Type) where
  coord : TileCoordinate
  mHeights : β

/-- Modelled from the spec: the class `MeshTile` is declared outside
`MeshTiler.cpp`; it is the record of spec section 3, a coordinate, a mesh and
the four child flags SW, NW, NE, SE. -/
structure MeshTile (α : Type) where
  coord : TileCoordinate
  mesh : Mesh α
  childSW : Bool
  childNW : Bool
  childNE : Bool
  childSE : Bool

/-- Modelled from the spec: `new MeshTile(coord)`, an empty mesh with all
child flags clear. -/
def MeshTile.new {α : Type} (coord : TileCoordinate) : MeshTile α :=
  { coord := coord, mesh := { vertices := [], indices := [] }
    childSW := false, childNW := false, childNE := false, childSE := false }

/-- Modelled from the spec: `setAllChildren(flag)` writes all four child flags. -/
def MeshTile.setAllChildren {α : Type} (t : MeshTile α) (flag : Bool) : MeshTile α :=
  { t with childSW := flag, childNW := flag, childNE := flag, childSE := flag }

/-- Calls that `createMesh` makes on the height cache, the raster reader and
the heightfields, in program order. -/
inductive Event (α : Type) where
  | cacheGet (coord : TileCoordinate) (hit : Bool)
  | rasterRead (coord : TileCoordinate) (ok : Bool)
  | cachePush (coord : TileCoordinate)
  | bufferDelete (coord : TileCoordinate)
  | applyGeometricError (coord : TileCoordinate) (error : α) (force : Bool)
  | applyNeighborGeometricError (coord : TileCoordinate) (error : α)
  | applyBorderActivationState (coord neighbor : TileCoordinate) (borderIndex : Nat)
  | generateMesh (coord : TileCoordinate)
  | heightfieldClear (coord : TileCoordinate)

/-- Ways in which a call does not return: the `CTBException` thrown by
`readRasterHeights`, and a store outside `mTriangles`. -/
inductive Failure where
  | rasterRead (coord : TileCoordinate)
  | slotOverrun
deriving DecidableEq, Repr

/-- The mutable state around one `createMesh` call: the content of
`mHeightsCache` and the calls made so far. -/
structure TilerState (κ α : Type) where
  cache : κ
  trace : List (Event α)

/-- Appends one call to the trace. -/
def TilerState.log {κ α : Type} (st : TilerState κ α) (e : Event α) : TilerState κ α :=
  { st with trace := st.trace ++ [e] }

/-- Result of a call that may throw: the failure or the returned value, each
with the state reached. -/
abbrev Outcome (κ α ρ : Type) := Except (Failure × TilerState κ α) (ρ × TilerState κ α)

/-- The state an outcome ends in. -/
def Outcome.state {κ α ρ : Type} : Outcome κ α ρ → TilerState κ α
  | Except.ok (_, st) => st
  | Except.error (_, st) => st

/-- The members and collaborators of `ctb::MeshTiler` that `MeshTiler.cpp`
uses and does not define: the grid `mGrid`, the dataset bounds, the
operations of `CRSBounds`, the height cache `mHeightsCache` (content of type
`κ`), the raster reader (buffers of type `β`, `none` when it throws) and
`ctb::chunk::heightfield` (objects of type `η`). -/
structure MeshTiler (α κ β η : Type) where
  M_PI : α
  doubleToInt : α → Int
  mMeshQualityFactor : α
  resolution : Nat → α
  extentWidth : α
  tileSize : Nat
  tileBounds : TileCoordinate → CRSBounds α
  bounds : CRSBounds α
  maxZoomLevel : Nat
  overlaps : CRSBounds α → CRSBounds α → Bool
  getSW : CRSBounds α → CRSBounds α
  getNW : CRSBounds α → CRSBounds α
  getNE : CRSBounds α → CRSBounds α
  getSE : CRSBounds α → CRSBounds α
  cacheGet : κ → TileCoordinate → Option (RasterHeightsBuff β)
  cachePush : κ → RasterHeightsBuff β → κ
  readRasterHeights : TileCoordinate → Nat → Nat → Option β
  heightfieldNew : β → Nat → η
  applyGeometricError : η → α → Bool → η
  applyGeometricErrorDefault : η → α → η
  applyBorderActivationState : η → η → Nat → η
  neighborCoord : TileCoordinate → Nat → TileCoordinate
  generateMesh : η → List GridCoord
  view : η → HeightfieldView α

section Tiler

variable {α κ β η : Type} [Add α] [Sub α] [Mul α] [Div α] [IntCast α] [NatCast α]

/-- Lines 118-131 of `prepareSettingsOfTile`: the level-zero error estimate.
The literal `0.25` is `1/4` and `6378137.0` the integer `6378137`. -/
def MeshTiler.levelZeroGeometricError (T : MeshTiler α κ β η) (tileSizeX : Nat) : α :=
  let TILE_SIZE := tileSizeX
  let resolutionAtLevelZero := T.resolution 0
  let numberOfTilesAtLevelZero :=
    T.doubleToInt (T.extentWidth / (((tileSizeX : Nat) : α) * resolutionAtLevelZero))
  let heightmapTerrainQuality : α := ((1 : Int) : α) / ((4 : Int) : α)
  let semiMajorAxis : α := ((6378137 : Int) : α)
  getEstimatedLevelZeroGeometricErrorForAHeightmap T.M_PI semiMajorAxis
    (heightmapTerrainQuality * T.mMeshQualityFactor) (wrapInt32 (TILE_SIZE : Int))
    numberOfTilesAtLevelZero

/-- Lines 118-133 of `prepareSettingsOfTile`: the geometric error for the
level of the tile. -/
def MeshTiler.maximumGeometricError (T : MeshTiler α κ β η) (coord : TileCoordinate)
    (tileSizeX : Nat) : α :=
  geometricErrorForZoom (T.levelZeroGeometricError tileSizeX) coord.zoom

/-- One iteration of the loop over `borderIndex` in `prepareSettingsOfTile`. -/
def MeshTiler.borderStep (T : MeshTiler α κ β η) (coord : TileCoordinate) (TILE_SIZE : Nat)
    (maximumGeometricError : α) (heightfield : η) (st : TilerState κ α) (borderIndex : Nat) :
    Outcome κ α η :=
  let neighborCoord := T.neighborCoord coord borderIndex
  let neighborBounds := T.tileBounds neighborCoord
  if T.overlaps T.bounds neighborBounds then
    let neighborAtY : Bool := borderIndex % 2 != 0
    let cached : Option (RasterHeightsBuff β) :=
      if neighborAtY then T.cacheGet st.cache neighborCoord else none
    let st1 := if neighborAtY then st.log (Event.cacheGet neighborCoord cached.isSome) else st
    let updateCache : Bool := cached.isNone
    let fetched : Outcome κ α (RasterHeightsBuff β) :=
      match cached with
      | some neighborHeights => Except.ok (neighborHeights, st1)
      | none =>
        match T.readRasterHeights neighborCoord T.tileSize T.tileSize with
        | none =>
          Except.error (Failure.rasterRead neighborCoord,
            st1.log (Event.rasterRead neighborCoord false))
        | some nheights =>
          Except.ok (⟨neighborCoord, nheights⟩, st1.log (Event.rasterRead neighborCoord true))
    match fetched with
    | Except.error e => Except.error e
    | Except.ok (neighborHeights, st2) =>
      let neighborHeightfield :=
        T.applyGeometricErrorDefault (T.heightfieldNew neighborHeights.mHeights TILE_SIZE)
          maximumGeometricError
      let st3 := st2.log (Event.applyNeighborGeometricError neighborCoord maximumGeometricError)
      let heightfield1 := T.applyBorderActivationState heightfield neighborHeightfield borderIndex
      let st4 := st3.log (Event.applyBorderActivationState coord neighborCoord borderIndex)
      if updateCache then
        if neighborAtY then
          Except.ok (heightfield1,
            { cache := T.cachePush st4.cache neighborHeights
              trace := st4.trace ++ [Event.cachePush neighborCoord] })
        else
          Except.ok (heightfield1, st4.log (Event.bufferDelete neighborCoord))
      else
        Except.ok (heightfield1, st4)
  else
    Except.ok (heightfield, st)

/-- The loop `for (borderIndex = 0; borderIndex < 4; borderIndex++)` over the
border indices still to visit; an exception leaves the loop. -/
def MeshTiler.borderLoop (T : MeshTiler α κ β η) (coord : TileCoordinate) (TILE_SIZE : Nat)
    (maximumGeometricError : α) : List Nat → η → TilerState κ α → Outcome κ α η
  | [], heightfield, st => Except.ok (heightfield, st)
  | borderIndex :: rest, heightfield, st =>
    match T.borderStep coord TILE_SIZE maximumGeometricError heightfield st borderIndex with
    | Except.error e => Except.error e
    | Except.ok (heightfield1, st1) =>
      MeshTiler.borderLoop T coord TILE_SIZE maximumGeometricError rest heightfield1 st1

/-- Lines 176-197 of `prepareSettingsOfTile`: the child flags. -/
def MeshTiler.setChildFlags (T : MeshTiler α κ β η) (terrainTile : MeshTile α)
    (coord : TileCoordinate) : MeshTile α :=
  if coord.zoom ≠ T.maxZoomLevel then
    let tileBounds := T.tileBounds coord
    if !(T.overlaps T.bounds tileBounds) then
      terrainTile.setAllChildren false
    else
      let t1 := if T.overlaps T.bounds (T.getSW tileBounds) then
        { terrainTile with childSW := true } else terrainTile
      let t2 := if T.overlaps T.bounds (T.getNW tileBounds) then
        { t1 with childNW := true } else t1
      let t3 := if T.overlaps T.bounds (T.getNE tileBounds) then
        { t2 with childNE := true } else t2
      if T.overlaps T.bounds (T.getSE tileBounds) then
        { t3 with childSE := true } else t3
  else
    terrainTile

/-- The method `MeshTiler::prepareSettingsOfTile`. -/
def MeshTiler.prepareSettingsOfTile (T : MeshTiler α κ β η) (st : TilerState κ α)
    (terrainTile : MeshTile α) (coord : TileCoordinate) (rasterHeights : RasterHeightsBuff β)
    (tileSizeX tileSizeY : Nat) : Outcome κ α (MeshTile α) :=
  let TILE_SIZE := tileSizeX
  let maximumGeometricError := T.maximumGeometricError coord tileSizeX
  let heightfield0 :=
    T.applyGeometricError (T.heightfieldNew rasterHeights.mHeights TILE_SIZE)
      maximumGeometricError (decide (coord.zoom ≤ 6))
  let st0 := st.log (Event.applyGeometricError coord maximumGeometricError
    (decide (coord.zoom ≤ 6)))
  let propagated : Outcome κ α η :=
    if coord.zoom > 6 then
      T.borderLoop coord TILE_SIZE maximumGeometricError [0, 1, 2, 3] heightfield0 st0
    else
      Except.ok (heightfield0, st0)
  match propagated with
  | Except.error e => Except.error e
  | Except.ok (heightfield, st1) =>
    let mGridBounds := T.tileBounds coord
    let mesh := WrapperMesh.construct mGridBounds terrainTile.mesh tileSizeX tileSizeY
    let st2 := st1.log (Event.generateMesh coord)
    match WrapperMesh.emitAll (T.view heightfield) mesh.clear (T.generateMesh heightfield) with
    | none => Except.error (Failure.slotOverrun, st2)
    | some mesh1 =>
      let st3 := st2.log (Event.heightfieldClear coord)
      Except.ok (T.setChildFlags { terrainTile with mesh := mesh1.mMesh } coord, st3)

/-- The method `MeshTiler::createMesh(dataset, coord)`. -/
def MeshTiler.createMesh (T : MeshTiler α κ β η) (cache : κ) (coord : TileCoordinate) :
    Outcome κ α (MeshTile α) :=
  let cached := T.cacheGet cache coord
  let st1 : TilerState κ α := { cache := cache, trace := [Event.cacheGet coord cached.isSome] }
  let updateCache : Bool := cached.isNone
  let fetched : Outcome κ α (RasterHeightsBuff β) :=
    match cached with
    | some rasterHeights => Except.ok (rasterHeights, st1)
    | none =>
      match T.readRasterHeights coord T.tileSize T.tileSize with
      | none => Except.error (Failure.rasterRead coord, st1.log (Event.rasterRead coord false))
      | some heights => Except.ok (⟨coord, heights⟩, st1.log (Event.rasterRead coord true))
  match fetched with
  | Except.error e => Except.error e
  | Except.ok (rasterHeights, st2) =>
    let terrainTile : MeshTile α := MeshTile.new coord
    match T.prepareSettingsOfTile st2 terrainTile coord rasterHeights T.tileSize T.tileSize with
    | Except.error e => Except.error e
    | Except.ok (terrainTile1, st3) =>
      if updateCache then
        Except.ok (terrainTile1,
          { cache := T.cachePush st3.cache rasterHeights
            trace := st3.trace ++ [Event.cachePush coord] })
      else
        Except.ok (terrainTile1, st3)

end Tiler

/-! ## Binary64 arithmetic -/

/-- Number of binary digits of a natural number, by dropping 64 low digits
at a time while the number has more than 64 digits, then one at a time. -/
def bitLengthAux : Nat → Nat → Nat
  | 0, _ => 0
  | fuel + 1, n =>
    if n = 0 then 0
    else if n < 18446744073709551616 then bitLengthAux fuel (n / 2) + 1
    else bitLengthAux fuel (n / 18446744073709551616) + 64

/-- Number of binary digits of `n` (`0` for `0`). -/
def bitLength (n : Nat) : Nat := bitLengthAux n n

/-- Rounding of the non-negative rational `n / d` to the nearest natural
number that has at most 53 significant binary digits, ties to the even
significand. -/
def roundMagnitude (n d : Nat) : Nat :=
  let q := n / d
  let r := n % d
  if bitLength q ≤ 53 then
    if 2 * r < d then q else if d < 2 * r then q + 1 else if q % 2 = 0 then q else q + 1
  else
    let shift := bitLength q - 53
    let hi := q / 2 ^ shift
    let lo := q % 2 ^ shift
    let half := 2 ^ (shift - 1)
    let up : Bool :=
      if lo < half then false else if half < lo then true else if r ≠ 0 then true
      else hi % 2 = 1
    (if up then hi + 1 else hi) * 2 ^ shift

/-- Finite IEEE 754 binary64 values. Every finite `double` is an integer
multiple of the smallest subnormal `2^-1074`; `units` is that multiple. The
operations below form the exact result and round it to nearest, ties to
even, onto the binary64 grid (53 significant bits, spacing never below
`2^-1074`). Overflow to infinity, NaN and the sign of zero are not
represented, and a division by zero is given the value `0`. -/
structure Binary64 where
  units : Int
deriving DecidableEq, Repr

namespace Binary64

/-- The value `1.0` in units of `2^-1074`. -/
def unitsPerOne : Nat := 2 ^ 1074

/-- Correct rounding of the rational `n / d`, measured in units of `2^-1074`. -/
def round (n : Int) (d : Nat) : Binary64 :=
  ⟨n.sign * (roundMagnitude n.natAbs d : Int)⟩

/-- Binary64 addition. -/
def add (a b : Binary64) : Binary64 := round (a.units + b.units) 1

/-- Binary64 subtraction. -/
def sub (a b : Binary64) : Binary64 := round (a.units - b.units) 1

/-- Binary64 multiplication. -/
def mul (a b : Binary64) : Binary64 := round (a.units * b.units) unitsPerOne

/-- Binary64 division. -/
def div (a b : Binary64) : Binary64 :=
  if b.units = 0 then ⟨0⟩
  else round (b.units.sign * a.units * (unitsPerOne : Int)) b.units.natAbs

/-- Conversion of an integer to binary64. -/
def ofInt (i : Int) : Binary64 := round (i * (unitsPerOne : Int)) 1

instance : Add Binary64 := ⟨add⟩
instance : Sub Binary64 := ⟨sub⟩
instance : Mul Binary64 := ⟨mul⟩
instance : Div Binary64 := ⟨div⟩
instance : IntCast Binary64 := ⟨ofInt⟩
instance : NatCast Binary64 := ⟨fun n => ofInt (n : Int)⟩
instance : LT Binary64 := ⟨fun a b => a.units < b.units⟩

instance (a b : Binary64) : Decidable (a < b) :=
  inferInstanceAs (Decidable (a.units < b.units))

end Binary64

/-! ## Sample inputs -/

/-- Heightfield view with key `y * 50 + x` and height `0`, in binary64. -/
def flatHeightfield50 : HeightfieldView Binary64 :=
  { indexOfGridCoordinate := fun x y => y * 50 + x
    height := fun _ _ => Binary64.ofInt 0 }

/-- The bounds `[0, 1] x [0, 1]` in binary64. -/
def unitTileWest : CRSBounds Binary64 :=
  ⟨Binary64.ofInt 0, Binary64.ofInt 0, Binary64.ofInt 1, Binary64.ofInt 1⟩

/-- The bounds `[1, 2] x [0, 1]` in binary64, east neighbour of `unitTileWest`. -/
def unitTileEast : CRSBounds Binary64 :=
  ⟨Binary64.ofInt 1, Binary64.ofInt 0, Binary64.ofInt 2, Binary64.ofInt 1⟩

/-- The `double` nearest to `-0.9`. -/
def minusNineTenths : Binary64 := Binary64.ofInt (-9) / Binary64.ofInt 10

/-- The bounds `[-2, -0.9] x [0, 1]` in binary64. -/
def decimalTileWest : CRSBounds Binary64 :=
  ⟨Binary64.ofInt (-2), Binary64.ofInt 0, minusNineTenths, Binary64.ofInt 1⟩

/-- The bounds `[-0.9, 1] x [0, 1]` in binary64, east neighbour of
`decimalTileWest`. -/
def decimalTileEast : CRSBounds Binary64 :=
  ⟨minusNineTenths, Binary64.ofInt 0, Binary64.ofInt 1, Binary64.ofInt 1⟩

/-- The value of the `double` constant `M_PI`, `884279719003555 / 2^48`. -/
def M_PI_value : ℚ := 884279719003555 / 281474976710656

/-- The bounds `[0, 2] x [0, 2]` of the flat 3 x 3 tile. -/
def flatBounds3 : CRSBounds ℚ := ⟨0, 0, 2, 2⟩

/-- The bounds `[2, 4] x [0, 2]`, east neighbour of `flatBounds3`. -/
def flatBoundsEast3 : CRSBounds ℚ := ⟨2, 0, 4, 2⟩

/-- The bounds `[0, 2] x [-2, 0]`, south neighbour of `flatBounds3`. -/
def flatBoundsSouth3 : CRSBounds ℚ := ⟨0, -2, 2, 0⟩

/-- The smallest positive binary64 value, `2^-1074`. -/
def smallestSubnormal : Binary64 := ⟨1⟩

/-- The `overlaps` test of two extents: they share interior points. -/
def sampleOverlaps (a b : CRSBounds Binary64) : Bool :=
  decide (a.minX < b.maxX) && decide (b.minX < a.maxX) &&
    decide (a.minY < b.maxY) && decide (b.minY < a.maxY)

/-- Bounds of a tile of the geodetic grid with 65 samples per tile side and
two tiles at level zero: the tile is `180 / 2^zoom` degrees wide. -/
def geodeticTileBounds (c : TileCoordinate) : CRSBounds Binary64 :=
  let width : Binary64 := Binary64.ofInt 180 / Binary64.ofInt (2 ^ c.zoom)
  { minX := Binary64.ofInt (-180) + Binary64.ofInt c.x * width
    minY := Binary64.ofInt (-90) + Binary64.ofInt c.y * width
    maxX := Binary64.ofInt (-180) + Binary64.ofInt (c.x + 1) * width
    maxY := Binary64.ofInt (-90) + Binary64.ofInt (c.y + 1) * width }

/-- A sample tiler in binary64: geodetic grid of tile size 65, a dataset
covering the whole globe, a list as height cache, the raster reader `reader`,
and a heightfield that always emits the corner strip of its tile. -/
def geodeticTiler (reader : TileCoordinate → Option Unit) :
    MeshTiler Binary64 (List (RasterHeightsBuff Unit)) Unit Unit :=
  { M_PI := ⟨((884279719003555 * 2 ^ 1026 : Nat) : Int)⟩
    doubleToInt := fun d => Int.tdiv d.units (Binary64.unitsPerOne : Int)
    mMeshQualityFactor := Binary64.ofInt 1
    resolution := fun zoom => Binary64.ofInt 180 / Binary64.ofInt 65 / Binary64.ofInt (2 ^ zoom)
    extentWidth := Binary64.ofInt 360
    tileSize := 65
    tileBounds := geodeticTileBounds
    bounds := ⟨Binary64.ofInt (-180), Binary64.ofInt (-90), Binary64.ofInt 180, Binary64.ofInt 90⟩
    maxZoomLevel := 18
    overlaps := sampleOverlaps
    getSW := fun b =>
      ⟨b.minX, b.minY, b.minX + (b.maxX - b.minX) / Binary64.ofInt 2,
        b.minY + (b.maxY - b.minY) / Binary64.ofInt 2⟩
    getNW := fun b =>
      ⟨b.minX, b.maxY - (b.maxY - b.minY) / Binary64.ofInt 2,
        b.minX + (b.maxX - b.minX) / Binary64.ofInt 2, b.maxY⟩
    getNE := fun b =>
      ⟨b.maxX - (b.maxX - b.minX) / Binary64.ofInt 2,
        b.maxY - (b.maxY - b.minY) / Binary64.ofInt 2, b.maxX, b.maxY⟩
    getSE := fun b =>
      ⟨b.maxX - (b.maxX - b.minX) / Binary64.ofInt 2, b.minY, b.maxX,
        b.minY + (b.maxY - b.minY) / Binary64.ofInt 2⟩
    cacheGet := fun cache c => cache.find? (fun b => decide (b.coord = c))
    cachePush := fun cache b => b :: cache
    readRasterHeights := fun c _ _ => reader c
    heightfieldNew := fun _ _ => ()
    applyGeometricError := fun _ _ _ => ()
    applyGeometricErrorDefault := fun _ _ => ()
    applyBorderActivationState := fun _ _ _ => ()
    neighborCoord := fun c borderIndex =>
      if borderIndex = 0 then ⟨c.zoom, c.x + 1, c.y⟩
      else if borderIndex = 1 then ⟨c.zoom, c.x, c.y - 1⟩
      else if borderIndex = 2 then ⟨c.zoom, c.x - 1, c.y⟩
      else ⟨c.zoom, c.x, c.y + 1⟩
    generateMesh := fun _ => [⟨0, 0⟩, ⟨0, 64⟩, ⟨64, 0⟩, ⟨64, 64⟩]
    view := fun _ =>
      { indexOfGridCoordinate := fun x y => y * 65 + x
        height := fun _ _ => Binary64.ofInt 0 } }

/-- The sample tiler over a dataset that covers only the square from
`(0, 0)` to `(10, 10)` degrees. -/
def regionalTiler (reader : TileCoordinate → Option Unit) :
    MeshTiler Binary64 (List (RasterHeightsBuff Unit)) Unit Unit :=
  { geodeticTiler reader with
    bounds := ⟨Binary64.ofInt 0, Binary64.ofInt 0, Binary64.ofInt 10, Binary64.ofInt 10⟩ }

/-- A raster reader that serves every tile. -/
def readerAlwaysOk : TileCoordinate → Option Unit := fun _ => some ()

/-- Heightfield view of a flat 3 x 3 tile: the key of a grid position is
`y * 3 + x`, every height is `0`. -/
def flatHeightfield3 : HeightfieldView ℚ :=
  { indexOfGridCoordinate := fun x y => y * 3 + x
    height := fun _ _ => 0 }

/-- Sink over the bounds `[0, 2] x [0, 2]` and an empty mesh for a 3 x 3 tile. -/
def flatSink3 : WrapperMesh ℚ :=
  WrapperMesh.construct ⟨0, 0, 2, 2⟩ ⟨[], []⟩ 3 3

/-- Strip through the four corners of the 3 x 3 grid: two triangles. -/
def cornerStrip3 : List GridCoord :=
  [⟨0, 0⟩, ⟨0, 2⟩, ⟨2, 0⟩, ⟨2, 2⟩]

/-! ## Triangles of the strip -/

/-- The index list `indices` is the list of grid positions `calls` resolved
through `mIndicesMap`: entry by entry, the index is the one the map holds for
the key of the position. -/
def WrapperMesh.Resolved {α : Type} (hf : HeightfieldView α) (w : WrapperMesh α)
    (calls : List GridCoord) : Prop :=
  w.mMesh.indices.map some =
    calls.map (fun p => w.mIndicesMap.lookup (hf.indexOfGridCoordinate p.x p.y))

/-- The `k`-th group of three entries of a list, counting from `k = 1`. -/
def triangleAt {γ : Type} (l : List γ) (k : Nat) : List γ :=
  (l.drop (3 * (k - 1))).take 3

/-! ## Reading the trace of a call -/

/-- The cache lookups of a trace, in program order, each with whether it hit. -/
def lookups {α : Type} (trace : List (Event α)) : List (TileCoordinate × Bool) :=
  trace.filterMap (fun e =>
    match e with
    | Event.cacheGet c hit => some (c, hit)
    | _ => none)

/-- The raster reads of a trace, in program order, each with whether it
succeeded. -/
def reads {α : Type} (trace : List (Event α)) : List (TileCoordinate × Bool) :=
  trace.filterMap (fun e =>
    match e with
    | Event.rasterRead c ok => some (c, ok)
    | _ => none)

/-- The tiles whose buffer a trace pushes into the cache, in program order. -/
def pushes {α : Type} (trace : List (Event α)) : List TileCoordinate :=
  trace.filterMap (fun e =>
    match e with
    | Event.cachePush c => some c
    | _ => none)

/-- The tiles whose buffer a trace deletes, in program order. -/
def deletes {α : Type} (trace : List (Event α)) : List TileCoordinate :=
  trace.filterMap (fun e =>
    match e with
    | Event.bufferDelete c => some c
    | _ => none)

/-- The `applyGeometricError(error, force)` calls of a trace on the
heightfield of the tile itself. -/
def thresholds {α : Type} (trace : List (Event α)) : List (TileCoordinate × α × Bool) :=
  trace.filterMap (fun e =>
    match e with
    | Event.applyGeometricError c error force => some (c, error, force)
    | _ => none)

/-- The `applyBorderActivationState` calls of a trace: the tile, the
neighbour and the border index. -/
def propagations {α : Type} (trace : List (Event α)) :
    List (TileCoordinate × TileCoordinate × Nat) :=
  trace.filterMap (fun e =>
    match e with
    | Event.applyBorderActivationState c n borderIndex => some (c, n, borderIndex)
    | _ => none)

/-- Modelled from the spec: whether a call reads the height samples of the
buffer of the tile `b`, through a heightfield built over that buffer: the
two thresholds, the border propagation (which reads the heightfield of the
tile and that of the neighbour) and `generateMesh`. -/
def Event.readsBuffer {α : Type} (e : Event α) (b : TileCoordinate) : Bool :=
  match e with
  | Event.applyGeometricError c _ _ => decide (c = b)
  | Event.applyNeighborGeometricError c _ => decide (c = b)
  | Event.applyBorderActivationState c n _ => decide (c = b) || decide (n = b)
  | Event.generateMesh c => decide (c = b)
  | _ => false

/-- Whether the trace has a push into the cache and, after it, a call that
reads the buffer of the tile `b`. -/
def readAfterPush {α : Type} (b : TileCoordinate) : List (Event α) → Bool
  | [] => false
  | e :: rest =>
    match e with
    | Event.cachePush _ => rest.any (fun e1 => e1.readsBuffer b)
    | _ => readAfterPush b rest

/-- Whether the trace has a lookup of the tile `b` that hits and, after it, a
push followed by a call that reads the buffer of `b`. -/
def borrowedReadAfterPush {α : Type} (b : TileCoordinate) : List (Event α) → Bool
  | [] => false
  | e :: rest =>
    match e with
    | Event.cacheGet c true =>
      (decide (c = b) && readAfterPush b rest) || borrowedReadAfterPush b rest
    | _ => borrowedReadAfterPush b rest

/-- The calls of one border iteration that runs to its end, lines 147-166 of
`prepareSettingsOfTile`, for the neighbour `n` at border `borderIndex`; `hit`
tells whether the cache served the neighbour. -/
def borderEvents {α : Type} (coord n : TileCoordinate) (borderIndex : Nat) (err : α)
    (hit : Bool) : List (Event α) :=
  let neighborAtY : Bool := borderIndex % 2 != 0
  (if neighborAtY then [Event.cacheGet n hit] else []) ++
    (if hit then [] else [Event.rasterRead n true]) ++
    [Event.applyNeighborGeometricError n err,
      Event.applyBorderActivationState coord n borderIndex] ++
    (if hit then [] else if neighborAtY then [Event.cachePush n] else [Event.bufferDelete n])

/-- The border indices of `coord` whose neighbour bounds overlap the dataset
bounds, in the order of the loop. -/
def MeshTiler.overlappingBorders {α κ β η : Type} (T : MeshTiler α κ β η)
    (coord : TileCoordinate) (borders : List Nat) : List Nat :=
  borders.filter (fun i => T.overlaps T.bounds (T.tileBounds (T.neighborCoord coord i)))

/-- The calls of the border iterations `visits`, each a border index with
whether the cache served its neighbour. -/
def MeshTiler.visitEvents {α κ β η : Type} (T : MeshTiler α κ β η) (coord : TileCoordinate)
    (err : α) (visits : List (Nat × Bool)) : List (Event α) :=
  visits.flatMap (fun v => borderEvents coord (T.neighborCoord coord v.1) v.1 err v.2)

/-- A run over the border indices `borders` from state `st` to state `st1`
made the iterations `visits` and pushed the buffers `pushed`. -/
def MeshTiler.BordersDone {α κ β η : Type} (T : MeshTiler α κ β η) (coord : TileCoordinate)
    (err : α) (borders : List Nat) (st st1 : TilerState κ α) (visits : List (Nat × Bool))
    (pushed : List (RasterHeightsBuff β)) : Prop :=
  visits.map Prod.fst = T.overlappingBorders coord borders ∧
  (∀ v ∈ visits, v.2 = true → v.1 % 2 = 1) ∧
  st1.trace = st.trace ++ T.visitEvents coord err visits ∧
  st1.cache = pushed.foldl T.cachePush st.cache ∧
  pushed.map (fun b => b.coord) = pushes (T.visitEvents coord err visits) ∧
  ∀ b ∈ pushed, T.readRasterHeights b.coord T.tileSize T.tileSize = some b.mHeights

/-! ## The heightfield handed to `generateMesh` -/

/-- The heightfield of the tile after the border iterations `steps` (border
index, whether the cache served the neighbour, the neighbour buffer), lines
159-161: for each one a heightfield is built over the neighbour buffer,
thresholded with the default flag, and its border activation is propagated
into the heightfield of the tile. -/
def MeshTiler.propagateBorders {α κ β η : Type} (T : MeshTiler α κ β η) (TILE_SIZE : Nat)
    (maximumGeometricError : α) (heightfield : η)
    (steps : List (Nat × Bool × RasterHeightsBuff β)) : η :=
  steps.foldl (fun hf s =>
    T.applyBorderActivationState hf
      (T.applyGeometricErrorDefault (T.heightfieldNew s.2.2.mHeights TILE_SIZE)
        maximumGeometricError) s.1) heightfield

/-- The cache content after the border iterations `steps`, lines 163-166: the
buffer of an odd-index neighbour that the cache did not serve is pushed. -/
def MeshTiler.cacheAfter {α κ β η : Type} (T : MeshTiler α κ β η) (cache : κ)
    (steps : List (Nat × Bool × RasterHeightsBuff β)) : κ :=
  steps.foldl (fun c s => if s.1 % 2 != 0 && !s.2.1 then T.cachePush c s.2.2 else c) cache

/-- Where the buffers of the border iterations `steps` come from, lines
150-157, starting with the cache content `cache`: an odd-index neighbour is
looked up in the cache as it is at that iteration, and the buffer is the one
found there exactly when the iteration is marked as served by the cache; an
even-index neighbour is never served by the cache; a buffer not served by
the cache holds what `readRasterHeights` returns for the neighbour. -/
def MeshTiler.BuffersObtained {α κ β η : Type} (T : MeshTiler α κ β η)
    (coord : TileCoordinate) : κ → List (Nat × Bool × RasterHeightsBuff β) → Prop
  | _, [] => True
  | cache, s :: rest =>
    (if s.1 % 2 != 0 then
        T.cacheGet cache (T.neighborCoord coord s.1) = (if s.2.1 then some s.2.2 else none)
      else s.2.1 = false) ∧
    (s.2.1 = false →
      s.2.2.coord = T.neighborCoord coord s.1 ∧
      T.readRasterHeights (T.neighborCoord coord s.1) T.tileSize T.tileSize =
        some s.2.2.mHeights) ∧
    MeshTiler.BuffersObtained T coord (T.cacheAfter cache [s]) rest

/-! ## Index safety of the assembled mesh -/

section AssemblerProofs

variable {α : Type} [Add α] [Sub α] [Mul α] [IntCast α]

theorem WrapperMesh.appendVertex_of_unseen (w : WrapperMesh α) (hf : HeightfieldView α)
    (x y : Int) (h : w.mIndicesMap.lookup (hf.indexOfGridCoordinate x y) = none) :
    w.appendVertex hf x y =
      { w with
        mMesh :=
          { vertices := w.mMesh.vertices ++ [w.gridVertex hf x y]
            indices := w.mMesh.indices ++ [w.mMesh.vertices.length] }
        mIndicesMap := (hf.indexOfGridCoordinate x y, w.mMesh.vertices.length) :: w.mIndicesMap } := by
  simp only [WrapperMesh.appendVertex, h]

theorem WrapperMesh.appendVertex_of_seen (w : WrapperMesh α) (hf : HeightfieldView α)
    (x y : Int) (iv : Nat) (h : w.mIndicesMap.lookup (hf.indexOfGridCoordinate x y) = some iv) :
    w.appendVertex hf x y =
      { w with mMesh := { w.mMesh with indices := w.mMesh.indices ++ [iv] } } := by
  simp only [WrapperMesh.appendVertex, h]

theorem WrapperMesh.appendVertex_vertices_length_le (w : WrapperMesh α) (hf : HeightfieldView α)
    (x y : Int) :
    w.mMesh.vertices.length ≤ (w.appendVertex hf x y).mMesh.vertices.length := by
  cases h : w.mIndicesMap.lookup (hf.indexOfGridCoordinate x y) with
  | none => rw [w.appendVertex_of_unseen hf x y h]; simp
  | some iv => rw [w.appendVertex_of_seen hf x y iv h]

theorem WrapperMesh.appendVertex_indices_length (w : WrapperMesh α) (hf : HeightfieldView α)
    (x y : Int) :
    (w.appendVertex hf x y).mMesh.indices.length = w.mMesh.indices.length + 1 := by
  cases h : w.mIndicesMap.lookup (hf.indexOfGridCoordinate x y) with
  | none => rw [w.appendVertex_of_unseen hf x y h]; simp
  | some iv => rw [w.appendVertex_of_seen hf x y iv h]; simp

theorem WrapperMesh.appendVertex_indices_lt (w : WrapperMesh α) (hf : HeightfieldView α)
    (x y : Int)
    (hi : ∀ i ∈ w.mMesh.indices, i < w.mMesh.vertices.length)
    (hm : ∀ k v, w.mIndicesMap.lookup k = some v → v < w.mMesh.vertices.length) :
    (∀ i ∈ (w.appendVertex hf x y).mMesh.indices,
        i < (w.appendVertex hf x y).mMesh.vertices.length) ∧
    (∀ k v, (w.appendVertex hf x y).mIndicesMap.lookup k = some v →
        v < (w.appendVertex hf x y).mMesh.vertices.length) := by
  cases h : w.mIndicesMap.lookup (hf.indexOfGridCoordinate x y) with
  | none =>
    rw [w.appendVertex_of_unseen hf x y h]
    simp only [List.mem_append, List.mem_singleton, List.length_append, List.length_singleton]
    refine ⟨?_, ?_⟩
    · rintro i (hi1 | rfl)
      · exact Nat.lt_succ_of_lt (hi i hi1)
      · exact Nat.lt_succ_self _
    · intro k v hkv
      rw [List.lookup_cons] at hkv
      cases hk : (k == hf.indexOfGridCoordinate x y) with
      | true =>
        rw [hk] at hkv
        simp only [Option.some.injEq] at hkv
        rw [← hkv]
        exact Nat.lt_succ_self _
      | false =>
        rw [hk] at hkv
        exact Nat.lt_succ_of_lt (hm k v hkv)
  | some iv =>
    rw [w.appendVertex_of_seen hf x y iv h]
    simp only [List.mem_append, List.mem_singleton]
    refine ⟨?_, hm⟩
    rintro i (hi1 | rfl)
    · exact hi i hi1
    · exact hm _ _ h

theorem WrapperMesh.appendVertex_mTriIndex (w : WrapperMesh α) (hf : HeightfieldView α)
    (x y : Int) : (w.appendVertex hf x y).mTriIndex = w.mTriIndex := by
  cases h : w.mIndicesMap.lookup (hf.indexOfGridCoordinate x y) with
  | none => rw [w.appendVertex_of_unseen hf x y h]
  | some iv => rw [w.appendVertex_of_seen hf x y iv h]

theorem WrapperMesh.appendVertex_mTriOddOrder (w : WrapperMesh α) (hf : HeightfieldView α)
    (x y : Int) : (w.appendVertex hf x y).mTriOddOrder = w.mTriOddOrder := by
  cases h : w.mIndicesMap.lookup (hf.indexOfGridCoordinate x y) with
  | none => rw [w.appendVertex_of_unseen hf x y h]
  | some iv => rw [w.appendVertex_of_seen hf x y iv h]

omit [Add α] [Sub α] [Mul α] [IntCast α] in
theorem WrapperMesh.clear_safe (w : WrapperMesh α) : w.clear.Safe := by
  refine ⟨?_, ?_, ?_, ?_⟩ <;> simp [WrapperMesh.clear]

theorem WrapperMesh.emit_vertex_of_zero (w : WrapperMesh α) (hf : HeightfieldView α)
    (x y : Int) (h : w.mTriIndex = 0) :
    w.emit_vertex hf x y =
      some { w with mTriangles := { w.mTriangles with s0 := ⟨x, y⟩ }, mTriIndex := 1 } := by
  simp [WrapperMesh.emit_vertex, TriSlots.write, h]

theorem WrapperMesh.emit_vertex_of_one (w : WrapperMesh α) (hf : HeightfieldView α)
    (x y : Int) (h : w.mTriIndex = 1) :
    w.emit_vertex hf x y =
      some { w with mTriangles := { w.mTriangles with s1 := ⟨x, y⟩ }, mTriIndex := 2 } := by
  simp [WrapperMesh.emit_vertex, TriSlots.write, h]

/-- The state in which `emit_vertex` runs its three `appendVertex` calls when
the third slot has just been filled: slot 2 written, counter at 3, order flag
flipped. -/
theorem WrapperMesh.emit_vertex_of_two (w : WrapperMesh α) (hf : HeightfieldView α)
    (x y : Int) (h : w.mTriIndex = 2) :
    w.emit_vertex hf x y =
      some
        { (if (!w.mTriOddOrder) = true then
            (({ w with mTriangles := { w.mTriangles with s2 := ⟨x, y⟩ }, mTriIndex := 3,
                       mTriOddOrder := !w.mTriOddOrder }.appendVertex hf
                w.mTriangles.s0.x w.mTriangles.s0.y).appendVertex hf
                w.mTriangles.s1.x w.mTriangles.s1.y).appendVertex hf x y
          else
            (({ w with mTriangles := { w.mTriangles with s2 := ⟨x, y⟩ }, mTriIndex := 3,
                       mTriOddOrder := !w.mTriOddOrder }.appendVertex hf
                w.mTriangles.s1.x w.mTriangles.s1.y).appendVertex hf
                w.mTriangles.s0.x w.mTriangles.s0.y).appendVertex hf x y) with
          mTriangles := { s0 := w.mTriangles.s1, s1 := ⟨x, y⟩, s2 := ⟨x, y⟩ }
          mTriIndex := 2 } := by
  simp only [WrapperMesh.emit_vertex, TriSlots.write, h]
  cases hodd : w.mTriOddOrder <;>
    simp [WrapperMesh.appendVertex_mTriIndex]

/-- Three consecutive `appendVertex` calls keep every index in range and add
exactly three indices. -/
theorem WrapperMesh.appendVertex_three (w : WrapperMesh α) (hf : HeightfieldView α)
    (a b c : GridCoord)
    (hi : ∀ i ∈ w.mMesh.indices, i < w.mMesh.vertices.length)
    (hm : ∀ k v, w.mIndicesMap.lookup k = some v → v < w.mMesh.vertices.length) :
    (∀ i ∈ (((w.appendVertex hf a.x a.y).appendVertex hf b.x b.y).appendVertex
          hf c.x c.y).mMesh.indices,
        i < (((w.appendVertex hf a.x a.y).appendVertex hf b.x b.y).appendVertex
          hf c.x c.y).mMesh.vertices.length) ∧
    (∀ k v, (((w.appendVertex hf a.x a.y).appendVertex hf b.x b.y).appendVertex
          hf c.x c.y).mIndicesMap.lookup k = some v →
        v < (((w.appendVertex hf a.x a.y).appendVertex hf b.x b.y).appendVertex
          hf c.x c.y).mMesh.vertices.length) ∧
    (((w.appendVertex hf a.x a.y).appendVertex hf b.x b.y).appendVertex
          hf c.x c.y).mMesh.indices.length = w.mMesh.indices.length + 3 := by
  obtain ⟨hi1, hm1⟩ := w.appendVertex_indices_lt hf a.x a.y hi hm
  obtain ⟨hi2, hm2⟩ := (w.appendVertex hf a.x a.y).appendVertex_indices_lt hf b.x b.y hi1 hm1
  obtain ⟨hi3, hm3⟩ :=
    ((w.appendVertex hf a.x a.y).appendVertex hf b.x b.y).appendVertex_indices_lt
      hf c.x c.y hi2 hm2
  refine ⟨hi3, hm3, ?_⟩
  rw [WrapperMesh.appendVertex_indices_length, WrapperMesh.appendVertex_indices_length,
    WrapperMesh.appendVertex_indices_length]

theorem WrapperMesh.emit_vertex_safe (w : WrapperMesh α) (hf : HeightfieldView α)
    (x y : Int) (hs : w.Safe) :
    ∃ w1, w.emit_vertex hf x y = some w1 ∧ w1.Safe := by
  obtain ⟨hi, hm, h3, h0 | h1 | h2⟩ := hs
  · exact ⟨_, w.emit_vertex_of_zero hf x y h0, hi, hm, h3, Or.inr (Or.inl rfl)⟩
  · exact ⟨_, w.emit_vertex_of_one hf x y h1, hi, hm, h3, Or.inr (Or.inr rfl)⟩
  · refine ⟨_, w.emit_vertex_of_two hf x y h2, ?_⟩
    cases hodd : w.mTriOddOrder
    · obtain ⟨a1, a2, a3⟩ :=
        WrapperMesh.appendVertex_three
          { w with mTriangles := { w.mTriangles with s2 := ⟨x, y⟩ }, mTriIndex := 3,
                   mTriOddOrder := !w.mTriOddOrder }
          hf w.mTriangles.s0 w.mTriangles.s1 ⟨x, y⟩ hi hm
      rw [hodd] at a1 a2 a3
      have h := (Nat.dvd_add_right h3).mpr (dvd_refl 3)
      rw [← a3] at h
      exact ⟨by simpa using a1, by simpa using a2, by simpa using h, Or.inr (Or.inr rfl)⟩
    · obtain ⟨a1, a2, a3⟩ :=
        WrapperMesh.appendVertex_three
          { w with mTriangles := { w.mTriangles with s2 := ⟨x, y⟩ }, mTriIndex := 3,
                   mTriOddOrder := !w.mTriOddOrder }
          hf w.mTriangles.s1 w.mTriangles.s0 ⟨x, y⟩ hi hm
      rw [hodd] at a1 a2 a3
      have h := (Nat.dvd_add_right h3).mpr (dvd_refl 3)
      rw [← a3] at h
      exact ⟨by simpa using a1, by simpa using a2, by simpa using h, Or.inr (Or.inr rfl)⟩

theorem WrapperMesh.emitAll_safe (hf : HeightfieldView α) (vs : List GridCoord) :
    ∀ w : WrapperMesh α, w.Safe → ∃ w1, WrapperMesh.emitAll hf w vs = some w1 ∧ w1.Safe := by
  induction vs with
  | nil => intro w hs; exact ⟨w, rfl, hs⟩
  | cons p ps ih =>
    intro w hs
    obtain ⟨w1, he, hs1⟩ := w.emit_vertex_safe hf p.x p.y hs
    obtain ⟨w2, he2, hs2⟩ := ih w1 hs1
    exact ⟨w2, by simp only [WrapperMesh.emitAll, he, he2], hs2⟩

/-! ## Vertex deduplication -/

theorem firstUses_append_singleton (calls : List GridCoord) (p : GridCoord) :
    firstUses (calls ++ [p]) =
      if p ∈ firstUses calls then firstUses calls else firstUses calls ++ [p] := by
  simp [firstUses, List.foldl_append]

theorem firstUses_mem (calls : List GridCoord) : ∀ p, p ∈ firstUses calls ↔ p ∈ calls := by
  induction calls using List.reverseRecOn with
  | nil => intro p; simp [firstUses]
  | append_singleton l a ih =>
    intro p
    rw [firstUses_append_singleton]
    by_cases ha : a ∈ firstUses l
    · rw [if_pos ha, List.mem_append, List.mem_singleton, ih]
      constructor
      · exact fun h => Or.inl h
      · rintro (h | rfl)
        · exact h
        · exact (ih _).mp ha
    · rw [if_neg ha, List.mem_append, List.mem_append, ih]

theorem firstUses_nodup (calls : List GridCoord) : (firstUses calls).Nodup := by
  induction calls using List.reverseRecOn with
  | nil => simp [firstUses]
  | append_singleton l a ih =>
    rw [firstUses_append_singleton]
    by_cases ha : a ∈ firstUses l
    · rw [if_pos ha]; exact ih
    · rw [if_neg ha]
      exact List.Nodup.append ih (List.nodup_singleton a) (by simpa using ha)

theorem firstUses_length (calls : List GridCoord) :
    (firstUses calls).length = calls.dedup.length := by
  rw [← List.card_toFinset, ← List.toFinset_card_of_nodup (firstUses_nodup calls)]
  congr 1
  ext p
  simp [firstUses_mem]

theorem WrapperMesh.appendVertex_assembled (hf : HeightfieldView α) (D : GridCoord → Prop)
    (hinj : ∀ p q, D p → D q →
      hf.indexOfGridCoordinate p.x p.y = hf.indexOfGridCoordinate q.x q.y → p = q)
    (w : WrapperMesh α) (calls : List GridCoord) (p : GridCoord) (hp : D p)
    (h : w.Assembled hf D calls) :
    (w.appendVertex hf p.x p.y).Assembled hf D (calls ++ [p]) := by
  obtain ⟨hv, hi, hm, hd⟩ := h
  have hlen : w.mMesh.vertices.length = (firstUses calls).length := by
    rw [hv, List.length_map]
  have hd1 : ∀ c ∈ calls ++ [p], D c := by
    intro c hc
    rcases List.mem_append.mp hc with hc | hc
    · exact hd c hc
    · rw [List.mem_singleton.mp hc]; exact hp
  have hmp := hm p hp
  cases hl : w.mIndicesMap.lookup (hf.indexOfGridCoordinate p.x p.y) with
  | none =>
    have hnot : p ∉ firstUses calls := by
      intro hin
      rw [hl, if_pos hin] at hmp
      exact Option.noConfusion hmp
    have hfu : firstUses (calls ++ [p]) = firstUses calls ++ [p] := by
      rw [firstUses_append_singleton, if_neg hnot]
    rw [w.appendVertex_of_unseen hf p.x p.y hl]
    refine ⟨?_, ?_, ?_, hd1⟩
    · show w.mMesh.vertices ++ [w.gridVertex hf p.x p.y] =
        (firstUses (calls ++ [p])).map (fun q => w.gridVertex hf q.x q.y)
      rw [hfu, List.map_append, hv]
      rfl
    · show w.mMesh.indices ++ [w.mMesh.vertices.length] =
        (calls ++ [p]).map (fun q => (firstUses (calls ++ [p])).indexOf q)
      rw [hfu, List.map_append, hi, hlen]
      congr 1
      · apply List.map_congr_left
        intro c hc
        exact (List.indexOf_append_of_mem ((firstUses_mem calls c).mpr hc)).symm
      · simp [List.indexOf_append_of_not_mem hnot]
    · intro q hq
      show ((hf.indexOfGridCoordinate p.x p.y, w.mMesh.vertices.length) ::
          w.mIndicesMap).lookup (hf.indexOfGridCoordinate q.x q.y) = _
      rw [hfu, List.lookup_cons]
      by_cases hqp : q = p
      · subst hqp
        simp [List.indexOf_append_of_not_mem hnot, hlen]
      · have hne : hf.indexOfGridCoordinate q.x q.y ≠ hf.indexOfGridCoordinate p.x p.y :=
          fun he => hqp (hinj q p hq hp he)
        have hb : (hf.indexOfGridCoordinate q.x q.y == hf.indexOfGridCoordinate p.x p.y)
            = false := by simpa using hne
        rw [hb]
        show w.mIndicesMap.lookup (hf.indexOfGridCoordinate q.x q.y) = _
        rw [hm q hq]
        by_cases hin : q ∈ firstUses calls
        · rw [if_pos hin, if_pos (List.mem_append_left _ hin),
            List.indexOf_append_of_mem hin]
        · have hin1 : q ∉ firstUses calls ++ [p] := by
            simp [hin, hqp]
          rw [if_neg hin, if_neg hin1]
  | some iv =>
    have hin : p ∈ firstUses calls := by
      by_contra hnot
      rw [hl, if_neg hnot] at hmp
      exact Option.noConfusion hmp
    have hiv : iv = (firstUses calls).indexOf p := by
      rw [hl, if_pos hin] at hmp
      exact Option.some.inj hmp
    have hfu : firstUses (calls ++ [p]) = firstUses calls := by
      rw [firstUses_append_singleton, if_pos hin]
    rw [w.appendVertex_of_seen hf p.x p.y iv hl]
    refine ⟨?_, ?_, ?_, hd1⟩
    · show w.mMesh.vertices = (firstUses (calls ++ [p])).map (fun q => w.gridVertex hf q.x q.y)
      rw [hfu]
      exact hv
    · show w.mMesh.indices ++ [iv] =
        (calls ++ [p]).map (fun q => (firstUses (calls ++ [p])).indexOf q)
      rw [hfu, List.map_append, hi, hiv]
      rfl
    · intro q hq
      show w.mIndicesMap.lookup (hf.indexOfGridCoordinate q.x q.y) = _
      rw [hfu]
      exact hm q hq

theorem WrapperMesh.assembled_of_fields_eq (hf : HeightfieldView α) (D : GridCoord → Prop)
    (w w1 : WrapperMesh α) (calls : List GridCoord)
    (hb : w1.mBounds = w.mBounds) (hx : w1.mCellSizeX = w.mCellSizeX)
    (hy : w1.mCellSizeY = w.mCellSizeY) (hmesh : w1.mMesh = w.mMesh)
    (hmap : w1.mIndicesMap = w.mIndicesMap) (h : w.Assembled hf D calls) :
    w1.Assembled hf D calls := by
  unfold WrapperMesh.Assembled WrapperMesh.gridVertex at *
  rw [hb, hx, hy, hmesh, hmap]
  exact h

theorem WrapperMesh.emit_vertex_assembled (hf : HeightfieldView α) (D : GridCoord → Prop)
    (hinj : ∀ p q, D p → D q →
      hf.indexOfGridCoordinate p.x p.y = hf.indexOfGridCoordinate q.x q.y → p = q)
    (w : WrapperMesh α) (calls : List GridCoord) (x y : Int)
    (hD : ∀ p ∈ w.appendCalls x y, D p)
    (ht : w.mTriIndex = 0 ∨ w.mTriIndex = 1 ∨ w.mTriIndex = 2)
    (h : w.Assembled hf D calls) :
    ∃ w1, w.emit_vertex hf x y = some w1 ∧ w1.Assembled hf D (calls ++ w.appendCalls x y) := by
  rcases ht with h0 | h1 | h2
  · refine ⟨_, w.emit_vertex_of_zero hf x y h0, ?_⟩
    have hc : w.appendCalls x y = [] := by simp [WrapperMesh.appendCalls, h0]
    rw [hc, List.append_nil]
    exact WrapperMesh.assembled_of_fields_eq hf D w _ calls rfl rfl rfl rfl rfl h
  · refine ⟨_, w.emit_vertex_of_one hf x y h1, ?_⟩
    have hc : w.appendCalls x y = [] := by simp [WrapperMesh.appendCalls, h1]
    rw [hc, List.append_nil]
    exact WrapperMesh.assembled_of_fields_eq hf D w _ calls rfl rfl rfl rfl rfl h
  · refine ⟨_, w.emit_vertex_of_two hf x y h2, ?_⟩
    have h2a : WrapperMesh.Assembled hf D
        { w with
          mTriangles := { w.mTriangles with s2 := ⟨x, y⟩ }
          mTriIndex := 3
          mTriOddOrder := !w.mTriOddOrder } calls :=
      WrapperMesh.assembled_of_fields_eq hf D w _ calls rfl rfl rfl rfl rfl h
    cases hodd : w.mTriOddOrder
    · have hc : w.appendCalls x y = [w.mTriangles.s0, w.mTriangles.s1, ⟨x, y⟩] := by
        simp [WrapperMesh.appendCalls, h2, hodd]
      rw [hc] at hD ⊢
      have a1 := WrapperMesh.appendVertex_assembled hf D hinj _ calls w.mTriangles.s0
        (hD _ (by simp)) h2a
      have a2 := WrapperMesh.appendVertex_assembled hf D hinj _ _ w.mTriangles.s1
        (hD _ (by simp)) a1
      have a3 := WrapperMesh.appendVertex_assembled hf D hinj _ _ (⟨x, y⟩ : GridCoord)
        (hD _ (by simp)) a2
      rw [List.append_assoc, List.append_assoc] at a3
      rw [hodd] at a3
      refine WrapperMesh.assembled_of_fields_eq hf D _ _ _ ?_ ?_ ?_ ?_ ?_ a3 <;> simp
    · have hc : w.appendCalls x y = [w.mTriangles.s1, w.mTriangles.s0, ⟨x, y⟩] := by
        simp [WrapperMesh.appendCalls, h2, hodd]
      rw [hc] at hD ⊢
      have a1 := WrapperMesh.appendVertex_assembled hf D hinj _ calls w.mTriangles.s1
        (hD _ (by simp)) h2a
      have a2 := WrapperMesh.appendVertex_assembled hf D hinj _ _ w.mTriangles.s0
        (hD _ (by simp)) a1
      have a3 := WrapperMesh.appendVertex_assembled hf D hinj _ _ (⟨x, y⟩ : GridCoord)
        (hD _ (by simp)) a2
      rw [List.append_assoc, List.append_assoc] at a3
      rw [hodd] at a3
      refine WrapperMesh.assembled_of_fields_eq hf D _ _ _ ?_ ?_ ?_ ?_ ?_ a3 <;> simp

theorem WrapperMesh.emitAll_assembled (hf : HeightfieldView α) (D : GridCoord → Prop)
    (hinj : ∀ p q, D p → D q →
      hf.indexOfGridCoordinate p.x p.y = hf.indexOfGridCoordinate q.x q.y → p = q)
    (vs : List GridCoord) :
    ∀ (w : WrapperMesh α) (calls : List GridCoord),
      (∀ p ∈ WrapperMesh.appendCallsAll hf w vs, D p) → w.Safe → w.Assembled hf D calls →
      ∃ w1, WrapperMesh.emitAll hf w vs = some w1 ∧
        w1.Assembled hf D (calls ++ WrapperMesh.appendCallsAll hf w vs) := by
  induction vs with
  | nil =>
    intro w calls _ _ h
    exact ⟨w, rfl, by simpa [WrapperMesh.appendCallsAll] using h⟩
  | cons p ps ih =>
    intro w calls hD hs h
    obtain ⟨w1, he, hs1⟩ := w.emit_vertex_safe hf p.x p.y hs
    have hcalls : WrapperMesh.appendCallsAll hf w (p :: ps) =
        w.appendCalls p.x p.y ++ WrapperMesh.appendCallsAll hf w1 ps := by
      simp only [WrapperMesh.appendCallsAll, he]
    rw [hcalls] at hD ⊢
    obtain ⟨w1a, hea, ha⟩ := WrapperMesh.emit_vertex_assembled hf D hinj w calls p.x p.y
      (fun q hq => hD q (List.mem_append_left _ hq)) hs.2.2.2 h
    rw [he] at hea
    cases Option.some.inj hea
    obtain ⟨w2, he2, ha2⟩ := ih w1 (calls ++ w.appendCalls p.x p.y)
      (fun q hq => hD q (List.mem_append_right _ hq)) hs1 ha
    refine ⟨w2, by simp only [WrapperMesh.emitAll, he, he2], ?_⟩
    rw [← List.append_assoc]
    exact ha2

/-- With two slots filled, the `appendVertex` calls of the rest of a run are
the triangle corners of the strip that starts with the two buffered vertices. -/
theorem WrapperMesh.appendCallsAll_of_two (hf : HeightfieldView α) (rest : List GridCoord) :
    ∀ (w : WrapperMesh α), w.mTriIndex = 2 →
      WrapperMesh.appendCallsAll hf w rest =
        stripCorners w.mTriOddOrder (w.mTriangles.s0 :: w.mTriangles.s1 :: rest) := by
  induction rest with
  | nil => intro w _; simp [WrapperMesh.appendCallsAll, stripCorners]
  | cons c rest ih =>
    intro w h2
    have he := w.emit_vertex_of_two hf c.x c.y h2
    simp only [WrapperMesh.appendCallsAll, he]
    rw [ih _ rfl]
    cases hodd : w.mTriOddOrder <;>
      simp [WrapperMesh.appendCalls, h2, hodd, stripCorners,
        WrapperMesh.appendVertex_mTriOddOrder]

theorem WrapperMesh.appendCallsAll_clear (hf : HeightfieldView α) (w : WrapperMesh α)
    (vs : List GridCoord) :
    WrapperMesh.appendCallsAll hf w.clear vs = stripCorners false vs := by
  match vs with
  | [] => simp [WrapperMesh.appendCallsAll, stripCorners]
  | [a] =>
    have h0 := w.clear.emit_vertex_of_zero hf a.x a.y rfl
    simp only [WrapperMesh.appendCallsAll, h0]
    simp [WrapperMesh.appendCalls, WrapperMesh.clear, stripCorners]
  | a :: b :: rest =>
    have h0 := w.clear.emit_vertex_of_zero hf a.x a.y rfl
    have h1 := WrapperMesh.emit_vertex_of_one
      { w.clear with mTriangles := { w.clear.mTriangles with s0 := ⟨a.x, a.y⟩ }, mTriIndex := 1 }
      hf b.x b.y rfl
    simp only [WrapperMesh.appendCallsAll, h0, h1]
    rw [WrapperMesh.appendCallsAll_of_two hf rest _ rfl]
    simp [WrapperMesh.appendCalls, WrapperMesh.clear]

theorem stripCorners_subset (rest : List GridCoord) :
    ∀ (odd : Bool) (a b : GridCoord), ∀ p ∈ stripCorners odd (a :: b :: rest),
      p ∈ a :: b :: rest := by
  induction rest with
  | nil => intro odd a b p hp; simp [stripCorners] at hp
  | cons c rest ih =>
    intro odd a b p hp
    rw [stripCorners, List.mem_append] at hp
    rcases hp with hp | hp
    · cases odd <;> simp at hp <;> rcases hp with rfl | rfl | rfl <;> simp
    · exact List.mem_cons_of_mem _ (ih (!odd) b c p hp)

theorem stripCorners_superset (rest : List GridCoord) :
    ∀ (odd : Bool) (a b c : GridCoord), ∀ p ∈ a :: b :: c :: rest,
      p ∈ stripCorners odd (a :: b :: c :: rest) := by
  induction rest with
  | nil =>
    intro odd a b c p hp
    cases odd <;> simp [stripCorners] at hp ⊢ <;> tauto
  | cons d rest ih =>
    intro odd a b c p hp
    rw [stripCorners, List.mem_append]
    rcases List.mem_cons.mp hp with rfl | hp1
    · left; cases odd <;> simp
    · exact Or.inr (ih (!odd) b c d p hp1)

theorem stripCorners_mem_of_mem (vs : List GridCoord) (odd : Bool) :
    ∀ p ∈ stripCorners odd vs, p ∈ vs := by
  match vs with
  | [] => intro p hp; simp [stripCorners] at hp
  | [a] => intro p hp; simp [stripCorners] at hp
  | a :: b :: rest => exact stripCorners_subset rest odd a b

theorem stripCorners_mem_iff (vs : List GridCoord) (odd : Bool) (h3 : 3 ≤ vs.length) :
    ∀ p, p ∈ stripCorners odd vs ↔ p ∈ vs := by
  match vs, h3 with
  | a :: b :: c :: rest, _ =>
    exact fun p => ⟨stripCorners_subset (c :: rest) odd a b p,
      stripCorners_superset rest odd a b c p⟩

omit [Add α] [Sub α] [Mul α] [IntCast α] in
theorem WrapperMesh.clear_assembled [Add α] [Sub α] [Mul α] [IntCast α]
    (hf : HeightfieldView α) (D : GridCoord → Prop) (w : WrapperMesh α) :
    w.clear.Assembled hf D [] := by
  refine ⟨?_, ?_, ?_, ?_⟩ <;> simp [WrapperMesh.clear, firstUses]

/-! ## Geographic position of the created vertices -/

theorem WrapperMesh.gridBuilt_of_fields_eq (hf : HeightfieldView α) (S : GridCoord → Prop)
    (base w w1 : WrapperMesh α)
    (hb : w1.mBounds = w.mBounds) (hx : w1.mCellSizeX = w.mCellSizeX)
    (hy : w1.mCellSizeY = w.mCellSizeY) (hmesh : w1.mMesh = w.mMesh)
    (h : WrapperMesh.GridBuilt hf S base w) : WrapperMesh.GridBuilt hf S base w1 := by
  unfold WrapperMesh.GridBuilt at *
  rw [hb, hx, hy, hmesh]
  exact h

theorem WrapperMesh.appendVertex_gridBuilt (hf : HeightfieldView α) (S : GridCoord → Prop)
    (base w : WrapperMesh α) (p : GridCoord) (hp : S p)
    (h : WrapperMesh.GridBuilt hf S base w) :
    WrapperMesh.GridBuilt hf S base (w.appendVertex hf p.x p.y) := by
  obtain ⟨hb, hx, hy, hv⟩ := h
  cases hl : w.mIndicesMap.lookup (hf.indexOfGridCoordinate p.x p.y) with
  | none =>
    rw [w.appendVertex_of_unseen hf p.x p.y hl]
    refine ⟨hb, hx, hy, ?_⟩
    intro v hvm
    rcases List.mem_append.mp hvm with hvm | hvm
    · exact hv v hvm
    · refine ⟨p, hp, ?_⟩
      rw [List.mem_singleton.mp hvm]
      simp only [WrapperMesh.gridVertex, hb, hx, hy]
  | some iv =>
    rw [w.appendVertex_of_seen hf p.x p.y iv hl]
    exact ⟨hb, hx, hy, hv⟩

theorem WrapperMesh.emit_vertex_gridBuilt (hf : HeightfieldView α) (S : GridCoord → Prop)
    (base w : WrapperMesh α) (x y : Int)
    (hS : ∀ p ∈ w.appendCalls x y, S p)
    (ht : w.mTriIndex = 0 ∨ w.mTriIndex = 1 ∨ w.mTriIndex = 2)
    (h : WrapperMesh.GridBuilt hf S base w) :
    ∃ w1, w.emit_vertex hf x y = some w1 ∧ WrapperMesh.GridBuilt hf S base w1 := by
  rcases ht with h0 | h1 | h2
  · exact ⟨_, w.emit_vertex_of_zero hf x y h0,
      WrapperMesh.gridBuilt_of_fields_eq hf S base w _ rfl rfl rfl rfl h⟩
  · exact ⟨_, w.emit_vertex_of_one hf x y h1,
      WrapperMesh.gridBuilt_of_fields_eq hf S base w _ rfl rfl rfl rfl h⟩
  · refine ⟨_, w.emit_vertex_of_two hf x y h2, ?_⟩
    have h2a : WrapperMesh.GridBuilt hf S base
        { w with
          mTriangles := { w.mTriangles with s2 := ⟨x, y⟩ }
          mTriIndex := 3
          mTriOddOrder := !w.mTriOddOrder } :=
      WrapperMesh.gridBuilt_of_fields_eq hf S base w _ rfl rfl rfl rfl h
    cases hodd : w.mTriOddOrder
    · have hc : w.appendCalls x y = [w.mTriangles.s0, w.mTriangles.s1, ⟨x, y⟩] := by
        simp [WrapperMesh.appendCalls, h2, hodd]
      rw [hc] at hS
      have a1 := WrapperMesh.appendVertex_gridBuilt hf S base _ w.mTriangles.s0
        (hS _ (by simp)) h2a
      have a2 := WrapperMesh.appendVertex_gridBuilt hf S base _ w.mTriangles.s1
        (hS _ (by simp)) a1
      have a3 := WrapperMesh.appendVertex_gridBuilt hf S base _ (⟨x, y⟩ : GridCoord)
        (hS _ (by simp)) a2
      rw [hodd] at a3
      refine WrapperMesh.gridBuilt_of_fields_eq hf S base _ _ ?_ ?_ ?_ ?_ a3 <;> simp
    · have hc : w.appendCalls x y = [w.mTriangles.s1, w.mTriangles.s0, ⟨x, y⟩] := by
        simp [WrapperMesh.appendCalls, h2, hodd]
      rw [hc] at hS
      have a1 := WrapperMesh.appendVertex_gridBuilt hf S base _ w.mTriangles.s1
        (hS _ (by simp)) h2a
      have a2 := WrapperMesh.appendVertex_gridBuilt hf S base _ w.mTriangles.s0
        (hS _ (by simp)) a1
      have a3 := WrapperMesh.appendVertex_gridBuilt hf S base _ (⟨x, y⟩ : GridCoord)
        (hS _ (by simp)) a2
      rw [hodd] at a3
      refine WrapperMesh.gridBuilt_of_fields_eq hf S base _ _ ?_ ?_ ?_ ?_ a3 <;> simp

theorem WrapperMesh.emitAll_gridBuilt (hf : HeightfieldView α) (S : GridCoord → Prop)
    (base : WrapperMesh α) (vs : List GridCoord) :
    ∀ (w : WrapperMesh α),
      (∀ p ∈ WrapperMesh.appendCallsAll hf w vs, S p) → w.Safe →
      WrapperMesh.GridBuilt hf S base w →
      ∃ w1, WrapperMesh.emitAll hf w vs = some w1 ∧ WrapperMesh.GridBuilt hf S base w1 := by
  induction vs with
  | nil => intro w _ _ h; exact ⟨w, rfl, h⟩
  | cons p ps ih =>
    intro w hS hs h
    obtain ⟨w1, he, hs1⟩ := w.emit_vertex_safe hf p.x p.y hs
    have hcalls : WrapperMesh.appendCallsAll hf w (p :: ps) =
        w.appendCalls p.x p.y ++ WrapperMesh.appendCallsAll hf w1 ps := by
      simp only [WrapperMesh.appendCallsAll, he]
    rw [hcalls] at hS
    obtain ⟨w1a, hea, ha⟩ := WrapperMesh.emit_vertex_gridBuilt hf S base w p.x p.y
      (fun q hq => hS q (List.mem_append_left _ hq)) hs.2.2.2 h
    rw [he] at hea
    cases Option.some.inj hea
    obtain ⟨w2, he2, ha2⟩ := ih w1 (fun q hq => hS q (List.mem_append_right _ hq)) hs1 ha
    exact ⟨w2, by simp only [WrapperMesh.emitAll, he, he2], ha2⟩

theorem i_tile_pred_of_pos (t : Nat) (h1 : 1 < t) (h2 : t < 4294967296) :
    i_tile_pred t = t - 1 := by
  unfold i_tile_pred uintModulus
  omega

/-! ## Claims about the assembler -/

/-- C1: starting from the reset state over an empty mesh, after every single
`emit_vertex` call of any emission sequence (that is, after every prefix
`vs.take k`) the call has succeeded, every entry of `mesh.indices` is strictly
less than `mesh.vertices.size()`, and `mesh.indices.size()` is a multiple of 3. -/
theorem emit_vertex_indices_in_range (w : WrapperMesh α) (hf : HeightfieldView α)
    (vs : List GridCoord) (k : Nat) :
    ∃ w1, WrapperMesh.emitAll hf w.clear (vs.take k) = some w1 ∧
      (∀ i ∈ w1.mMesh.indices, i < w1.mMesh.vertices.length) ∧
      3 ∣ w1.mMesh.indices.length := by
  obtain ⟨w1, he, hi, _, h3, _⟩ := WrapperMesh.emitAll_safe hf (vs.take k) w.clear w.clear_safe
  exact ⟨w1, he, hi, h3⟩

/-- C2: when `indexOfGridCoordinate` is injective on the emitted grid
positions, the vertices assembled from an emission sequence fed to a reset
sink are created from a duplicate-free list `ps` of grid positions, `ps`
holds exactly the positions handed to `appendVertex` (the corners of the
emitted triangles), so `vertices.size()` is the number of distinct such
positions; for a sequence of at least three vertices that is the number of
distinct emitted positions. -/
theorem vertices_one_per_grid_position (w : WrapperMesh α) (hf : HeightfieldView α)
    (vs : List GridCoord)
    (hinj : ∀ p ∈ vs, ∀ q ∈ vs,
      hf.indexOfGridCoordinate p.x p.y = hf.indexOfGridCoordinate q.x q.y → p = q) :
    ∃ (w1 : WrapperMesh α) (ps : List GridCoord),
      WrapperMesh.emitAll hf w.clear vs = some w1 ∧ ps.Nodup ∧
      w1.mMesh.vertices = ps.map (fun p => w1.gridVertex hf p.x p.y) ∧
      (∀ p, p ∈ ps ↔ p ∈ WrapperMesh.appendCallsAll hf w.clear vs) ∧
      w1.mMesh.vertices.length = (WrapperMesh.appendCallsAll hf w.clear vs).dedup.length ∧
      (3 ≤ vs.length → w1.mMesh.vertices.length = vs.dedup.length) := by
  have hD : ∀ p ∈ WrapperMesh.appendCallsAll hf w.clear vs, p ∈ vs := by
    rw [WrapperMesh.appendCallsAll_clear]
    exact stripCorners_mem_of_mem vs false
  obtain ⟨w1, he, hv, _, _, _⟩ :=
    WrapperMesh.emitAll_assembled hf (fun p => p ∈ vs) (fun p q hp hq => hinj p hp q hq) vs
      w.clear [] hD w.clear_safe (WrapperMesh.clear_assembled hf _ w)
  rw [List.nil_append] at hv
  have hlen : w1.mMesh.vertices.length =
      (WrapperMesh.appendCallsAll hf w.clear vs).dedup.length := by
    rw [hv, List.length_map, firstUses_length]
  refine ⟨w1, firstUses (WrapperMesh.appendCallsAll hf w.clear vs), he, firstUses_nodup _, hv,
    firstUses_mem _, hlen, ?_⟩
  intro h3
  rw [hlen, ← List.card_toFinset, ← List.card_toFinset]
  congr 1
  ext p
  rw [List.mem_toFinset, List.mem_toFinset, WrapperMesh.appendCallsAll_clear]
  exact stripCorners_mem_iff vs false h3 p

/-- Witness for C2: the corner strip of the flat 3 x 3 tile. -/
theorem vertices_one_per_grid_position_witness :
    (∀ p ∈ cornerStrip3, ∀ q ∈ cornerStrip3,
      flatHeightfield3.indexOfGridCoordinate p.x p.y =
        flatHeightfield3.indexOfGridCoordinate q.x q.y → p = q) ∧
    ∃ (w1 : WrapperMesh ℚ) (ps : List GridCoord),
      WrapperMesh.emitAll flatHeightfield3 flatSink3.clear cornerStrip3 = some w1 ∧
      ps.Nodup ∧
      w1.mMesh.vertices = ps.map (fun p => w1.gridVertex flatHeightfield3 p.x p.y) ∧
      (∀ p, p ∈ ps ↔
        p ∈ WrapperMesh.appendCallsAll flatHeightfield3 flatSink3.clear cornerStrip3) ∧
      w1.mMesh.vertices.length =
        (WrapperMesh.appendCallsAll flatHeightfield3 flatSink3.clear cornerStrip3).dedup.length ∧
      (3 ≤ cornerStrip3.length → w1.mMesh.vertices.length = cornerStrip3.dedup.length) :=
  ⟨by decide, vertices_one_per_grid_position flatSink3 flatHeightfield3 cornerStrip3 (by decide)⟩

/-- C3: for tile sizes greater than 1, the sink constructed for `bounds` and
the tile sizes, reset and fed any emission sequence, holds only vertices of
the form `(minX + gx*cellSizeX, maxY - gy*cellSizeY, height(gx, gy))` for an
emitted grid position `(gx, gy)`, and the vertex a further `appendVertex`
call creates for an unseen grid position `(gx, gy)` is exactly that one, with
`cellSizeX = (maxX - minX)/(tileSizeX - 1)` and
`cellSizeY = (maxY - minY)/(tileSizeY - 1)`. The operations are those of the
arithmetic `α`, applied in the order of the source. -/
theorem appendVertex_grid_to_geographic [Div α] [NatCast α]
    (bounds : CRSBounds α) (mesh : Mesh α) (tileSizeX tileSizeY : Nat)
    (hf : HeightfieldView α) (vs : List GridCoord)
    (hx : 1 < tileSizeX ∧ tileSizeX < 4294967296)
    (hy : 1 < tileSizeY ∧ tileSizeY < 4294967296) :
    ∃ w : WrapperMesh α,
      WrapperMesh.emitAll hf (WrapperMesh.construct bounds mesh tileSizeX tileSizeY).clear vs
        = some w ∧
      (∀ v ∈ w.mMesh.vertices, ∃ p ∈ vs, v =
        { x := bounds.minX +
            ((p.x : Int) : α) * ((bounds.maxX - bounds.minX) / ((tileSizeX - 1 : Nat) : α))
          y := bounds.maxY -
            ((p.y : Int) : α) * ((bounds.maxY - bounds.minY) / ((tileSizeY - 1 : Nat) : α))
          z := hf.height p.x p.y }) ∧
      (∀ gx gy : Int, w.mIndicesMap.lookup (hf.indexOfGridCoordinate gx gy) = none →
        (w.appendVertex hf gx gy).mMesh.vertices = w.mMesh.vertices ++
          [{ x := bounds.minX +
              ((gx : Int) : α) * ((bounds.maxX - bounds.minX) / ((tileSizeX - 1 : Nat) : α))
             y := bounds.maxY -
              ((gy : Int) : α) * ((bounds.maxY - bounds.minY) / ((tileSizeY - 1 : Nat) : α))
             z := hf.height gx gy }]) := by
  have hS : ∀ p ∈ WrapperMesh.appendCallsAll hf
      (WrapperMesh.construct bounds mesh tileSizeX tileSizeY).clear vs, p ∈ vs := by
    rw [WrapperMesh.appendCallsAll_clear]
    exact stripCorners_mem_of_mem vs false
  have h0 : WrapperMesh.GridBuilt hf (fun p => p ∈ vs)
      (WrapperMesh.construct bounds mesh tileSizeX tileSizeY)
      (WrapperMesh.construct bounds mesh tileSizeX tileSizeY).clear := by
    refine ⟨rfl, rfl, rfl, ?_⟩
    intro v hv
    simp [WrapperMesh.clear] at hv
  obtain ⟨w, he, hb, hcx, hcy, hv⟩ :=
    WrapperMesh.emitAll_gridBuilt hf (fun p => p ∈ vs) _ vs _ hS
      (WrapperMesh.clear_safe _) h0
  have hgv : ∀ gx gy : Int,
      (WrapperMesh.construct bounds mesh tileSizeX tileSizeY).gridVertex hf gx gy =
        { x := bounds.minX +
            ((gx : Int) : α) * ((bounds.maxX - bounds.minX) / ((tileSizeX - 1 : Nat) : α))
          y := bounds.maxY -
            ((gy : Int) : α) * ((bounds.maxY - bounds.minY) / ((tileSizeY - 1 : Nat) : α))
          z := hf.height gx gy } := by
    intro gx gy
    simp only [WrapperMesh.gridVertex, WrapperMesh.construct,
      i_tile_pred_of_pos tileSizeX hx.1 hx.2, i_tile_pred_of_pos tileSizeY hy.1 hy.2]
  refine ⟨w, he, ?_, ?_⟩
  · intro v hvm
    obtain ⟨p, hp, hvp⟩ := hv v hvm
    exact ⟨p, hp, by rw [hvp, hgv]⟩
  · intro gx gy hl
    rw [w.appendVertex_of_unseen hf gx gy hl, ← hgv]
    simp only [WrapperMesh.gridVertex, hb, hcx, hcy]

/-- Witness for C3: the sink of the flat 3 x 3 tile fed its corner strip. -/
theorem appendVertex_grid_to_geographic_witness :
    ((1 < 3 ∧ 3 < 4294967296) ∧ (1 < 3 ∧ 3 < 4294967296)) ∧
    ∃ w : WrapperMesh ℚ,
      WrapperMesh.emitAll flatHeightfield3
        (WrapperMesh.construct (⟨0, 0, 2, 2⟩ : CRSBounds ℚ) ⟨[], []⟩ 3 3).clear cornerStrip3
        = some w ∧
      (∀ v ∈ w.mMesh.vertices, ∃ p ∈ cornerStrip3, v =
        { x := (0 : ℚ) + ((p.x : Int) : ℚ) * (((2 : ℚ) - 0) / ((3 - 1 : Nat) : ℚ))
          y := (2 : ℚ) - ((p.y : Int) : ℚ) * (((2 : ℚ) - 0) / ((3 - 1 : Nat) : ℚ))
          z := flatHeightfield3.height p.x p.y }) ∧
      (∀ gx gy : Int,
        w.mIndicesMap.lookup (flatHeightfield3.indexOfGridCoordinate gx gy) = none →
        (w.appendVertex flatHeightfield3 gx gy).mMesh.vertices = w.mMesh.vertices ++
          [{ x := (0 : ℚ) + ((gx : Int) : ℚ) * (((2 : ℚ) - 0) / ((3 - 1 : Nat) : ℚ))
             y := (2 : ℚ) - ((gy : Int) : ℚ) * (((2 : ℚ) - 0) / ((3 - 1 : Nat) : ℚ))
             z := flatHeightfield3.height gx gy }]) :=
  ⟨by decide,
    appendVertex_grid_to_geographic (⟨0, 0, 2, 2⟩ : CRSBounds ℚ) ⟨[], []⟩ 3 3
      flatHeightfield3 cornerStrip3 (by decide) (by decide)⟩

/-- C5 fails for degenerate strips: the emission sequence `(1,1), (1,1),
(1,1)` contains a single distinct grid point, yet the assembled mesh holds one
vertex and the triangle `0, 0, 0`. -/
theorem degenerate_strip_counterexample :
    ([⟨1, 1⟩, ⟨1, 1⟩, ⟨1, 1⟩] : List GridCoord).dedup.length < 3 ∧
    ∃ w : WrapperMesh ℚ,
      WrapperMesh.emitAll flatHeightfield3 flatSink3.clear [⟨1, 1⟩, ⟨1, 1⟩, ⟨1, 1⟩] = some w ∧
      w.mMesh.indices = [0, 0, 0] ∧ w.mMesh.vertices.length = 1 :=
  ⟨by decide, _, rfl, rfl, rfl⟩

/-- C5 as amended: an emission sequence of fewer than three grid vertices,
fed to a reset sink, is processed without failure and leaves `mesh.vertices`
and `mesh.indices` empty. -/
theorem short_strip_empty_mesh (w : WrapperMesh α) (hf : HeightfieldView α)
    (vs : List GridCoord) (hlen : vs.length < 3) :
    ∃ w1, WrapperMesh.emitAll hf w.clear vs = some w1 ∧
      w1.mMesh.vertices = [] ∧ w1.mMesh.indices = [] := by
  have hcalls : WrapperMesh.appendCallsAll hf w.clear vs = [] := by
    rw [WrapperMesh.appendCallsAll_clear]
    match vs, hlen with
    | [], _ => rfl
    | [_], _ => rfl
    | [_, _], _ => rfl
  obtain ⟨w1, he, hv, hi, _, _⟩ :=
    WrapperMesh.emitAll_assembled hf (fun _ => False) (fun _ _ hp => hp.elim) vs
      w.clear [] (by rw [hcalls]; intro p hp; simp at hp) w.clear_safe
      (WrapperMesh.clear_assembled hf _ w)
  rw [hcalls] at hv hi
  exact ⟨w1, he, by simpa [firstUses] using hv, by simpa using hi⟩

/-- Witness for C5 as amended: two emitted vertices. -/
theorem short_strip_empty_mesh_witness :
    ([⟨0, 0⟩, ⟨2, 2⟩] : List GridCoord).length < 3 ∧
    ∃ w1, WrapperMesh.emitAll flatHeightfield3 flatSink3.clear [⟨0, 0⟩, ⟨2, 2⟩] = some w1 ∧
      w1.mMesh.vertices = [] ∧ w1.mMesh.indices = [] :=
  ⟨by decide, short_strip_empty_mesh flatSink3 flatHeightfield3 [⟨0, 0⟩, ⟨2, 2⟩] (by decide)⟩

end AssemblerProofs

/-! ## Binary64 arithmetic: known values -/

theorem bitLengthAux_spec (fuel : Nat) :
    ∀ n, n ≤ fuel → (n = 0 → bitLengthAux fuel n = 0) ∧
      (0 < n → 2 ^ (bitLengthAux fuel n - 1) ≤ n ∧ n < 2 ^ bitLengthAux fuel n ∧
        0 < bitLengthAux fuel n) := by
  induction fuel with
  | zero =>
    intro n hn
    refine ⟨fun _ => rfl, fun h => ?_⟩
    omega
  | succ fuel ih =>
    intro n hn
    refine ⟨fun h => by simp [bitLengthAux, h], fun hpos => ?_⟩
    have hne : n ≠ 0 := by omega
    by_cases hsmall : n < 18446744073709551616
    · simp only [bitLengthAux, hne, if_false, hsmall, if_true]
      have hle : n / 2 ≤ fuel := by omega
      obtain ⟨h0, h1⟩ := ih (n / 2) hle
      by_cases hhalf : n / 2 = 0
      · rw [h0 hhalf]
        have : n = 1 := by omega
        subst this
        simp
      · obtain ⟨a, b, c⟩ := h1 (by omega)
        refine ⟨?_, ?_, by omega⟩
        · have e : bitLengthAux fuel (n / 2) + 1 - 1 = (bitLengthAux fuel (n / 2) - 1) + 1 := by
            omega
          rw [e, pow_succ]
          omega
        · rw [pow_succ]
          omega
    · simp only [bitLengthAux, hne, if_false, hsmall]
      have hle : n / 18446744073709551616 ≤ fuel := by omega
      obtain ⟨_, h1⟩ := ih (n / 18446744073709551616) hle
      obtain ⟨a, b, c⟩ := h1 (by omega)
      have h64 : (2 : Nat) ^ 64 = 18446744073709551616 := by norm_num
      refine ⟨?_, ?_, by omega⟩
      · have e : bitLengthAux fuel (n / 18446744073709551616) + 64 - 1 =
            (bitLengthAux fuel (n / 18446744073709551616) - 1) + 64 := by omega
        rw [e, pow_add, h64]
        have := Nat.div_mul_le_self n 18446744073709551616
        calc 2 ^ (bitLengthAux fuel (n / 18446744073709551616) - 1) * 18446744073709551616
            ≤ n / 18446744073709551616 * 18446744073709551616 :=
              Nat.mul_le_mul_right _ a
          _ ≤ n := this
      · rw [pow_add, h64]
        have := Nat.div_add_mod n 18446744073709551616
        have hm := Nat.mod_lt n (show 0 < 18446744073709551616 by norm_num)
        nlinarith

/-- The function `bitLength` is the number of binary digits: a positive `n` lies
in `[2^(bitLength n - 1), 2^(bitLength n))`. -/
theorem bitLength_spec (n : Nat) (h : 0 < n) :
    2 ^ (bitLength n - 1) ≤ n ∧ n < 2 ^ bitLength n := by
  obtain ⟨_, h1⟩ := bitLengthAux_spec n n le_rfl
  obtain ⟨a, b, _⟩ := h1 h
  exact ⟨a, b⟩

set_option maxRecDepth 10000 in
set_option exponentiation.threshold 3000 in
/-- The binary64 operations reproduce well-known results of IEEE 754 double
arithmetic: `1/3` is `6004799503160661 * 2^-54`; `0.1 + 0.2` is
`0.30000000000000004` and differs from `0.3`; `49 * (1/49)` is `1 - 2^-53`;
the integer `2^53 + 1` converts to `2^53` and `2^53 + 3` to `2^53 + 4`; half
of the smallest subnormal rounds to zero and three halves of it to twice
it. -/
theorem Binary64.known_values :
    Binary64.ofInt 1 / Binary64.ofInt 3 = ⟨((6004799503160661 * 2 ^ 1020 : Nat) : Int)⟩ ∧
    Binary64.ofInt 1 / Binary64.ofInt 10 + Binary64.ofInt 2 / Binary64.ofInt 10 =
      ⟨((5404319552844596 * 2 ^ 1020 : Nat) : Int)⟩ ∧
    Binary64.ofInt 1 / Binary64.ofInt 10 + Binary64.ofInt 2 / Binary64.ofInt 10 ≠
      Binary64.ofInt 3 / Binary64.ofInt 10 ∧
    Binary64.ofInt 49 * (Binary64.ofInt 1 / Binary64.ofInt 49) =
      ⟨((9007199254740991 * 2 ^ 1021 : Nat) : Int)⟩ ∧
    Binary64.ofInt 9007199254740993 = Binary64.ofInt 9007199254740992 ∧
    Binary64.ofInt 9007199254740995 = Binary64.ofInt 9007199254740996 ∧
    (⟨1⟩ : Binary64) / Binary64.ofInt 2 = ⟨0⟩ ∧
    (⟨3⟩ : Binary64) / Binary64.ofInt 2 = ⟨2⟩ := by
  decide

/-! ## Shared edges of neighbouring tiles -/

section SharedEdge

set_option maxRecDepth 100000 in
set_option exponentiation.threshold 3000 in
/-- C4 fails in binary64 arithmetic. For the tiles `[0,1] x [0,1]` and
`[1,2] x [0,1]` of tile size 50, which share the edge `x = 1`, the west tile
places its grid vertex `(49, 0)` at an `x` different from the `x` the east
tile gives its grid vertex `(0, 0)`, and the west tile does not map its grid
vertex `(49, 49)` to `(maxX, minY)`. For the tiles `[-2,-0.9] x [0,1]` and
`[-0.9,1] x [0,1]` of tile size 65, the west tile places its grid vertex
`(64, 0)` at an `x` different from `-0.9`, where the east tile puts its grid
vertex `(0, 0)`. -/
theorem shared_edge_binary64_counterexample :
    (unitTileWest.maxX = unitTileEast.minX ∧ unitTileWest.minY = unitTileEast.minY ∧
      unitTileWest.maxY = unitTileEast.maxY ∧
      ((WrapperMesh.construct unitTileWest ⟨[], []⟩ 50 50).gridVertex flatHeightfield50 49 0).x ≠
        ((WrapperMesh.construct unitTileEast ⟨[], []⟩ 50 50).gridVertex flatHeightfield50 0 0).x ∧
      ((WrapperMesh.construct unitTileWest ⟨[], []⟩ 50 50).gridVertex flatHeightfield50 49 49).x ≠
        unitTileWest.maxX ∧
      ((WrapperMesh.construct unitTileWest ⟨[], []⟩ 50 50).gridVertex flatHeightfield50 49 49).y ≠
        unitTileWest.minY) ∧
    (decimalTileWest.maxX = decimalTileEast.minX ∧ decimalTileWest.minY = decimalTileEast.minY ∧
      decimalTileWest.maxY = decimalTileEast.maxY ∧
      ((WrapperMesh.construct decimalTileEast ⟨[], []⟩ 65 65).gridVertex flatHeightfield50 0 0).x =
        minusNineTenths ∧
      ((WrapperMesh.construct decimalTileWest ⟨[], []⟩ 65 65).gridVertex flatHeightfield50 64 0).x ≠
        ((WrapperMesh.construct decimalTileEast ⟨[], []⟩ 65 65).gridVertex
          flatHeightfield50 0 0).x) := by
  decide

/-- C4 as amended: in exact arithmetic (an ordered field in place of rounded
`double` operations), for two tiles of the same tile size `n > 1`: if they
are horizontally adjacent, grid `(n-1, j)` of `A` and grid `(0, j)` of `B`
get the same `x` and `y`; if they are vertically adjacent, grid `(i, n-1)` of
`A` and grid `(i, 0)` of `B` get the same `x` and `y`; grid `(0, 0)` maps to
`(minX, maxY)` and grid `(n-1, n-1)` to `(maxX, minY)`. -/
theorem shared_edge_exact {α : Type} [LinearOrderedField α]
    (A B : CRSBounds α) (mA mB : Mesh α) (hfA hfB : HeightfieldView α) (n : Nat)
    (hn : 1 < n ∧ n < 4294967296) :
    (A.maxX = B.minX → A.minY = B.minY → A.maxY = B.maxY → ∀ j : Int,
      ((WrapperMesh.construct A mA n n).gridVertex hfA ((n : Int) - 1) j).x =
        ((WrapperMesh.construct B mB n n).gridVertex hfB 0 j).x ∧
      ((WrapperMesh.construct A mA n n).gridVertex hfA ((n : Int) - 1) j).y =
        ((WrapperMesh.construct B mB n n).gridVertex hfB 0 j).y) ∧
    (A.minY = B.maxY → A.minX = B.minX → A.maxX = B.maxX → ∀ i : Int,
      ((WrapperMesh.construct A mA n n).gridVertex hfA i ((n : Int) - 1)).x =
        ((WrapperMesh.construct B mB n n).gridVertex hfB i 0).x ∧
      ((WrapperMesh.construct A mA n n).gridVertex hfA i ((n : Int) - 1)).y =
        ((WrapperMesh.construct B mB n n).gridVertex hfB i 0).y) ∧
    (((WrapperMesh.construct A mA n n).gridVertex hfA 0 0).x = A.minX ∧
      ((WrapperMesh.construct A mA n n).gridVertex hfA 0 0).y = A.maxY) ∧
    (((WrapperMesh.construct A mA n n).gridVertex hfA ((n : Int) - 1) ((n : Int) - 1)).x
        = A.maxX ∧
      ((WrapperMesh.construct A mA n n).gridVertex hfA ((n : Int) - 1) ((n : Int) - 1)).y
        = A.minY) := by
  have hpred : i_tile_pred n = n - 1 := i_tile_pred_of_pos n hn.1 hn.2
  have hcast : ((n - 1 : Nat) : α) = (n : α) - 1 := by
    rw [Nat.cast_sub (le_of_lt hn.1), Nat.cast_one]
  have hne : (n : α) - 1 ≠ 0 := by
    have h1 : (1 : α) < (n : α) := by exact_mod_cast hn.1
    exact sub_ne_zero.mpr (ne_of_gt h1)
  simp only [WrapperMesh.gridVertex, WrapperMesh.construct, hpred, hcast]
  push_cast
  refine ⟨?_, ?_, ⟨?_, ?_⟩, ⟨?_, ?_⟩⟩
  · intro h1 h2 h3 j
    rw [h2, h3]
    refine ⟨?_, rfl⟩
    rw [← h1]
    field_simp
  · intro h1 h2 h3 i
    rw [h2, h3]
    refine ⟨rfl, ?_⟩
    rw [← h1]
    field_simp
  · simp
  · simp
  · field_simp
  · field_simp

/-- Witness for C4 as amended: the tile `[0,2] x [0,2]` of size 3 with its
east and its south neighbour. -/
theorem shared_edge_exact_witness :
    (1 < 3 ∧ 3 < 4294967296) ∧
    (∀ j : Int,
      ((WrapperMesh.construct flatBounds3 ⟨[], []⟩ 3 3).gridVertex flatHeightfield3
          (((3 : Nat) : Int) - 1) j).x =
        ((WrapperMesh.construct flatBoundsEast3 ⟨[], []⟩ 3 3).gridVertex flatHeightfield3 0 j).x ∧
      ((WrapperMesh.construct flatBounds3 ⟨[], []⟩ 3 3).gridVertex flatHeightfield3
          (((3 : Nat) : Int) - 1) j).y =
        ((WrapperMesh.construct flatBoundsEast3 ⟨[], []⟩ 3 3).gridVertex flatHeightfield3 0 j).y) ∧
    (∀ i : Int,
      ((WrapperMesh.construct flatBounds3 ⟨[], []⟩ 3 3).gridVertex flatHeightfield3
          i (((3 : Nat) : Int) - 1)).x =
        ((WrapperMesh.construct flatBoundsSouth3 ⟨[], []⟩ 3 3).gridVertex flatHeightfield3 i 0).x ∧
      ((WrapperMesh.construct flatBounds3 ⟨[], []⟩ 3 3).gridVertex flatHeightfield3
          i (((3 : Nat) : Int) - 1)).y =
        ((WrapperMesh.construct flatBoundsSouth3 ⟨[], []⟩ 3 3).gridVertex flatHeightfield3 i 0).y) :=
  ⟨by decide,
    (shared_edge_exact flatBounds3 flatBoundsEast3 ⟨[], []⟩ ⟨[], []⟩ flatHeightfield3
      flatHeightfield3 3 (by decide)).1 rfl rfl rfl,
    (shared_edge_exact flatBounds3 flatBoundsSouth3 ⟨[], []⟩ ⟨[], []⟩ flatHeightfield3
      flatHeightfield3 3 (by decide)).2.1 rfl rfl rfl⟩

end SharedEdge

/-! ## Geometric error budget -/

section GeometricErrorProofs

theorem wrapInt32_of_range (n : Int) (h1 : -2147483648 ≤ n) (h2 : n ≤ 2147483647) :
    wrapInt32 n = n := by
  unfold wrapInt32
  omega

theorem shiftLeftInt32_one (zoom : Nat) (h : zoom ≤ 30) :
    shiftLeftInt32 1 zoom = 2 ^ zoom := by
  have hm : zoom % 32 = zoom := Nat.mod_eq_of_lt (by omega)
  have hle : (2 : Int) ^ zoom ≤ 2 ^ 30 := pow_le_pow_right₀ (by norm_num) h
  have hpos : (0 : Int) < 2 ^ zoom := pow_pos (by norm_num) zoom
  unfold shiftLeftInt32
  rw [hm, one_mul]
  exact wrapInt32_of_range _ (by omega) (by omega)

/-- C6 fails when the `int` product overflows: for `tileWidth = 65537` and
`numberOfTilesAtLevelZero = 65536`, both positive, the product `2^32 + 2^16`
wraps to `65536`, and the result (in exact arithmetic, radius 1, quality 1)
is `2*pi/65536`, not `2*pi/(65537*65536)`. -/
theorem levelZeroError_overflow_counterexample :
    (0 : Int) < 65537 ∧ (0 : Int) < 65536 ∧
    getEstimatedLevelZeroGeometricErrorForAHeightmap M_PI_value 1 1 65537 65536 ≠
      2 * M_PI_value * 1 * 1 / (((65537 : Int) : ℚ) * ((65536 : Int) : ℚ)) := by
  refine ⟨by decide, by decide, ?_⟩
  norm_num [getEstimatedLevelZeroGeometricErrorForAHeightmap, wrapInt32, M_PI_value]

/-- C6 as amended: in exact arithmetic, for positive `tileWidth` and
`numberOfTilesAtLevelZero` whose product does not exceed `2^31 - 1`, the
function returns `2*pi*maximumRadius*heightmapTerrainQuality /
(tileWidth*numberOfTilesAtLevelZero)`. -/
theorem levelZeroError_formula {α : Type} [Field α] (pi maximumRadius heightmapTerrainQuality : α)
    (tileWidth numberOfTilesAtLevelZero : Int)
    (hw : 0 < tileWidth) (hn : 0 < numberOfTilesAtLevelZero)
    (hp : tileWidth * numberOfTilesAtLevelZero ≤ 2147483647) :
    getEstimatedLevelZeroGeometricErrorForAHeightmap pi maximumRadius heightmapTerrainQuality
        tileWidth numberOfTilesAtLevelZero =
      2 * pi * maximumRadius * heightmapTerrainQuality /
        ((tileWidth : α) * (numberOfTilesAtLevelZero : α)) := by
  have h0 : 0 < tileWidth * numberOfTilesAtLevelZero := Int.mul_pos hw hn
  unfold getEstimatedLevelZeroGeometricErrorForAHeightmap
  rw [wrapInt32_of_range _ (by omega) hp]
  push_cast
  ring

/-- Witness for C6 as amended: a 65-sample tile width and two tiles at level
zero, with the Earth radius and quality `1/4`. -/
theorem levelZeroError_formula_witness :
    ((0 : Int) < 65 ∧ (0 : Int) < 2 ∧ (65 : Int) * 2 ≤ 2147483647) ∧
    getEstimatedLevelZeroGeometricErrorForAHeightmap M_PI_value 6378137 (1 / 4) 65 2 =
      2 * M_PI_value * 6378137 * (1 / 4) / (((65 : Int) : ℚ) * ((2 : Int) : ℚ)) :=
  ⟨by decide,
    levelZeroError_formula M_PI_value 6378137 (1 / 4) 65 2 (by decide) (by decide) (by decide)⟩

set_option maxRecDepth 10000 in
set_option exponentiation.threshold 3000 in
/-- C7 fails at zoom 31: `1 << 31` is `-2147483648` as an `int`, so the
budget of the sample geodetic tiler for a tile of zoom 31 is the level-zero
error divided by `-2^31`, not by `2^31`. -/
theorem error_budget_zoom31_counterexample :
    (geodeticTiler readerAlwaysOk).maximumGeometricError ⟨31, 0, 0⟩ 65 ≠
      (geodeticTiler readerAlwaysOk).levelZeroGeometricError 65 /
        (((2 : Int) ^ 31 : Int) : Binary64) ∧
    (geodeticTiler readerAlwaysOk).maximumGeometricError ⟨31, 0, 0⟩ 65 =
      (geodeticTiler readerAlwaysOk).levelZeroGeometricError 65 /
        ((-2147483648 : Int) : Binary64) := by
  decide

set_option maxRecDepth 10000 in
set_option exponentiation.threshold 3000 in
/-- C8 fails in two ways. In exact arithmetic the budget for zoom 32 is not
smaller than the budget for zoom 0, because the shift count of `1 << 32`
wraps. In binary64 the budgets of the positive level-zero error `2^-1074` for
zoom 1 and zoom 2 both round to `0`. -/
theorem zoom_error_not_decreasing_counterexample :
    ((0 : ℚ) < 1 ∧ 0 < 32 ∧
      ¬ (geometricErrorForZoom (1 : ℚ) 32 < geometricErrorForZoom (1 : ℚ) 0)) ∧
    (Binary64.ofInt 0 < smallestSubnormal ∧ 1 < 2 ∧
      ¬ (geometricErrorForZoom smallestSubnormal 2 < geometricErrorForZoom smallestSubnormal 1))
    := by
  refine ⟨⟨by norm_num, by norm_num, ?_⟩, by decide⟩
  norm_num [geometricErrorForZoom, shiftLeftInt32, wrapInt32]

/-- C8 as amended: in exact arithmetic, for a positive level-zero error and
zoom levels `z1 < z2 <= 30`, the budget for `z2` is strictly smaller than the
budget for `z1`. -/
theorem zoom_error_strictly_decreasing {α : Type} [LinearOrderedField α]
    (levelZeroError : α) (z1 z2 : Nat)
    (hL : 0 < levelZeroError) (h12 : z1 < z2) (h2 : z2 ≤ 30) :
    geometricErrorForZoom levelZeroError z2 < geometricErrorForZoom levelZeroError z1 := by
  unfold geometricErrorForZoom
  rw [shiftLeftInt32_one z2 h2, shiftLeftInt32_one z1 (by omega)]
  push_cast
  exact div_lt_div_of_pos_left hL (pow_pos (by norm_num) z1)
    (pow_lt_pow_right₀ (by norm_num) h12)

/-- Witness for C8 as amended: level-zero error 77067, zoom 7 against zoom 12. -/
theorem zoom_error_strictly_decreasing_witness :
    ((0 : ℚ) < 77067 ∧ 7 < 12 ∧ 12 ≤ 30) ∧
    geometricErrorForZoom (77067 : ℚ) 12 < geometricErrorForZoom (77067 : ℚ) 7 :=
  ⟨by norm_num,
    zoom_error_strictly_decreasing (77067 : ℚ) 7 12 (by norm_num) (by norm_num) (by norm_num)⟩

/-- C9 fails on the code: with `tileWidth = 0` (and again with
`numberOfTilesAtLevelZero = -1`) the call returns a value instead of
reporting an error. -/
theorem levelZeroError_no_failure_counterexample :
    ((0 : Int) ≤ 0 ∧
      ∃ v, callGetEstimatedLevelZeroGeometricErrorForAHeightmap M_PI_value 6378137 (1 / 4) 0 2
        = Except.ok v) ∧
    ((-1 : Int) ≤ 0 ∧
      ∃ v, callGetEstimatedLevelZeroGeometricErrorForAHeightmap M_PI_value 6378137 (1 / 4) 65 (-1)
        = Except.ok v) :=
  ⟨⟨by decide, _, rfl⟩, ⟨by decide, _, rfl⟩⟩

/-- C9 as amended: the level-zero error computation never fails; for every
`tileWidth` and `numberOfTilesAtLevelZero`, positive or not, it returns the
value computed by the arithmetic of the function body. -/
theorem levelZeroError_always_returns {α : Type} [Mul α] [Div α] [IntCast α]
    (pi maximumRadius heightmapTerrainQuality : α) (tileWidth numberOfTilesAtLevelZero : Int) :
    callGetEstimatedLevelZeroGeometricErrorForAHeightmap pi maximumRadius
        heightmapTerrainQuality tileWidth numberOfTilesAtLevelZero =
      Except.ok (maximumRadius * ((2 : Int) : α) * pi * heightmapTerrainQuality /
        ((wrapInt32 (tileWidth * numberOfTilesAtLevelZero) : Int) : α)) :=
  rfl

end GeometricErrorProofs

/-! ## Raster read failures in `createMesh` -/

section TilerProofs

variable {α κ β η : Type}

theorem MeshTiler.borderStep_trace (T : MeshTiler α κ β η) (coord : TileCoordinate)
    (TILE_SIZE : Nat) (err : α) (heightfield : η) (st : TilerState κ α) (borderIndex : Nat) :
    ∃ evs, (T.borderStep coord TILE_SIZE err heightfield st borderIndex).state.trace =
      st.trace ++ evs := by
  unfold MeshTiler.borderStep
  by_cases hov : T.overlaps T.bounds (T.tileBounds (T.neighborCoord coord borderIndex)) = true
  · simp only [hov, if_true]
    cases hread : T.readRasterHeights (T.neighborCoord coord borderIndex) T.tileSize T.tileSize <;>
      cases hY : (borderIndex % 2 != 0) <;>
      cases hget : T.cacheGet st.cache (T.neighborCoord coord borderIndex) <;>
      simp only [Bool.false_eq_true, if_false, if_true, Option.isNone_none, Option.isNone_some,
        Option.isSome_none, Option.isSome_some, Outcome.state, TilerState.log,
        List.append_assoc] <;>
      exact ⟨_, rfl⟩
  · simp only [hov, Bool.false_eq_true, if_false, Outcome.state]
    exact ⟨[], (List.append_nil _).symm⟩

theorem MeshTiler.borderLoop_trace (T : MeshTiler α κ β η) (coord : TileCoordinate)
    (TILE_SIZE : Nat) (err : α) (borders : List Nat) :
    ∀ (heightfield : η) (st : TilerState κ α),
      ∃ evs, (T.borderLoop coord TILE_SIZE err borders heightfield st).state.trace =
        st.trace ++ evs := by
  induction borders with
  | nil => intro heightfield st; exact ⟨[], (List.append_nil _).symm⟩
  | cons borderIndex rest ih =>
    intro heightfield st
    obtain ⟨evs, hstep⟩ := T.borderStep_trace coord TILE_SIZE err heightfield st borderIndex
    unfold MeshTiler.borderLoop
    cases hr : T.borderStep coord TILE_SIZE err heightfield st borderIndex with
    | error e =>
      rw [hr] at hstep
      exact ⟨evs, hstep⟩
    | ok r =>
      obtain ⟨heightfield1, st1⟩ := r
      rw [hr] at hstep
      obtain ⟨evs1, h1⟩ := ih heightfield1 st1
      refine ⟨evs ++ evs1, ?_⟩
      simp only [Outcome.state] at hstep
      rw [h1, hstep, List.append_assoc]

/-- The first call `prepareSettingsOfTile` makes is `applyGeometricError` on
the heightfield of the tile, with the budget `maximumGeometricError` and the
flag `coord.zoom <= 6`. -/
theorem MeshTiler.prepareSettingsOfTile_trace [Add α] [Sub α] [Mul α] [Div α] [IntCast α]
    [NatCast α] (T : MeshTiler α κ β η) (st : TilerState κ α)
    (terrainTile : MeshTile α) (coord : TileCoordinate) (rasterHeights : RasterHeightsBuff β)
    (tileSizeX tileSizeY : Nat) :
    ∃ evs,
      (T.prepareSettingsOfTile st terrainTile coord rasterHeights tileSizeX tileSizeY).state.trace
        = st.trace ++
          Event.applyGeometricError coord (T.maximumGeometricError coord tileSizeX)
            (decide (coord.zoom ≤ 6)) :: evs := by
  have hprop : ∀ r : Outcome κ α η,
      (∃ evs, r.state.trace = st.trace ++
          Event.applyGeometricError coord (T.maximumGeometricError coord tileSizeX)
            (decide (coord.zoom ≤ 6)) :: evs) →
      ∃ evs, (Outcome.state
        (match r with
        | Except.error e => (Except.error e : Outcome κ α (MeshTile α))
        | Except.ok (heightfield, st1) =>
          match WrapperMesh.emitAll (T.view heightfield)
              (WrapperMesh.construct (T.tileBounds coord) terrainTile.mesh tileSizeX
                tileSizeY).clear (T.generateMesh heightfield) with
          | none => Except.error (Failure.slotOverrun, st1.log (Event.generateMesh coord))
          | some mesh1 =>
            Except.ok (T.setChildFlags { terrainTile with mesh := mesh1.mMesh } coord,
              (st1.log (Event.generateMesh coord)).log (Event.heightfieldClear coord)))).trace
        = st.trace ++
          Event.applyGeometricError coord (T.maximumGeometricError coord tileSizeX)
            (decide (coord.zoom ≤ 6)) :: evs := by
    intro r hr
    obtain ⟨evs, hevs⟩ := hr
    cases r with
    | error e => exact ⟨evs, hevs⟩
    | ok r =>
      obtain ⟨heightfield, st1⟩ := r
      simp only [Outcome.state] at hevs
      cases hemit : WrapperMesh.emitAll (T.view heightfield)
          (WrapperMesh.construct (T.tileBounds coord) terrainTile.mesh tileSizeX
            tileSizeY).clear (T.generateMesh heightfield) with
      | none =>
        refine ⟨evs ++ [Event.generateMesh coord], ?_⟩
        simp only [hemit, Outcome.state, TilerState.log, hevs, List.append_assoc,
          List.cons_append]
      | some mesh1 =>
        refine ⟨evs ++ [Event.generateMesh coord, Event.heightfieldClear coord], ?_⟩
        simp only [hemit, Outcome.state, TilerState.log, hevs, List.append_assoc,
          List.cons_append, List.nil_append]
  unfold MeshTiler.prepareSettingsOfTile
  by_cases hz : coord.zoom > 6
  · simp only [hz, if_true]
    apply hprop
    obtain ⟨evs, h⟩ := T.borderLoop_trace coord tileSizeX
      (T.maximumGeometricError coord tileSizeX) [0, 1, 2, 3]
      (T.applyGeometricError (T.heightfieldNew rasterHeights.mHeights tileSizeX)
        (T.maximumGeometricError coord tileSizeX) (decide (coord.zoom ≤ 6)))
      (st.log (Event.applyGeometricError coord (T.maximumGeometricError coord tileSizeX)
        (decide (coord.zoom ≤ 6))))
    exact ⟨evs, by rw [h]; simp [TilerState.log]⟩
  · simp only [hz, if_false]
    apply hprop (Except.ok (_, st.log _))
    exact ⟨[], by simp [Outcome.state, TilerState.log]⟩

/-! ## Claims about `createMesh` -/

/-- C7 as amended: for a tile of zoom at most 30, the budget computed by
`prepareSettingsOfTile` is the level-zero error divided by the `double`
value of `2^zoom`, and it is the budget handed to `applyGeometricError` on
the heightfield of the tile, the first call `prepareSettingsOfTile` makes. -/
theorem prepareSettingsOfTile_error_budget [Add α] [Sub α] [Mul α] [Div α] [IntCast α]
    [NatCast α] (T : MeshTiler α κ β η) (st : TilerState κ α)
    (terrainTile : MeshTile α) (coord : TileCoordinate) (rasterHeights : RasterHeightsBuff β)
    (tileSizeX tileSizeY : Nat) (hz : coord.zoom ≤ 30) :
    T.maximumGeometricError coord tileSizeX =
      T.levelZeroGeometricError tileSizeX / (((2 : Int) ^ coord.zoom : Int) : α) ∧
    ∃ evs,
      (T.prepareSettingsOfTile st terrainTile coord rasterHeights tileSizeX tileSizeY).state.trace
        = st.trace ++
          Event.applyGeometricError coord
            (T.levelZeroGeometricError tileSizeX / (((2 : Int) ^ coord.zoom : Int) : α))
            (decide (coord.zoom ≤ 6)) :: evs := by
  have hb : T.maximumGeometricError coord tileSizeX =
      T.levelZeroGeometricError tileSizeX / (((2 : Int) ^ coord.zoom : Int) : α) := by
    unfold MeshTiler.maximumGeometricError geometricErrorForZoom
    rw [shiftLeftInt32_one coord.zoom hz]
  refine ⟨hb, ?_⟩
  rw [← hb]
  exact T.prepareSettingsOfTile_trace st terrainTile coord rasterHeights tileSizeX tileSizeY

/-- Witness for C7 as amended: the sample geodetic tiler on a tile of zoom 12. -/
theorem prepareSettingsOfTile_error_budget_witness :
    (12 ≤ 30) ∧
    ((geodeticTiler readerAlwaysOk).maximumGeometricError ⟨12, 5, 3⟩ 65 =
      (geodeticTiler readerAlwaysOk).levelZeroGeometricError 65 /
        (((2 : Int) ^ 12 : Int) : Binary64) ∧
    ∃ evs,
      ((geodeticTiler readerAlwaysOk).prepareSettingsOfTile ⟨[], []⟩ (MeshTile.new ⟨12, 5, 3⟩)
          ⟨12, 5, 3⟩ ⟨⟨12, 5, 3⟩, ()⟩ 65 65).state.trace
        = [] ++
          Event.applyGeometricError ⟨12, 5, 3⟩
            ((geodeticTiler readerAlwaysOk).levelZeroGeometricError 65 /
              (((2 : Int) ^ 12 : Int) : Binary64))
            (decide (12 ≤ 6)) :: evs) :=
  ⟨by decide,
    prepareSettingsOfTile_error_budget (geodeticTiler readerAlwaysOk) ⟨[], []⟩
      (MeshTile.new ⟨12, 5, 3⟩) ⟨12, 5, 3⟩ ⟨⟨12, 5, 3⟩, ()⟩ 65 65 (by decide)⟩

end TilerProofs

/-! ## The rolling buffer and the winding flag -/

section StripProofs

variable {α : Type} [Add α] [Sub α] [Mul α] [IntCast α]

/-- The effect of `emit_vertex` on a sink whose first two slots are filled:
one triangle is appended, the order flag flips, the slots shift. -/
theorem WrapperMesh.emit_vertex_two_fields (w : WrapperMesh α) (hf : HeightfieldView α)
    (x y : Int) (h2 : w.mTriIndex = 2) :
    ∃ w1, w.emit_vertex hf x y = some w1 ∧ w1.mTriIndex = 2 ∧
      w1.mTriOddOrder = (!w.mTriOddOrder) ∧
      w1.mMesh.indices.length = w.mMesh.indices.length + 3 ∧
      w1.mTriangles.s0 = w.mTriangles.s1 ∧ w1.mTriangles.s1 = ⟨x, y⟩ := by
  refine ⟨_, w.emit_vertex_of_two hf x y h2, rfl, ?_, ?_, rfl, rfl⟩
  · cases hodd : w.mTriOddOrder <;> simp [WrapperMesh.appendVertex_mTriOddOrder]
  · cases hodd : w.mTriOddOrder <;> simp [WrapperMesh.appendVertex_indices_length]

theorem WrapperMesh.emitAll_of_two (hf : HeightfieldView α) (rest : List GridCoord) :
    ∀ w : WrapperMesh α, w.mTriIndex = 2 →
      ∃ w1, WrapperMesh.emitAll hf w rest = some w1 ∧ w1.mTriIndex = 2 ∧
        w1.mTriOddOrder = xor w.mTriOddOrder (decide (rest.length % 2 = 1)) ∧
        w1.mMesh.indices.length = w.mMesh.indices.length + 3 * rest.length := by
  induction rest with
  | nil => intro w h2; exact ⟨w, rfl, h2, by simp, by simp⟩
  | cons c rest ih =>
    intro w h2
    obtain ⟨w1, he, h2a, hflag, hlen, _, _⟩ := w.emit_vertex_two_fields hf c.x c.y h2
    obtain ⟨w2, he2, h2b, hflag2, hlen2⟩ := ih w1 h2a
    refine ⟨w2, by simp only [WrapperMesh.emitAll, he, he2], h2b, ?_, ?_⟩
    · rw [hflag2, hflag, List.length_cons]
      rcases Nat.mod_two_eq_zero_or_one rest.length with hm | hm <;>
        cases w.mTriOddOrder <;> simp [hm, Nat.succ_mod_two_eq_one_iff, Nat.add_mod]
    · rw [hlen2, hlen, List.length_cons]
      ring

/-- State of the rolling buffer after a run from the reset state. -/
theorem WrapperMesh.emitAll_clear_fields (hf : HeightfieldView α) (w : WrapperMesh α)
    (vs : List GridCoord) :
    ∃ w1, WrapperMesh.emitAll hf w.clear vs = some w1 ∧
      w1.mTriIndex = min (vs.length : Int) 2 ∧
      w1.mTriOddOrder = decide ((vs.length - 2) % 2 = 1) ∧
      w1.mMesh.indices.length = 3 * (vs.length - 2) := by
  match vs with
  | [] => exact ⟨w.clear, rfl, rfl, rfl, rfl⟩
  | [a] =>
    have h0 := w.clear.emit_vertex_of_zero hf a.x a.y rfl
    refine ⟨{ w.clear with
        mTriangles := { w.clear.mTriangles with s0 := ⟨a.x, a.y⟩ }, mTriIndex := 1 },
      ?_, rfl, rfl, rfl⟩
    simp only [WrapperMesh.emitAll, h0]
  | a :: b :: rest =>
    have h0 := w.clear.emit_vertex_of_zero hf a.x a.y rfl
    have h1 := WrapperMesh.emit_vertex_of_one
      { w.clear with mTriangles := { w.clear.mTriangles with s0 := ⟨a.x, a.y⟩ }, mTriIndex := 1 }
      hf b.x b.y rfl
    obtain ⟨w1, he, h2, hflag, hlen⟩ := WrapperMesh.emitAll_of_two hf rest
      { w.clear with
        mTriangles := { w.clear.mTriangles with s0 := ⟨a.x, a.y⟩, s1 := ⟨b.x, b.y⟩ }
        mTriIndex := 2 } rfl
    refine ⟨w1, ?_, ?_, ?_, ?_⟩
    · simp only [WrapperMesh.emitAll, h0, h1]
      exact he
    · rw [h2]
      simp only [List.length_cons]
      omega
    · rw [hflag]
      simp [WrapperMesh.clear]
    · rw [hlen]
      simp [WrapperMesh.clear]

/-- C18: from the reset state, after every prefix of any sequence of
`emit_vertex` calls every store into `mTriangles` has been inside the array
(the run has a result), `mTriIndex` is 0, 1 or 2, so that the next store is
inside the array as well, `mTriIndex` equals `min(n, 2)` for the number `n`
of calls made, the number of emitted triangles is `n - 2` (none for `n < 2`),
and `mTriOddOrder` is true exactly when that number is odd. -/
theorem emit_vertex_slot_index (w : WrapperMesh α) (hf : HeightfieldView α)
    (vs : List GridCoord) (k : Nat) :
    ∃ w1, WrapperMesh.emitAll hf w.clear (vs.take k) = some w1 ∧
      (w1.mTriIndex = 0 ∨ w1.mTriIndex = 1 ∨ w1.mTriIndex = 2) ∧
      (∀ x y : Int, ∃ t, w1.mTriangles.write w1.mTriIndex ⟨x, y⟩ = some t) ∧
      w1.mTriIndex = min ((vs.take k).length : Int) 2 ∧
      w1.mMesh.indices.length / 3 = (vs.take k).length - 2 ∧
      (w1.mTriOddOrder = true ↔ (w1.mMesh.indices.length / 3) % 2 = 1) := by
  obtain ⟨w1, he, hidx, hflag, hlen⟩ := WrapperMesh.emitAll_clear_fields hf w (vs.take k)
  have hrange : w1.mTriIndex = 0 ∨ w1.mTriIndex = 1 ∨ w1.mTriIndex = 2 := by
    rw [hidx]
    omega
  have htri : w1.mMesh.indices.length / 3 = (vs.take k).length - 2 := by
    rw [hlen]
    omega
  refine ⟨w1, he, hrange, ?_, hidx, htri, ?_⟩
  · intro x y
    rcases hrange with h | h | h <;> simp [TriSlots.write, h]
  · rw [htri, hflag]
    simp

/-! ## Resolved indices of the triangles -/

/-- A property of the mesh and the index map that every `appendVertex` call
extends by its grid position holds along a whole run of `emit_vertex` calls,
for the grid positions handed to `appendVertex`. -/
theorem WrapperMesh.emitAll_invariant (hf : HeightfieldView α)
    (P : WrapperMesh α → List GridCoord → Prop)
    (hcongr : ∀ (w w1 : WrapperMesh α) (calls : List GridCoord),
      w1.mBounds = w.mBounds → w1.mCellSizeX = w.mCellSizeX → w1.mCellSizeY = w.mCellSizeY →
      w1.mMesh = w.mMesh → w1.mIndicesMap = w.mIndicesMap → P w calls → P w1 calls)
    (hstep : ∀ (w : WrapperMesh α) (calls : List GridCoord) (p : GridCoord),
      P w calls → P (w.appendVertex hf p.x p.y) (calls ++ [p]))
    (vs : List GridCoord) :
    ∀ (w : WrapperMesh α) (calls : List GridCoord), w.Safe → P w calls →
      ∃ w1, WrapperMesh.emitAll hf w vs = some w1 ∧
        P w1 (calls ++ WrapperMesh.appendCallsAll hf w vs) := by
  induction vs with
  | nil =>
    intro w calls _ h
    exact ⟨w, rfl, by simpa [WrapperMesh.appendCallsAll] using h⟩
  | cons p ps ih =>
    intro w calls hs h
    obtain ⟨w1, he, hs1⟩ := w.emit_vertex_safe hf p.x p.y hs
    have hcalls : WrapperMesh.appendCallsAll hf w (p :: ps) =
        w.appendCalls p.x p.y ++ WrapperMesh.appendCallsAll hf w1 ps := by
      simp only [WrapperMesh.appendCallsAll, he]
    have hP1 : P w1 (calls ++ w.appendCalls p.x p.y) := by
      rcases hs.2.2.2 with h0 | h1 | h2
      · have hc : w.appendCalls p.x p.y = [] := by simp [WrapperMesh.appendCalls, h0]
        rw [w.emit_vertex_of_zero hf p.x p.y h0] at he
        cases Option.some.inj he
        rw [hc, List.append_nil]
        exact hcongr w _ calls rfl rfl rfl rfl rfl h
      · have hc : w.appendCalls p.x p.y = [] := by simp [WrapperMesh.appendCalls, h1]
        rw [w.emit_vertex_of_one hf p.x p.y h1] at he
        cases Option.some.inj he
        rw [hc, List.append_nil]
        exact hcongr w _ calls rfl rfl rfl rfl rfl h
      · rw [w.emit_vertex_of_two hf p.x p.y h2] at he
        cases Option.some.inj he
        have h2a : P
            { w with
              mTriangles := { w.mTriangles with s2 := ⟨p.x, p.y⟩ }
              mTriIndex := 3
              mTriOddOrder := !w.mTriOddOrder } calls :=
          hcongr w _ calls rfl rfl rfl rfl rfl h
        cases hodd : w.mTriOddOrder
        · have hc : w.appendCalls p.x p.y = [w.mTriangles.s0, w.mTriangles.s1, ⟨p.x, p.y⟩] := by
            simp [WrapperMesh.appendCalls, h2, hodd]
          rw [hc]
          have a3 := hstep _ _ (⟨p.x, p.y⟩ : GridCoord)
            (hstep _ _ w.mTriangles.s1 (hstep _ calls w.mTriangles.s0 h2a))
          rw [List.append_assoc, List.append_assoc] at a3
          rw [hodd] at a3
          refine hcongr _ _ _ ?_ ?_ ?_ ?_ ?_ a3 <;> simp
        · have hc : w.appendCalls p.x p.y = [w.mTriangles.s1, w.mTriangles.s0, ⟨p.x, p.y⟩] := by
            simp [WrapperMesh.appendCalls, h2, hodd]
          rw [hc]
          have a3 := hstep _ _ (⟨p.x, p.y⟩ : GridCoord)
            (hstep _ _ w.mTriangles.s0 (hstep _ calls w.mTriangles.s1 h2a))
          rw [List.append_assoc, List.append_assoc] at a3
          rw [hodd] at a3
          refine hcongr _ _ _ ?_ ?_ ?_ ?_ ?_ a3 <;> simp
    obtain ⟨w2, he2, h2⟩ := ih w1 (calls ++ w.appendCalls p.x p.y) hs1 hP1
    refine ⟨w2, by simp only [WrapperMesh.emitAll, he, he2], ?_⟩
    rw [hcalls, ← List.append_assoc]
    exact h2

theorem WrapperMesh.appendVertex_resolved (hf : HeightfieldView α) (w : WrapperMesh α)
    (calls : List GridCoord) (p : GridCoord) (h : w.Resolved hf calls) :
    (w.appendVertex hf p.x p.y).Resolved hf (calls ++ [p]) := by
  unfold WrapperMesh.Resolved at *
  cases hl : w.mIndicesMap.lookup (hf.indexOfGridCoordinate p.x p.y) with
  | none =>
    rw [w.appendVertex_of_unseen hf p.x p.y hl]
    simp only [List.map_append, List.map_cons, List.map_nil, List.lookup_cons, beq_self_eq_true]
    rw [h]
    congr 1
    apply List.map_congr_left
    intro c hc
    have hsome : w.mIndicesMap.lookup (hf.indexOfGridCoordinate c.x c.y) ∈
        w.mMesh.indices.map some := by
      rw [h]
      exact List.mem_map_of_mem _ hc
    obtain ⟨i, _, hi⟩ := List.mem_map.mp hsome
    have hne : hf.indexOfGridCoordinate c.x c.y ≠ hf.indexOfGridCoordinate p.x p.y := by
      intro he
      rw [he, hl] at hi
      exact Option.noConfusion hi
    have hb : (hf.indexOfGridCoordinate c.x c.y == hf.indexOfGridCoordinate p.x p.y)
        = false := by simpa using hne
    rw [hb]
  | some iv =>
    rw [w.appendVertex_of_seen hf p.x p.y iv hl]
    simp only [List.map_append, List.map_cons, List.map_nil]
    rw [h, hl]

theorem WrapperMesh.emitAll_resolved (hf : HeightfieldView α) (w : WrapperMesh α)
    (vs : List GridCoord) :
    ∃ w1, WrapperMesh.emitAll hf w.clear vs = some w1 ∧
      w1.Resolved hf (stripCorners false vs) := by
  obtain ⟨w1, he, h⟩ := WrapperMesh.emitAll_invariant hf (fun w calls => w.Resolved hf calls)
    (by
      intro w w1 calls _ _ _ hmesh hmap h
      unfold WrapperMesh.Resolved at *
      rw [hmesh, hmap]
      exact h)
    (fun w calls p h => WrapperMesh.appendVertex_resolved hf w calls p h)
    vs w.clear [] w.clear_safe (by simp [WrapperMesh.Resolved, WrapperMesh.clear])
  rw [List.nil_append, WrapperMesh.appendCallsAll_clear] at h
  exact ⟨w1, he, h⟩

theorem stripCorners_of_short (odd : Bool) (l : List GridCoord) (h : l.length < 3) :
    stripCorners odd l = [] := by
  match l, h with
  | [], _ => rfl
  | [_], _ => rfl
  | [_, _], _ => rfl

theorem stripCorners_length (l : List GridCoord) :
    ∀ odd : Bool, (stripCorners odd l).length = 3 * (l.length - 2) := by
  induction l with
  | nil => intro odd; rfl
  | cons a l ih =>
    intro odd
    match l with
    | [] => rfl
    | [_] => rfl
    | b :: c :: rest =>
      rw [stripCorners, List.length_append, ih (!odd)]
      cases odd <;> simp <;> omega

theorem stripCorners_drop (j : Nat) :
    ∀ (odd : Bool) (l : List GridCoord),
      (stripCorners odd l).drop (3 * j) =
        stripCorners (xor odd (decide (j % 2 = 1))) (l.drop j) := by
  induction j with
  | zero => intro odd l; simp
  | succ j ih =>
    intro odd l
    match l with
    | [] => simp [stripCorners]
    | [_] => simp [stripCorners]
    | [_, _] =>
      rw [stripCorners_of_short _ _ (by simp), stripCorners_of_short _ _ (by simp; omega)]
      rfl
    | a :: b :: c :: rest =>
      have h3 : 3 * (j + 1) = 3 + 3 * j := by ring
      have hd : (stripCorners odd (a :: b :: c :: rest)).drop 3 =
          stripCorners (!odd) (b :: c :: rest) := by
        rw [stripCorners]
        cases odd <;> rfl
      rw [h3, ← List.drop_drop, hd, ih (!odd) (b :: c :: rest), List.drop_succ_cons]
      congr 1
      rcases Nat.mod_two_eq_zero_or_one j with hm | hm <;>
        cases odd <;> simp [hm, Nat.add_mod]

theorem drop_of_getElem? {γ : Type} (l : List γ) (n : Nat) (a : γ) (h : l[n]? = some a) :
    l.drop n = a :: l.drop (n + 1) := by
  obtain ⟨hlt, rfl⟩ := List.getElem?_eq_some.mp h
  exact List.drop_eq_getElem_cons hlt

/-- The corners of the `k`-th triangle of a strip: `v(k-1), v(k), v(k+1)`,
the first two swapped when `k` is even. -/
theorem stripCorners_triangleAt (vs : List GridCoord) (k : Nat) (a b c : GridCoord)
    (hk : 1 ≤ k) (ha : vs[k - 1]? = some a) (hb : vs[k]? = some b)
    (hc : vs[k + 1]? = some c) :
    triangleAt (stripCorners false vs) k = if k % 2 = 1 then [a, b, c] else [b, a, c] := by
  obtain ⟨j, rfl⟩ : ∃ j, k = j + 1 := ⟨k - 1, by omega⟩
  simp only [Nat.add_sub_cancel] at ha
  have hd : vs.drop j = a :: b :: c :: vs.drop (j + 3) := by
    rw [drop_of_getElem? vs j a ha, drop_of_getElem? vs (j + 1) b hb,
      drop_of_getElem? vs (j + 2) c hc]
  unfold triangleAt
  rw [Nat.add_sub_cancel, stripCorners_drop, hd, stripCorners]
  rcases Nat.mod_two_eq_zero_or_one j with hm | hm <;> simp [hm, Nat.add_mod]

/-- C13: for every emission sequence `v0, ..., v(n-1)` fed to a reset sink,
`mesh.indices` holds exactly `max(0, n-2)` triangles (three entries each),
and for every `k` from 1 to `n-2` the `k`-th triangle is the list of indices
that `mIndicesMap` holds for `(v(k-1), v(k), v(k+1))` when `k` is odd and for
`(v(k), v(k-1), v(k+1))` when `k` is even. -/
theorem strip_triangles_resolved (w : WrapperMesh α) (hf : HeightfieldView α)
    (vs : List GridCoord) :
    ∃ w1, WrapperMesh.emitAll hf w.clear vs = some w1 ∧
      w1.mMesh.indices.length = 3 * (vs.length - 2) ∧
      ∀ (k : Nat) (a b c : GridCoord), 1 ≤ k →
        vs[k - 1]? = some a → vs[k]? = some b → vs[k + 1]? = some c →
        (triangleAt w1.mMesh.indices k).map some =
          (if k % 2 = 1 then [a, b, c] else [b, a, c]).map
            (fun p => w1.mIndicesMap.lookup (hf.indexOfGridCoordinate p.x p.y)) := by
  obtain ⟨w1, he, hres⟩ := WrapperMesh.emitAll_resolved hf w vs
  refine ⟨w1, he, ?_, ?_⟩
  · have hlen := congrArg List.length hres
    rw [List.length_map, List.length_map, stripCorners_length] at hlen
    exact hlen
  · intro k a b c hk ha hb hc
    have ht := stripCorners_triangleAt vs k a b c hk ha hb hc
    unfold triangleAt at ht ⊢
    unfold WrapperMesh.Resolved at hres
    rw [List.map_take, List.map_drop, hres, ← List.map_drop, ← List.map_take, ht]

/-- Witness for C13: the corner strip of the flat 3 x 3 tile has two
triangles; the second one is resolved from `(v2, v1, v3)` and reads
`2, 1, 3`. -/
theorem strip_triangles_resolved_witness :
    (∃ w1, WrapperMesh.emitAll flatHeightfield3 flatSink3.clear cornerStrip3 = some w1 ∧
      w1.mMesh.indices.length = 3 * (cornerStrip3.length - 2) ∧
      ∀ (k : Nat) (a b c : GridCoord), 1 ≤ k →
        cornerStrip3[k - 1]? = some a → cornerStrip3[k]? = some b →
        cornerStrip3[k + 1]? = some c →
        (triangleAt w1.mMesh.indices k).map some =
          (if k % 2 = 1 then [a, b, c] else [b, a, c]).map
            (fun p => w1.mIndicesMap.lookup
              (flatHeightfield3.indexOfGridCoordinate p.x p.y))) ∧
    (∃ w1, WrapperMesh.emitAll flatHeightfield3 flatSink3.clear cornerStrip3 = some w1 ∧
      w1.mMesh.indices = [0, 1, 2, 2, 1, 3] ∧ triangleAt w1.mMesh.indices 2 = [2, 1, 3]) :=
  ⟨strip_triangles_resolved flatSink3 flatHeightfield3 cornerStrip3, _, rfl, rfl, rfl⟩

/-! ## First-use order of the vertices -/

/-- Positions are listed by `firstUses` in the order of their first
occurrence: `p` comes before `q` in `firstUses l` exactly when the first
occurrence of `p` in `l` comes before the first occurrence of `q`. -/
theorem firstUses_indexOf_lt (l : List GridCoord) :
    ∀ p ∈ l, ∀ q ∈ l,
      ((firstUses l).indexOf p < (firstUses l).indexOf q ↔ l.indexOf p < l.indexOf q) := by
  induction l using List.reverseRecOn with
  | nil => intro p hp; simp at hp
  | append_singleton l a ih =>
    intro p hp q hq
    rw [firstUses_append_singleton]
    by_cases ha : a ∈ firstUses l
    · have hal : a ∈ l := (firstUses_mem l a).mp ha
      have hpl : p ∈ l := by
        rcases List.mem_append.mp hp with h | h
        · exact h
        · rw [List.mem_singleton.mp h]; exact hal
      have hql : q ∈ l := by
        rcases List.mem_append.mp hq with h | h
        · exact h
        · rw [List.mem_singleton.mp h]; exact hal
      rw [if_pos ha, List.indexOf_append_of_mem hpl, List.indexOf_append_of_mem hql]
      exact ih p hpl q hql
    · have hal : a ∉ l := fun h => ha ((firstUses_mem l a).mpr h)
      rw [if_neg ha]
      by_cases hpl : p ∈ l <;> by_cases hql : q ∈ l
      · rw [List.indexOf_append_of_mem hpl, List.indexOf_append_of_mem hql,
          List.indexOf_append_of_mem ((firstUses_mem l p).mpr hpl),
          List.indexOf_append_of_mem ((firstUses_mem l q).mpr hql)]
        exact ih p hpl q hql
      · have hqa : q = a := by
          rcases List.mem_append.mp hq with h | h
          · exact absurd h hql
          · exact List.mem_singleton.mp h
        subst hqa
        rw [List.indexOf_append_of_mem hpl, List.indexOf_append_of_not_mem hal,
          List.indexOf_append_of_mem ((firstUses_mem l p).mpr hpl),
          List.indexOf_append_of_not_mem ha]
        have h1 := List.indexOf_lt_length.mpr hpl
        have h2 := List.indexOf_lt_length.mpr ((firstUses_mem l p).mpr hpl)
        simp only [List.indexOf_cons_self, Nat.add_zero]
        exact ⟨fun _ => h1, fun _ => h2⟩
      · have hpa : p = a := by
          rcases List.mem_append.mp hp with h | h
          · exact absurd h hpl
          · exact List.mem_singleton.mp h
        subst hpa
        rw [List.indexOf_append_of_mem hql, List.indexOf_append_of_not_mem hal,
          List.indexOf_append_of_mem ((firstUses_mem l q).mpr hql),
          List.indexOf_append_of_not_mem ha]
        have h1 := List.indexOf_lt_length.mpr hql
        have h2 := List.indexOf_lt_length.mpr ((firstUses_mem l q).mpr hql)
        simp only [List.indexOf_cons_self, Nat.add_zero]
        constructor
        · intro h; omega
        · intro h; omega
      · have hpa : p = a := by
          rcases List.mem_append.mp hp with h | h
          · exact absurd h hpl
          · exact List.mem_singleton.mp h
        have hqa : q = a := by
          rcases List.mem_append.mp hq with h | h
          · exact absurd h hql
          · exact List.mem_singleton.mp h
        subst hpa
        subst hqa
        simp

/-- Folding the first-use step over the corners of the rest of a strip adds
the same positions, in the same order, as folding it over the rest of the
emission sequence, once the two buffered vertices are known. -/
theorem foldl_firstUse_stripCorners (rest : List GridCoord) :
    ∀ (odd : Bool) (b c : GridCoord) (acc : List GridCoord), b ∈ acc → c ∈ acc →
      (stripCorners odd (b :: c :: rest)).foldl
          (fun acc p => if p ∈ acc then acc else acc ++ [p]) acc =
        rest.foldl (fun acc p => if p ∈ acc then acc else acc ++ [p]) acc := by
  induction rest with
  | nil => intro odd b c acc _ _; rfl
  | cons d rest ih =>
    intro odd b c acc hb hc
    have hstep : ∀ acc1 : List GridCoord, c ∈ acc1 →
        c ∈ (if d ∈ acc1 then acc1 else acc1 ++ [d]) ∧
        d ∈ (if d ∈ acc1 then acc1 else acc1 ++ [d]) := by
      intro acc1 h
      by_cases hd : d ∈ acc1
      · rw [if_pos hd]; exact ⟨h, hd⟩
      · rw [if_neg hd]; exact ⟨List.mem_append_left _ h, by simp⟩
    rw [stripCorners, List.foldl_append, List.foldl_cons]
    have htri : (if (!odd) = true then [b, c, d] else [c, b, d]).foldl
        (fun acc p => if p ∈ acc then acc else acc ++ [p]) acc =
        (if d ∈ acc then acc else acc ++ [d]) := by
      cases odd <;> simp [hb, hc]
    rw [htri]
    exact ih (!odd) c d _ (hstep acc hc).1 (hstep acc hc).2

/-- The first uses of the triangle corners of a strip of at least three
vertices are the first occurrences in the emission sequence. -/
theorem firstUses_stripCorners (vs : List GridCoord) (h3 : 3 ≤ vs.length) :
    firstUses (stripCorners false vs) = firstUses vs := by
  match vs, h3 with
  | a :: b :: c :: rest, _ =>
    unfold firstUses
    rw [stripCorners, List.foldl_append]
    have hb : b ∈ ([a, b, c] : List GridCoord).foldl
        (fun acc p => if p ∈ acc then acc else acc ++ [p]) [] := by
      have := (firstUses_mem [a, b, c] b).mpr (by simp)
      exact this
    have hc : c ∈ ([a, b, c] : List GridCoord).foldl
        (fun acc p => if p ∈ acc then acc else acc ++ [p]) [] := by
      have := (firstUses_mem [a, b, c] c).mpr (by simp)
      exact this
    simp only [Bool.not_false, if_true]
    rw [foldl_firstUse_stripCorners rest true b c _ hb hc]
    rfl

/-- C14: for an emission sequence of at least three grid vertices on which
`indexOfGridCoordinate` is injective, fed to a reset sink, `mesh.vertices`
lists the distinct grid positions in first-use order (the order in which
`appendVertex` first receives them), which is the order of their first
occurrence in the emission sequence; the index `mIndicesMap` stores for a
position, and every entry of `mesh.indices` for it, is its rank in that
order. -/
theorem vertices_in_first_use_order (w : WrapperMesh α) (hf : HeightfieldView α)
    (vs : List GridCoord) (h3 : 3 ≤ vs.length)
    (hinj : ∀ p ∈ vs, ∀ q ∈ vs,
      hf.indexOfGridCoordinate p.x p.y = hf.indexOfGridCoordinate q.x q.y → p = q) :
    ∃ w1, WrapperMesh.emitAll hf w.clear vs = some w1 ∧
      w1.mMesh.vertices =
        (firstUses (WrapperMesh.appendCallsAll hf w.clear vs)).map
          (fun p => w1.gridVertex hf p.x p.y) ∧
      firstUses (WrapperMesh.appendCallsAll hf w.clear vs) = firstUses vs ∧
      (firstUses vs).Nodup ∧ (∀ p, p ∈ firstUses vs ↔ p ∈ vs) ∧
      (∀ p ∈ vs, ∀ q ∈ vs,
        ((firstUses vs).indexOf p < (firstUses vs).indexOf q ↔
          vs.indexOf p < vs.indexOf q)) ∧
      (∀ p ∈ vs, w1.mIndicesMap.lookup (hf.indexOfGridCoordinate p.x p.y) =
        some ((firstUses vs).indexOf p)) ∧
      w1.mMesh.indices =
        (WrapperMesh.appendCallsAll hf w.clear vs).map (fun p => (firstUses vs).indexOf p) := by
  have hD : ∀ p ∈ WrapperMesh.appendCallsAll hf w.clear vs, p ∈ vs := by
    rw [WrapperMesh.appendCallsAll_clear]
    exact stripCorners_mem_of_mem vs false
  obtain ⟨w1, he, hv, hi, hm, _⟩ :=
    WrapperMesh.emitAll_assembled hf (fun p => p ∈ vs) (fun p q hp hq => hinj p hp q hq) vs
      w.clear [] hD w.clear_safe (WrapperMesh.clear_assembled hf _ w)
  rw [List.nil_append] at hv hi hm
  have hfu : firstUses (WrapperMesh.appendCallsAll hf w.clear vs) = firstUses vs := by
    rw [WrapperMesh.appendCallsAll_clear]
    exact firstUses_stripCorners vs h3
  refine ⟨w1, he, hv, hfu, firstUses_nodup vs, firstUses_mem vs, firstUses_indexOf_lt vs,
    ?_, ?_⟩
  · intro p hp
    rw [hm p hp, hfu, if_pos ((firstUses_mem vs p).mpr hp)]
  · rw [hi, hfu]

/-- Witness for C14: the corner strip of the flat 3 x 3 tile. -/
theorem vertices_in_first_use_order_witness :
    (3 ≤ cornerStrip3.length ∧
      ∀ p ∈ cornerStrip3, ∀ q ∈ cornerStrip3,
        flatHeightfield3.indexOfGridCoordinate p.x p.y =
          flatHeightfield3.indexOfGridCoordinate q.x q.y → p = q) ∧
    ∃ w1, WrapperMesh.emitAll flatHeightfield3 flatSink3.clear cornerStrip3 = some w1 ∧
      w1.mMesh.vertices =
        (firstUses (WrapperMesh.appendCallsAll flatHeightfield3 flatSink3.clear
          cornerStrip3)).map (fun p => w1.gridVertex flatHeightfield3 p.x p.y) ∧
      firstUses (WrapperMesh.appendCallsAll flatHeightfield3 flatSink3.clear cornerStrip3) =
        firstUses cornerStrip3 ∧
      (firstUses cornerStrip3).Nodup ∧ (∀ p, p ∈ firstUses cornerStrip3 ↔ p ∈ cornerStrip3) ∧
      (∀ p ∈ cornerStrip3, ∀ q ∈ cornerStrip3,
        ((firstUses cornerStrip3).indexOf p < (firstUses cornerStrip3).indexOf q ↔
          cornerStrip3.indexOf p < cornerStrip3.indexOf q)) ∧
      (∀ p ∈ cornerStrip3,
        w1.mIndicesMap.lookup (flatHeightfield3.indexOfGridCoordinate p.x p.y) =
          some ((firstUses cornerStrip3).indexOf p)) ∧
      w1.mMesh.indices =
        (WrapperMesh.appendCallsAll flatHeightfield3 flatSink3.clear cornerStrip3).map
          (fun p => (firstUses cornerStrip3).indexOf p) :=
  ⟨by decide,
    vertices_in_first_use_order flatSink3 flatHeightfield3 cornerStrip3 (by decide)
      (by decide)⟩

end StripProofs

/-! ## Child flags -/

section ChildFlagProofs

variable {α κ β η : Type}

theorem MeshTiler.setChildFlags_of_max (T : MeshTiler α κ β η) (t : MeshTile α)
    (coord : TileCoordinate) (hz : coord.zoom = T.maxZoomLevel) :
    T.setChildFlags t coord = t := by
  simp [MeshTiler.setChildFlags, hz]

theorem MeshTiler.setChildFlags_of_no_overlap (T : MeshTiler α κ β η) (t : MeshTile α)
    (coord : TileCoordinate) (hz : coord.zoom ≠ T.maxZoomLevel)
    (hov : T.overlaps T.bounds (T.tileBounds coord) = false) :
    T.setChildFlags t coord = t.setAllChildren false := by
  simp [MeshTiler.setChildFlags, hz, hov]

theorem MeshTiler.setChildFlags_of_overlap (T : MeshTiler α κ β η) (t : MeshTile α)
    (coord : TileCoordinate) (hz : coord.zoom ≠ T.maxZoomLevel)
    (hov : T.overlaps T.bounds (T.tileBounds coord) = true) :
    (T.setChildFlags t coord).childSW =
        (t.childSW || T.overlaps T.bounds (T.getSW (T.tileBounds coord))) ∧
    (T.setChildFlags t coord).childNW =
        (t.childNW || T.overlaps T.bounds (T.getNW (T.tileBounds coord))) ∧
    (T.setChildFlags t coord).childNE =
        (t.childNE || T.overlaps T.bounds (T.getNE (T.tileBounds coord))) ∧
    (T.setChildFlags t coord).childSE =
        (t.childSE || T.overlaps T.bounds (T.getSE (T.tileBounds coord))) := by
  simp only [MeshTiler.setChildFlags, hz, hov, ne_eq, not_false_eq_true, if_true,
    Bool.not_true, Bool.false_eq_true, if_false]
  cases T.overlaps T.bounds (T.getSW (T.tileBounds coord)) <;>
    cases T.overlaps T.bounds (T.getNW (T.tileBounds coord)) <;>
    cases T.overlaps T.bounds (T.getNE (T.tileBounds coord)) <;>
    cases T.overlaps T.bounds (T.getSE (T.tileBounds coord)) <;>
    simp

/-- The tile a returning `prepareSettingsOfTile` call hands back is the tile
it was given, with the assembled mesh and the child flags of
`setChildFlags`. -/
theorem MeshTiler.prepareSettingsOfTile_tile [Add α] [Sub α] [Mul α] [Div α] [IntCast α]
    [NatCast α] (T : MeshTiler α κ β η) (st : TilerState κ α)
    (terrainTile : MeshTile α) (coord : TileCoordinate) (rasterHeights : RasterHeightsBuff β)
    (tileSizeX tileSizeY : Nat) (tile : MeshTile α) (st1 : TilerState κ α)
    (h : T.prepareSettingsOfTile st terrainTile coord rasterHeights tileSizeX tileSizeY =
      Except.ok (tile, st1)) :
    ∃ mesh1 : Mesh α, tile = T.setChildFlags { terrainTile with mesh := mesh1 } coord := by
  have hprop : ∀ r : Outcome κ α η,
      (match r with
        | Except.error e => (Except.error e : Outcome κ α (MeshTile α))
        | Except.ok (heightfield, st1) =>
          match WrapperMesh.emitAll (T.view heightfield)
              (WrapperMesh.construct (T.tileBounds coord) terrainTile.mesh tileSizeX
                tileSizeY).clear (T.generateMesh heightfield) with
          | none => Except.error (Failure.slotOverrun, st1.log (Event.generateMesh coord))
          | some mesh1 =>
            Except.ok (T.setChildFlags { terrainTile with mesh := mesh1.mMesh } coord,
              (st1.log (Event.generateMesh coord)).log (Event.heightfieldClear coord)))
        = Except.ok (tile, st1) →
      ∃ mesh1 : Mesh α, tile = T.setChildFlags { terrainTile with mesh := mesh1 } coord := by
    intro r hr
    cases r with
    | error e => exact Except.noConfusion hr
    | ok r =>
      obtain ⟨heightfield, st2⟩ := r
      cases hemit : WrapperMesh.emitAll (T.view heightfield)
          (WrapperMesh.construct (T.tileBounds coord) terrainTile.mesh tileSizeX
            tileSizeY).clear (T.generateMesh heightfield) with
      | none =>
        simp only [hemit] at hr
        exact Except.noConfusion hr
      | some mesh1 =>
        simp only [hemit] at hr
        have := Except.ok.inj hr
        exact ⟨mesh1.mMesh, (Prod.mk.inj this).1.symm⟩
  unfold MeshTiler.prepareSettingsOfTile at h
  exact hprop _ h

theorem MeshTiler.createMesh_tile [Add α] [Sub α] [Mul α] [Div α] [IntCast α]
    [NatCast α] (T : MeshTiler α κ β η) (cache : κ) (coord : TileCoordinate)
    (tile : MeshTile α) (st : TilerState κ α)
    (h : T.createMesh cache coord = Except.ok (tile, st)) :
    ∃ mesh1 : Mesh α,
      tile = T.setChildFlags { (MeshTile.new coord : MeshTile α) with mesh := mesh1 } coord := by
  have hpush : ∀ (r : Outcome κ α (MeshTile α)) (b : Bool) (rh : RasterHeightsBuff β),
      (match r with
        | Except.error e => (Except.error e : Outcome κ α (MeshTile α))
        | Except.ok (terrainTile1, st3) =>
          if b = true then
            Except.ok (terrainTile1,
              { cache := T.cachePush st3.cache rh
                trace := st3.trace ++ [Event.cachePush coord] })
          else Except.ok (terrainTile1, st3)) = Except.ok (tile, st) →
      ∃ st3, r = Except.ok (tile, st3) := by
    intro r b rh hr
    cases r with
    | error e => exact Except.noConfusion hr
    | ok r =>
      obtain ⟨tile1, st3⟩ := r
      cases b
      · simp only [Bool.false_eq_true, if_false] at hr
        have := Prod.mk.inj (Except.ok.inj hr)
        exact ⟨st3, by rw [this.1]⟩
      · simp only [if_true] at hr
        have := Prod.mk.inj (Except.ok.inj hr)
        exact ⟨st3, by rw [this.1]⟩
  unfold MeshTiler.createMesh at h
  cases hget : T.cacheGet cache coord with
  | some rasterHeights =>
    simp only [hget, Option.isSome_some, Option.isNone_some] at h
    obtain ⟨st3, h3⟩ := hpush _ false rasterHeights h
    exact T.prepareSettingsOfTile_tile _ _ coord _ _ _ tile st3 h3
  | none =>
    cases hread : T.readRasterHeights coord T.tileSize T.tileSize with
    | none =>
      simp only [hget, hread] at h
      exact Except.noConfusion h
    | some heights =>
      simp only [hget, hread, Option.isSome_none, Option.isNone_none] at h
      obtain ⟨st3, h3⟩ := hpush _ true ⟨coord, heights⟩ h
      exact T.prepareSettingsOfTile_tile _ _ coord _ _ _ tile st3 h3

/-- C11: for a tile coordinate whose zoom is not the maximum zoom level and
whose bounds do not overlap the dataset extent, the `MeshTile` returned by
`createMesh` has all four child flags (SW, NW, NE, SE) false. -/
theorem createMesh_children_clear_outside_dataset [Add α] [Sub α] [Mul α] [Div α]
    [IntCast α] [NatCast α] (T : MeshTiler α κ β η) (cache : κ) (coord : TileCoordinate)
    (tile : MeshTile α) (st : TilerState κ α)
    (hret : T.createMesh cache coord = Except.ok (tile, st))
    (hz : coord.zoom ≠ T.maxZoomLevel)
    (hov : T.overlaps T.bounds (T.tileBounds coord) = false) :
    tile.childSW = false ∧ tile.childNW = false ∧ tile.childNE = false ∧
      tile.childSE = false := by
  obtain ⟨mesh1, rfl⟩ := T.createMesh_tile cache coord tile st hret
  rw [T.setChildFlags_of_no_overlap _ coord hz hov]
  exact ⟨rfl, rfl, rfl, rfl⟩

set_option maxRecDepth 10000 in
set_option exponentiation.threshold 3000 in
/-- Witness for C11: the sample geodetic tiler on a tile of zoom 3 that lies
east of the globe. -/
theorem createMesh_children_clear_outside_dataset_witness :
    ∃ tile st,
      (geodeticTiler readerAlwaysOk).createMesh [] ⟨3, 100, 0⟩ = Except.ok (tile, st) ∧
      (3 ≠ (geodeticTiler readerAlwaysOk).maxZoomLevel) ∧
      (geodeticTiler readerAlwaysOk).overlaps (geodeticTiler readerAlwaysOk).bounds
        ((geodeticTiler readerAlwaysOk).tileBounds ⟨3, 100, 0⟩) = false ∧
      (tile.childSW = false ∧ tile.childNW = false ∧ tile.childNE = false ∧
        tile.childSE = false) :=
  ⟨_, _, rfl, by decide, by decide,
    createMesh_children_clear_outside_dataset (geodeticTiler readerAlwaysOk) []
      ⟨3, 100, 0⟩ _ _ rfl (by decide) (by decide)⟩

/-- C15: for a tile coordinate whose zoom is not the maximum zoom level and
whose bounds overlap the dataset extent, each of the four child flags of the
`MeshTile` returned by `createMesh` is set if and only if the dataset extent
overlaps the corresponding sub-quadrant (SW, NW, NE, SE) of the tile bounds,
each flag by the test of its own quadrant alone; at the maximum zoom level
the flags are those of the new tile, and `prepareSettingsOfTile` hands back
the flags of whatever tile it was given. -/
theorem createMesh_child_flags_by_quadrant [Add α] [Sub α] [Mul α] [Div α]
    [IntCast α] [NatCast α] (T : MeshTiler α κ β η) (cache : κ) (coord : TileCoordinate)
    (tile : MeshTile α) (st : TilerState κ α)
    (hret : T.createMesh cache coord = Except.ok (tile, st)) :
    (coord.zoom ≠ T.maxZoomLevel → T.overlaps T.bounds (T.tileBounds coord) = true →
      (tile.childSW = true ↔ T.overlaps T.bounds (T.getSW (T.tileBounds coord)) = true) ∧
      (tile.childNW = true ↔ T.overlaps T.bounds (T.getNW (T.tileBounds coord)) = true) ∧
      (tile.childNE = true ↔ T.overlaps T.bounds (T.getNE (T.tileBounds coord)) = true) ∧
      (tile.childSE = true ↔ T.overlaps T.bounds (T.getSE (T.tileBounds coord)) = true)) ∧
    (coord.zoom = T.maxZoomLevel →
      tile.childSW = (MeshTile.new coord : MeshTile α).childSW ∧
      tile.childNW = (MeshTile.new coord : MeshTile α).childNW ∧
      tile.childNE = (MeshTile.new coord : MeshTile α).childNE ∧
      tile.childSE = (MeshTile.new coord : MeshTile α).childSE) ∧
    (coord.zoom = T.maxZoomLevel →
      ∀ (st0 : TilerState κ α) (terrainTile : MeshTile α) (rasterHeights : RasterHeightsBuff β)
        (tile1 : MeshTile α) (st1 : TilerState κ α),
        T.prepareSettingsOfTile st0 terrainTile coord rasterHeights T.tileSize T.tileSize =
          Except.ok (tile1, st1) →
        tile1.childSW = terrainTile.childSW ∧ tile1.childNW = terrainTile.childNW ∧
        tile1.childNE = terrainTile.childNE ∧ tile1.childSE = terrainTile.childSE) := by
  obtain ⟨mesh1, rfl⟩ := T.createMesh_tile cache coord tile st hret
  refine ⟨?_, ?_, ?_⟩
  · intro hz hov
    obtain ⟨h1, h2, h3, h4⟩ := T.setChildFlags_of_overlap
      { (MeshTile.new coord : MeshTile α) with mesh := mesh1 } coord hz hov
    rw [h1, h2, h3, h4]
    simp [MeshTile.new]
  · intro hz
    rw [T.setChildFlags_of_max _ coord hz]
    exact ⟨rfl, rfl, rfl, rfl⟩
  · intro hz st0 terrainTile rasterHeights tile1 st1 h
    obtain ⟨mesh2, rfl⟩ := T.prepareSettingsOfTile_tile st0 terrainTile coord rasterHeights
      T.tileSize T.tileSize tile1 st1 h
    rw [T.setChildFlags_of_max _ coord hz]
    exact ⟨rfl, rfl, rfl, rfl⟩

set_option maxRecDepth 10000 in
set_option exponentiation.threshold 3000 in
/-- Witness for C15: the regional sample tiler on the tile of zoom 3 whose
south-west quadrant alone meets the dataset. -/
theorem createMesh_child_flags_by_quadrant_witness :
    ∃ tile st,
      (regionalTiler readerAlwaysOk).createMesh [] ⟨3, 8, 4⟩ = Except.ok (tile, st) ∧
      ((3 ≠ (regionalTiler readerAlwaysOk).maxZoomLevel →
        (regionalTiler readerAlwaysOk).overlaps (regionalTiler readerAlwaysOk).bounds
          ((regionalTiler readerAlwaysOk).tileBounds ⟨3, 8, 4⟩) = true →
        (tile.childSW = true ↔
          (regionalTiler readerAlwaysOk).overlaps (regionalTiler readerAlwaysOk).bounds
            ((regionalTiler readerAlwaysOk).getSW
              ((regionalTiler readerAlwaysOk).tileBounds ⟨3, 8, 4⟩)) = true) ∧
        (tile.childNW = true ↔
          (regionalTiler readerAlwaysOk).overlaps (regionalTiler readerAlwaysOk).bounds
            ((regionalTiler readerAlwaysOk).getNW
              ((regionalTiler readerAlwaysOk).tileBounds ⟨3, 8, 4⟩)) = true) ∧
        (tile.childNE = true ↔
          (regionalTiler readerAlwaysOk).overlaps (regionalTiler readerAlwaysOk).bounds
            ((regionalTiler readerAlwaysOk).getNE
              ((regionalTiler readerAlwaysOk).tileBounds ⟨3, 8, 4⟩)) = true) ∧
        (tile.childSE = true ↔
          (regionalTiler readerAlwaysOk).overlaps (regionalTiler readerAlwaysOk).bounds
            ((regionalTiler readerAlwaysOk).getSE
              ((regionalTiler readerAlwaysOk).tileBounds ⟨3, 8, 4⟩)) = true))) ∧
      (tile.childSW, tile.childNW, tile.childNE, tile.childSE) = (true, false, false, false) :=
  ⟨_, _, rfl,
    (createMesh_child_flags_by_quadrant (regionalTiler readerAlwaysOk) [] ⟨3, 8, 4⟩ _ _ rfl).1,
    by decide⟩

end ChildFlagProofs

/-! ## Shape of the trace of `createMesh` -/

section TraceShapeProofs

variable {α κ β η : Type}

theorem MeshTiler.borderStep_shape (T : MeshTiler α κ β η) (coord : TileCoordinate)
    (TILE_SIZE : Nat) (err : α) (heightfield : η) (st : TilerState κ α) (borderIndex : Nat)
    (heightfield1 : η) (st1 : TilerState κ α)
    (h : T.borderStep coord TILE_SIZE err heightfield st borderIndex =
      Except.ok (heightfield1, st1)) :
    ∃ visits pushed, T.BordersDone coord err [borderIndex] st st1 visits pushed := by
  unfold MeshTiler.borderStep at h
  by_cases hov : T.overlaps T.bounds (T.tileBounds (T.neighborCoord coord borderIndex)) = true
  · simp only [hov, if_true] at h
    cases hY : (borderIndex % 2 != 0) with
    | false =>
      have hodd : ¬ borderIndex % 2 = 1 := by
        have : borderIndex % 2 = 0 := by simpa using hY
        omega
      cases hread : T.readRasterHeights (T.neighborCoord coord borderIndex) T.tileSize
          T.tileSize with
      | none =>
        simp only [hY, hread, Bool.false_eq_true, if_false] at h
        exact Except.noConfusion h
      | some nheights =>
        simp only [hY, hread, Bool.false_eq_true, if_false, if_true, Option.isNone_none,
          TilerState.log] at h
        have hst := (Prod.mk.inj (Except.ok.inj h)).2
        subst hst
        refine ⟨[(borderIndex, false)], [], ?_, ?_, ?_, rfl, ?_, ?_⟩
        · simp [MeshTiler.overlappingBorders, hov]
        · intro v hv hhit
          simp at hv
          rw [hv] at hhit
          exact Bool.noConfusion hhit
        · simp [MeshTiler.visitEvents, borderEvents, hodd]
        · simp [MeshTiler.visitEvents, borderEvents, hodd, pushes]
        · intro b hb
          simp at hb
    | true =>
      have hodd : borderIndex % 2 = 1 := by
        have : borderIndex % 2 ≠ 0 := by simpa using hY
        omega
      cases hget : T.cacheGet st.cache (T.neighborCoord coord borderIndex) with
      | some nb =>
        simp only [hY, hget, if_true, Option.isNone_some, Option.isSome_some,
          Bool.false_eq_true, if_false, TilerState.log] at h
        have hst := (Prod.mk.inj (Except.ok.inj h)).2
        subst hst
        refine ⟨[(borderIndex, true)], [], ?_, ?_, ?_, rfl, ?_, ?_⟩
        · simp [MeshTiler.overlappingBorders, hov]
        · intro v hv _
          simp at hv
          rw [hv]
          exact hodd
        · simp [MeshTiler.visitEvents, borderEvents, hodd]
        · simp [MeshTiler.visitEvents, borderEvents, hodd, pushes]
        · intro b hb
          simp at hb
      | none =>
        cases hread : T.readRasterHeights (T.neighborCoord coord borderIndex) T.tileSize
            T.tileSize with
        | none =>
          simp only [hY, hget, hread, if_true] at h
          exact Except.noConfusion h
        | some nheights =>
          simp only [hY, hget, hread, if_true, Option.isNone_none, Option.isSome_none,
            TilerState.log] at h
          have hst := (Prod.mk.inj (Except.ok.inj h)).2
          subst hst
          refine ⟨[(borderIndex, false)], [⟨T.neighborCoord coord borderIndex, nheights⟩],
            ?_, ?_, ?_, rfl, ?_, ?_⟩
          · simp [MeshTiler.overlappingBorders, hov]
          · intro v hv hhit
            simp at hv
            rw [hv] at hhit
            exact Bool.noConfusion hhit
          · simp [MeshTiler.visitEvents, borderEvents, hodd]
          · simp [MeshTiler.visitEvents, borderEvents, hodd, pushes]
          · intro b hb
            simp at hb
            rw [hb]
            exact hread
  · simp only [hov, Bool.false_eq_true, if_false] at h
    have hst := (Prod.mk.inj (Except.ok.inj h)).2
    subst hst
    refine ⟨[], [], ?_, ?_, ?_, rfl, ?_, ?_⟩
    · simp [MeshTiler.overlappingBorders, hov]
    · intro v hv
      simp at hv
    · simp [MeshTiler.visitEvents]
    · simp [MeshTiler.visitEvents, pushes]
    · intro b hb
      simp at hb

theorem pushes_append (l1 l2 : List (Event α)) : pushes (l1 ++ l2) = pushes l1 ++ pushes l2 := by
  simp [pushes, List.filterMap_append]

theorem MeshTiler.visitEvents_append (T : MeshTiler α κ β η) (coord : TileCoordinate) (err : α)
    (v1 v2 : List (Nat × Bool)) :
    T.visitEvents coord err (v1 ++ v2) = T.visitEvents coord err v1 ++ T.visitEvents coord err v2 := by
  simp [MeshTiler.visitEvents]

theorem MeshTiler.bordersDone_nil (T : MeshTiler α κ β η) (coord : TileCoordinate) (err : α)
    (st : TilerState κ α) : T.BordersDone coord err [] st st [] [] := by
  refine ⟨rfl, ?_, ?_, rfl, rfl, ?_⟩
  · intro v hv
    simp at hv
  · simp [MeshTiler.visitEvents]
  · intro b hb
    simp at hb

theorem MeshTiler.bordersDone_append (T : MeshTiler α κ β η) (coord : TileCoordinate) (err : α)
    (bs1 bs2 : List Nat) (st st1 st2 : TilerState κ α) (v1 v2 : List (Nat × Bool))
    (p1 p2 : List (RasterHeightsBuff β))
    (h1 : T.BordersDone coord err bs1 st st1 v1 p1)
    (h2 : T.BordersDone coord err bs2 st1 st2 v2 p2) :
    T.BordersDone coord err (bs1 ++ bs2) st st2 (v1 ++ v2) (p1 ++ p2) := by
  obtain ⟨a1, a2, a3, a4, a5, a6⟩ := h1
  obtain ⟨b1, b2, b3, b4, b5, b6⟩ := h2
  refine ⟨?_, ?_, ?_, ?_, ?_, ?_⟩
  · simp only [MeshTiler.overlappingBorders] at a1 b1 ⊢
    rw [List.map_append, a1, b1, List.filter_append]
  · intro v hv
    rcases List.mem_append.1 hv with hv | hv
    · exact a2 v hv
    · exact b2 v hv
  · rw [b3, a3, T.visitEvents_append, List.append_assoc]
  · rw [b4, a4, List.foldl_append]
  · rw [List.map_append, a5, b5, T.visitEvents_append, pushes_append]
  · intro b hb
    rcases List.mem_append.1 hb with hb | hb
    · exact a6 b hb
    · exact b6 b hb

theorem MeshTiler.borderLoop_shape (T : MeshTiler α κ β η) (coord : TileCoordinate)
    (TILE_SIZE : Nat) (err : α) (borders : List Nat) :
    ∀ (heightfield : η) (st : TilerState κ α) (heightfield1 : η) (st1 : TilerState κ α),
      T.borderLoop coord TILE_SIZE err borders heightfield st = Except.ok (heightfield1, st1) →
      ∃ visits pushed, T.BordersDone coord err borders st st1 visits pushed := by
  induction borders with
  | nil =>
    intro heightfield st heightfield1 st1 h
    unfold MeshTiler.borderLoop at h
    have hst := (Prod.mk.inj (Except.ok.inj h)).2
    subst hst
    exact ⟨[], [], T.bordersDone_nil coord err st⟩
  | cons borderIndex rest ih =>
    intro heightfield st heightfield1 st1 h
    unfold MeshTiler.borderLoop at h
    cases hr : T.borderStep coord TILE_SIZE err heightfield st borderIndex with
    | error e =>
      simp only [hr] at h
      exact Except.noConfusion h
    | ok r =>
      obtain ⟨heightfield2, st2⟩ := r
      simp only [hr] at h
      obtain ⟨v1, p1, h1⟩ := T.borderStep_shape coord TILE_SIZE err heightfield st borderIndex
        heightfield2 st2 hr
      obtain ⟨v2, p2, h2⟩ := ih heightfield2 st2 heightfield1 st1 h
      exact ⟨v1 ++ v2, p1 ++ p2,
        T.bordersDone_append coord err [borderIndex] rest st st2 st1 v1 v2 p1 p2 h1 h2⟩

/-- What a returning `prepareSettingsOfTile` call did: the threshold on the
heightfield of the tile, the border iterations `visits` when `zoom > 6`, then
`generateMesh` and `clear`; the cache received the buffers `pushed`. -/
theorem MeshTiler.prepareSettingsOfTile_shape [Add α] [Sub α] [Mul α] [Div α] [IntCast α]
    [NatCast α] (T : MeshTiler α κ β η) (st : TilerState κ α)
    (terrainTile : MeshTile α) (coord : TileCoordinate) (rasterHeights : RasterHeightsBuff β)
    (tileSizeX tileSizeY : Nat) (tile : MeshTile α) (st1 : TilerState κ α)
    (h : T.prepareSettingsOfTile st terrainTile coord rasterHeights tileSizeX tileSizeY =
      Except.ok (tile, st1)) :
    ∃ (visits : List (Nat × Bool)) (pushed : List (RasterHeightsBuff β)) (st0 : TilerState κ α),
      T.BordersDone coord (T.maximumGeometricError coord tileSizeX)
        (if 6 < coord.zoom then [0, 1, 2, 3] else [])
        (st.log (Event.applyGeometricError coord (T.maximumGeometricError coord tileSizeX)
          (decide (coord.zoom ≤ 6)))) st0 visits pushed ∧
      st1 = (st0.log (Event.generateMesh coord)).log (Event.heightfieldClear coord) := by
  have hprop : ∀ r : Outcome κ α η,
      (match r with
        | Except.error e => (Except.error e : Outcome κ α (MeshTile α))
        | Except.ok (heightfield, st1) =>
          match WrapperMesh.emitAll (T.view heightfield)
              (WrapperMesh.construct (T.tileBounds coord) terrainTile.mesh tileSizeX
                tileSizeY).clear (T.generateMesh heightfield) with
          | none => Except.error (Failure.slotOverrun, st1.log (Event.generateMesh coord))
          | some mesh1 =>
            Except.ok (T.setChildFlags { terrainTile with mesh := mesh1.mMesh } coord,
              (st1.log (Event.generateMesh coord)).log (Event.heightfieldClear coord)))
        = Except.ok (tile, st1) →
      ∃ heightfield st0, r = Except.ok (heightfield, st0) ∧
        st1 = (st0.log (Event.generateMesh coord)).log (Event.heightfieldClear coord) := by
    intro r hr
    cases r with
    | error e => exact Except.noConfusion hr
    | ok r =>
      obtain ⟨heightfield, st2⟩ := r
      cases hemit : WrapperMesh.emitAll (T.view heightfield)
          (WrapperMesh.construct (T.tileBounds coord) terrainTile.mesh tileSizeX
            tileSizeY).clear (T.generateMesh heightfield) with
      | none =>
        simp only [hemit] at hr
        exact Except.noConfusion hr
      | some mesh1 =>
        simp only [hemit] at hr
        exact ⟨heightfield, st2, rfl, (Prod.mk.inj (Except.ok.inj hr)).2.symm⟩
  unfold MeshTiler.prepareSettingsOfTile at h
  obtain ⟨heightfield, st0, hr, hst⟩ := hprop _ h
  by_cases hz : 6 < coord.zoom
  · simp only [gt_iff_lt, hz, if_true] at hr
    obtain ⟨visits, pushed, hdone⟩ := T.borderLoop_shape coord tileSizeX _ [0, 1, 2, 3] _ _ _ _ hr
    refine ⟨visits, pushed, st0, ?_, hst⟩
    simpa only [hz, if_true] using hdone
  · simp only [gt_iff_lt, hz, if_false] at hr
    have hst0 := (Prod.mk.inj (Except.ok.inj hr)).2
    refine ⟨[], [], st0, ?_, hst⟩
    rw [← hst0]
    simpa only [hz, if_false] using T.bordersDone_nil coord _ _

/-- What a returning `createMesh` call did, in program order: the lookup of
the tile, its read on a miss, the threshold, the border iterations `visits`,
`generateMesh`, `clear`, and the push of the tile buffer on a miss; the cache
received the buffers `pushed`, each one read in this call. -/
theorem MeshTiler.createMesh_shape [Add α] [Sub α] [Mul α] [Div α] [IntCast α]
    [NatCast α] (T : MeshTiler α κ β η) (cache : κ) (coord : TileCoordinate)
    (tile : MeshTile α) (st : TilerState κ α)
    (hret : T.createMesh cache coord = Except.ok (tile, st)) :
    ∃ (visits : List (Nat × Bool)) (pushed : List (RasterHeightsBuff β)),
      visits.map Prod.fst =
        T.overlappingBorders coord (if 6 < coord.zoom then [0, 1, 2, 3] else []) ∧
      (∀ v ∈ visits, v.2 = true → v.1 % 2 = 1) ∧
      st.trace = [Event.cacheGet coord (T.cacheGet cache coord).isSome] ++
        (if (T.cacheGet cache coord).isSome then [] else [Event.rasterRead coord true]) ++
        [Event.applyGeometricError coord (T.maximumGeometricError coord T.tileSize)
          (decide (coord.zoom ≤ 6))] ++
        T.visitEvents coord (T.maximumGeometricError coord T.tileSize) visits ++
        [Event.generateMesh coord, Event.heightfieldClear coord] ++
        (if (T.cacheGet cache coord).isSome then [] else [Event.cachePush coord]) ∧
      st.cache = pushed.foldl T.cachePush cache ∧
      pushed.map (fun b => b.coord) = pushes st.trace ∧
      (∀ b ∈ pushed, T.readRasterHeights b.coord T.tileSize T.tileSize = some b.mHeights) := by
  have hpush : ∀ (r : Outcome κ α (MeshTile α)) (b : Bool) (rh : RasterHeightsBuff β),
      (match r with
        | Except.error e => (Except.error e : Outcome κ α (MeshTile α))
        | Except.ok (terrainTile1, st3) =>
          if b = true then
            Except.ok (terrainTile1,
              { cache := T.cachePush st3.cache rh
                trace := st3.trace ++ [Event.cachePush coord] })
          else Except.ok (terrainTile1, st3)) = Except.ok (tile, st) →
      ∃ st3, r = Except.ok (tile, st3) ∧
        st = (if b = true then
          { cache := T.cachePush st3.cache rh, trace := st3.trace ++ [Event.cachePush coord] }
          else st3) := by
    intro r b rh hr
    cases r with
    | error e => exact Except.noConfusion hr
    | ok r =>
      obtain ⟨tile1, st3⟩ := r
      cases b
      · simp only [Bool.false_eq_true, if_false] at hr ⊢
        have := Prod.mk.inj (Except.ok.inj hr)
        exact ⟨st3, by rw [this.1], this.2.symm⟩
      · simp only [if_true] at hr ⊢
        have := Prod.mk.inj (Except.ok.inj hr)
        exact ⟨st3, by rw [this.1], this.2.symm⟩
  unfold MeshTiler.createMesh at hret
  cases hget : T.cacheGet cache coord with
  | some rasterHeights =>
    simp only [hget, Option.isSome_some, Option.isNone_some] at hret
    obtain ⟨st3, h3, hst⟩ := hpush _ false rasterHeights hret
    obtain ⟨visits, pushed, st0, ⟨a1, a2, a3, a4, a5, a6⟩, hst3⟩ :=
      T.prepareSettingsOfTile_shape _ _ coord _ _ _ tile st3 h3
    simp only [Bool.false_eq_true, if_false] at hst
    subst hst
    subst hst3
    refine ⟨visits, pushed, a1, a2, ?_, ?_, ?_, a6⟩
    · simp [TilerState.log, a3]
    · simpa [TilerState.log] using a4
    · simp [TilerState.log, a3, a5, pushes_append]
      simp [pushes]
  | none =>
    cases hread : T.readRasterHeights coord T.tileSize T.tileSize with
    | none =>
      simp only [hget, hread] at hret
      exact Except.noConfusion hret
    | some heights =>
      simp only [hget, hread, Option.isSome_none, Option.isNone_none] at hret
      obtain ⟨st3, h3, hst⟩ := hpush _ true ⟨coord, heights⟩ hret
      obtain ⟨visits, pushed, st0, ⟨a1, a2, a3, a4, a5, a6⟩, hst3⟩ :=
        T.prepareSettingsOfTile_shape _ _ coord _ _ _ tile st3 h3
      simp only [if_true] at hst
      subst hst
      subst hst3
      refine ⟨visits, pushed ++ [⟨coord, heights⟩], a1, a2, ?_, ?_, ?_, ?_⟩
      · simp [TilerState.log, a3]
      · simp [TilerState.log, a4, List.foldl_append]
      · simp [TilerState.log, a3, a5, pushes_append]
        simp [pushes]
      · intro b hb
        rcases List.mem_append.1 hb with hb | hb
        · exact a6 b hb
        · simp at hb
          rw [hb]
          exact hread

theorem propagations_append (l1 l2 : List (Event α)) :
    propagations (l1 ++ l2) = propagations l1 ++ propagations l2 := by
  simp [propagations, List.filterMap_append]

theorem thresholds_append (l1 l2 : List (Event α)) :
    thresholds (l1 ++ l2) = thresholds l1 ++ thresholds l2 := by
  simp [thresholds, List.filterMap_append]

theorem MeshTiler.propagations_visitEvents (T : MeshTiler α κ β η) (coord : TileCoordinate)
    (err : α) (visits : List (Nat × Bool)) :
    propagations (T.visitEvents coord err visits) =
      visits.map (fun v => (coord, T.neighborCoord coord v.1, v.1)) := by
  induction visits with
  | nil => rfl
  | cons v rest ih =>
    have hcons : T.visitEvents coord err (v :: rest) =
        borderEvents coord (T.neighborCoord coord v.1) v.1 err v.2 ++
          T.visitEvents coord err rest := by
      simp [MeshTiler.visitEvents]
    rw [hcons, propagations_append, ih]
    have hseg : propagations (borderEvents coord (T.neighborCoord coord v.1) v.1 err v.2) =
        [(coord, T.neighborCoord coord v.1, v.1)] := by
      simp only [borderEvents, propagations]
      split_ifs <;> simp
    rw [hseg]
    rfl

theorem MeshTiler.thresholds_visitEvents (T : MeshTiler α κ β η) (coord : TileCoordinate)
    (err : α) (visits : List (Nat × Bool)) :
    thresholds (T.visitEvents coord err visits) = [] := by
  induction visits with
  | nil => rfl
  | cons v rest ih =>
    have hcons : T.visitEvents coord err (v :: rest) =
        borderEvents coord (T.neighborCoord coord v.1) v.1 err v.2 ++
          T.visitEvents coord err rest := by
      simp [MeshTiler.visitEvents]
    rw [hcons, thresholds_append, ih]
    simp only [borderEvents, thresholds]
    split_ifs <;> simp

theorem MeshTiler.borderStep_error_propagations (T : MeshTiler α κ β η)
    (coord : TileCoordinate) (TILE_SIZE : Nat) (err : α) (heightfield : η)
    (st : TilerState κ α) (borderIndex : Nat) (f : Failure) (st1 : TilerState κ α)
    (h : T.borderStep coord TILE_SIZE err heightfield st borderIndex = Except.error (f, st1)) :
    propagations st1.trace = propagations st.trace := by
  unfold MeshTiler.borderStep at h
  by_cases hov : T.overlaps T.bounds (T.tileBounds (T.neighborCoord coord borderIndex)) = true
  · simp only [hov, if_true] at h
    cases hread : T.readRasterHeights (T.neighborCoord coord borderIndex) T.tileSize T.tileSize <;>
      cases hY : (borderIndex % 2 != 0) <;>
      cases hget : T.cacheGet st.cache (T.neighborCoord coord borderIndex) <;>
      simp only [hread, hY, hget, Bool.false_eq_true, if_false, if_true, Option.isNone_none,
        Option.isNone_some, Option.isSome_none, Option.isSome_some, TilerState.log] at h <;>
      first
        | exact Except.noConfusion h
        | (have hst := (Prod.mk.inj (Except.error.inj h)).2
           subst hst
           simp [propagations, List.filterMap_append])
  · simp only [hov, Bool.false_eq_true, if_false] at h
    exact Except.noConfusion h

theorem MeshTiler.borderLoop_propagations (T : MeshTiler α κ β η) (coord : TileCoordinate)
    (TILE_SIZE : Nat) (err : α) (borders : List Nat) :
    ∀ (heightfield : η) (st : TilerState κ α),
      ∃ done, done <+: T.overlappingBorders coord borders ∧
        propagations (T.borderLoop coord TILE_SIZE err borders heightfield st).state.trace =
          propagations st.trace ++ done.map (fun i => (coord, T.neighborCoord coord i, i)) := by
  induction borders with
  | nil =>
    intro heightfield st
    exact ⟨[], List.nil_prefix, by simp [MeshTiler.borderLoop, Outcome.state]⟩
  | cons borderIndex rest ih =>
    intro heightfield st
    have hsplit : T.overlappingBorders coord (borderIndex :: rest) =
        T.overlappingBorders coord [borderIndex] ++ T.overlappingBorders coord rest := by
      simp only [MeshTiler.overlappingBorders]
      rw [← List.filter_append]
      rfl
    unfold MeshTiler.borderLoop
    cases hr : T.borderStep coord TILE_SIZE err heightfield st borderIndex with
    | error e =>
      obtain ⟨f, st1⟩ := e
      refine ⟨[], List.nil_prefix, ?_⟩
      simp only [Outcome.state, List.map_nil, List.append_nil]
      exact T.borderStep_error_propagations coord TILE_SIZE err heightfield st borderIndex f st1 hr
    | ok r =>
      obtain ⟨heightfield1, st1⟩ := r
      obtain ⟨visits, pushed, a1, _, a3, _⟩ :=
        T.borderStep_shape coord TILE_SIZE err heightfield st borderIndex heightfield1 st1 hr
      obtain ⟨done, hpre, hdone⟩ := ih heightfield1 st1
      refine ⟨T.overlappingBorders coord [borderIndex] ++ done, ?_, ?_⟩
      · rw [hsplit]
        exact (List.prefix_append_right_inj _).2 hpre
      · simp only at hdone ⊢
        rw [hdone, a3, propagations_append, T.propagations_visitEvents, List.map_append,
          List.append_assoc, ← a1, List.map_map]
        rfl

theorem MeshTiler.prepareSettingsOfTile_propagations [Add α] [Sub α] [Mul α] [Div α]
    [IntCast α] [NatCast α] (T : MeshTiler α κ β η) (st : TilerState κ α)
    (terrainTile : MeshTile α) (coord : TileCoordinate) (rasterHeights : RasterHeightsBuff β)
    (tileSizeX tileSizeY : Nat) :
    ∃ done, done <+: T.overlappingBorders coord (if 6 < coord.zoom then [0, 1, 2, 3] else []) ∧
      propagations (T.prepareSettingsOfTile st terrainTile coord rasterHeights tileSizeX
          tileSizeY).state.trace =
        propagations st.trace ++ done.map (fun i => (coord, T.neighborCoord coord i, i)) := by
  have hprop : ∀ (r : Outcome κ α η) (q : List (TileCoordinate × TileCoordinate × Nat)),
      propagations r.state.trace = q →
      propagations (Outcome.state (match r with
        | Except.error e => (Except.error e : Outcome κ α (MeshTile α))
        | Except.ok (heightfield, st1) =>
          match WrapperMesh.emitAll (T.view heightfield)
              (WrapperMesh.construct (T.tileBounds coord) terrainTile.mesh tileSizeX
                tileSizeY).clear (T.generateMesh heightfield) with
          | none => Except.error (Failure.slotOverrun, st1.log (Event.generateMesh coord))
          | some mesh1 =>
            Except.ok (T.setChildFlags { terrainTile with mesh := mesh1.mMesh } coord,
              (st1.log (Event.generateMesh coord)).log
                (Event.heightfieldClear coord)))).trace = q := by
    intro r q hq
    cases r with
    | error e => exact hq
    | ok r =>
      obtain ⟨heightfield, st2⟩ := r
      cases hemit : WrapperMesh.emitAll (T.view heightfield)
          (WrapperMesh.construct (T.tileBounds coord) terrainTile.mesh tileSizeX
            tileSizeY).clear (T.generateMesh heightfield) with
      | none =>
        simp only [hemit, Outcome.state, TilerState.log] at hq ⊢
        rw [propagations_append, hq]
        simp [propagations]
      | some mesh1 =>
        simp only [hemit, Outcome.state, TilerState.log] at hq ⊢
        rw [propagations_append, propagations_append, hq]
        simp [propagations]
  unfold MeshTiler.prepareSettingsOfTile
  by_cases hz : 6 < coord.zoom
  · obtain ⟨done, hpre, hdone⟩ := T.borderLoop_propagations coord tileSizeX
      (T.maximumGeometricError coord tileSizeX) [0, 1, 2, 3]
      (T.applyGeometricError (T.heightfieldNew rasterHeights.mHeights tileSizeX)
        (T.maximumGeometricError coord tileSizeX) (decide (coord.zoom ≤ 6)))
      (st.log (Event.applyGeometricError coord (T.maximumGeometricError coord tileSizeX)
        (decide (coord.zoom ≤ 6))))
    refine ⟨done, by simpa only [hz, if_true] using hpre, ?_⟩
    apply hprop
    simp only [gt_iff_lt, hz, if_true]
    rw [hdone]
    simp [TilerState.log, propagations, List.filterMap_append]
  · refine ⟨[], List.nil_prefix, ?_⟩
    apply hprop
    simp only [gt_iff_lt, hz, if_false]
    simp [Outcome.state, TilerState.log, propagations, List.filterMap_append]

theorem MeshTiler.createMesh_propagations [Add α] [Sub α] [Mul α] [Div α]
    [IntCast α] [NatCast α] (T : MeshTiler α κ β η) (cache : κ) (coord : TileCoordinate) :
    ∃ done, done <+: T.overlappingBorders coord (if 6 < coord.zoom then [0, 1, 2, 3] else []) ∧
      propagations (T.createMesh cache coord).state.trace =
        done.map (fun i => (coord, T.neighborCoord coord i, i)) := by
  have hkeep : ∀ (r : Outcome κ α (MeshTile α))
      (q : List (TileCoordinate × TileCoordinate × Nat)),
      propagations r.state.trace = q →
      propagations (Outcome.state (match r with
        | Except.error e => (Except.error e : Outcome κ α (MeshTile α))
        | Except.ok (terrainTile1, st3) => Except.ok (terrainTile1, st3))).trace = q := by
    intro r q h
    cases r with
    | error e => exact h
    | ok r => exact h
  have hpush : ∀ (r : Outcome κ α (MeshTile α)) (rh : RasterHeightsBuff β)
      (q : List (TileCoordinate × TileCoordinate × Nat)),
      propagations r.state.trace = q →
      propagations (Outcome.state (match r with
        | Except.error e => (Except.error e : Outcome κ α (MeshTile α))
        | Except.ok (terrainTile1, st3) =>
          Except.ok (terrainTile1,
            { cache := T.cachePush st3.cache rh
              trace := st3.trace ++ [Event.cachePush coord] }))).trace = q := by
    intro r rh q h
    cases r with
    | error e => exact h
    | ok r =>
      obtain ⟨tile1, st3⟩ := r
      simp only [Outcome.state] at h ⊢
      rw [propagations_append, h]
      simp [propagations]
  unfold MeshTiler.createMesh
  cases hget : T.cacheGet cache coord with
  | some rasterHeights =>
    obtain ⟨done, hpre, hdone⟩ := T.prepareSettingsOfTile_propagations
      { cache := cache, trace := [Event.cacheGet coord true] } (MeshTile.new coord) coord
      rasterHeights T.tileSize T.tileSize
    refine ⟨done, hpre, ?_⟩
    simp only [Option.isSome_some, Option.isNone_some, Bool.false_eq_true, if_false]
    apply hkeep
    rw [hdone]
    simp [propagations]
  | none =>
    cases hread : T.readRasterHeights coord T.tileSize T.tileSize with
    | none =>
      refine ⟨[], List.nil_prefix, ?_⟩
      simp [Outcome.state, TilerState.log, propagations]
    | some heights =>
      obtain ⟨done, hpre, hdone⟩ := T.prepareSettingsOfTile_propagations
        ((({ cache := cache, trace := [Event.cacheGet coord false] } : TilerState κ α)).log
          (Event.rasterRead coord true)) (MeshTile.new coord) coord
        ⟨coord, heights⟩ T.tileSize T.tileSize
      refine ⟨done, hpre, ?_⟩
      simp only [Option.isSome_none, Option.isNone_none, if_true]
      apply hpush
      rw [hdone]
      simp [propagations, TilerState.log]

theorem MeshTiler.prepareSettingsOfTile_low_zoom [Add α] [Sub α] [Mul α] [Div α]
    [IntCast α] [NatCast α] (T : MeshTiler α κ β η) (st : TilerState κ α)
    (terrainTile : MeshTile α) (coord : TileCoordinate) (rasterHeights : RasterHeightsBuff β)
    (tileSizeX tileSizeY : Nat) (hz : coord.zoom ≤ 6) :
    (∃ f, T.prepareSettingsOfTile st terrainTile coord rasterHeights tileSizeX tileSizeY =
      Except.error (f, { cache := st.cache, trace := st.trace ++
        [Event.applyGeometricError coord (T.maximumGeometricError coord tileSizeX) true,
          Event.generateMesh coord] })) ∨
    (∃ tile, T.prepareSettingsOfTile st terrainTile coord rasterHeights tileSizeX tileSizeY =
      Except.ok (tile, { cache := st.cache, trace := st.trace ++
        [Event.applyGeometricError coord (T.maximumGeometricError coord tileSizeX) true,
          Event.generateMesh coord, Event.heightfieldClear coord] })) := by
  have hz6 : ¬ 6 < coord.zoom := by omega
  unfold MeshTiler.prepareSettingsOfTile
  simp only [gt_iff_lt, hz6, if_false, hz, decide_True]
  cases hemit : WrapperMesh.emitAll
      (T.view (T.applyGeometricError (T.heightfieldNew rasterHeights.mHeights tileSizeX)
        (T.maximumGeometricError coord tileSizeX) true))
      (WrapperMesh.construct (T.tileBounds coord) terrainTile.mesh tileSizeX tileSizeY).clear
      (T.generateMesh (T.applyGeometricError (T.heightfieldNew rasterHeights.mHeights tileSizeX)
        (T.maximumGeometricError coord tileSizeX) true)) with
  | none =>
    left
    exact ⟨Failure.slotOverrun, by simp [TilerState.log]⟩
  | some mesh1 =>
    right
    exact ⟨T.setChildFlags { terrainTile with mesh := mesh1.mMesh } coord,
      by simp [TilerState.log]⟩

theorem MeshTiler.createMesh_low_zoom [Add α] [Sub α] [Mul α] [Div α]
    [IntCast α] [NatCast α] (T : MeshTiler α κ β η) (cache : κ) (coord : TileCoordinate)
    (hz : coord.zoom ≤ 6) :
    ∃ ok0 : Bool, (T.createMesh cache coord).state.trace <+:
      [Event.cacheGet coord (T.cacheGet cache coord).isSome] ++
        (if (T.cacheGet cache coord).isSome then [] else [Event.rasterRead coord ok0]) ++
        [Event.applyGeometricError coord (T.maximumGeometricError coord T.tileSize) true,
          Event.generateMesh coord, Event.heightfieldClear coord] ++
        (if (T.cacheGet cache coord).isSome then [] else [Event.cachePush coord]) := by
  unfold MeshTiler.createMesh
  cases hget : T.cacheGet cache coord with
  | some rasterHeights =>
    refine ⟨true, ?_⟩
    simp only [Option.isSome_some, Option.isNone_some, Bool.false_eq_true, if_false, if_true]
    rcases T.prepareSettingsOfTile_low_zoom { cache := cache, trace := [Event.cacheGet coord true] }
      (MeshTile.new coord) coord rasterHeights T.tileSize T.tileSize hz with ⟨f, hr⟩ | ⟨tile, hr⟩
    · rw [hr]
      exact ⟨[Event.heightfieldClear coord], by simp [Outcome.state]⟩
    · rw [hr]
      exact ⟨[], by simp [Outcome.state]⟩
  | none =>
    cases hread : T.readRasterHeights coord T.tileSize T.tileSize with
    | none =>
      refine ⟨false, ?_⟩
      simp only [Option.isSome_none, Bool.false_eq_true, if_false, Outcome.state, TilerState.log]
      exact ⟨_, rfl⟩
    | some heights =>
      refine ⟨true, ?_⟩
      simp only [Option.isSome_none, Option.isNone_none, Bool.false_eq_true, if_false, if_true]
      rcases T.prepareSettingsOfTile_low_zoom
        ((({ cache := cache, trace := [Event.cacheGet coord false] } : TilerState κ α)).log
          (Event.rasterRead coord true))
        (MeshTile.new coord) coord ⟨coord, heights⟩ T.tileSize T.tileSize hz with
        ⟨f, hr⟩ | ⟨tile, hr⟩
      · rw [hr]
        exact ⟨[Event.heightfieldClear coord, Event.cachePush coord],
          by simp [Outcome.state, TilerState.log]⟩
      · rw [hr]
        exact ⟨[], by simp [Outcome.state, TilerState.log]⟩

end TraceShapeProofs

/-! ## The heightfield after the border loop -/

section HeightfieldProofs

variable {α κ β η : Type}

theorem MeshTiler.propagateBorders_append (T : MeshTiler α κ β η) (TILE_SIZE : Nat) (err : α)
    (heightfield : η) (s1 s2 : List (Nat × Bool × RasterHeightsBuff β)) :
    T.propagateBorders TILE_SIZE err heightfield (s1 ++ s2) =
      T.propagateBorders TILE_SIZE err (T.propagateBorders TILE_SIZE err heightfield s1) s2 := by
  simp [MeshTiler.propagateBorders, List.foldl_append]

theorem MeshTiler.cacheAfter_append (T : MeshTiler α κ β η) (cache : κ)
    (s1 s2 : List (Nat × Bool × RasterHeightsBuff β)) :
    T.cacheAfter cache (s1 ++ s2) = T.cacheAfter (T.cacheAfter cache s1) s2 := by
  simp [MeshTiler.cacheAfter, List.foldl_append]

theorem MeshTiler.buffersObtained_append (T : MeshTiler α κ β η) (coord : TileCoordinate)
    (s1 s2 : List (Nat × Bool × RasterHeightsBuff β)) :
    ∀ cache : κ, T.BuffersObtained coord cache s1 →
      T.BuffersObtained coord (T.cacheAfter cache s1) s2 →
      T.BuffersObtained coord cache (s1 ++ s2) := by
  induction s1 with
  | nil =>
    intro cache _ h2
    exact h2
  | cons s rest ih =>
    intro cache h1 h2
    obtain ⟨a, b, c⟩ := h1
    refine ⟨a, b, ?_⟩
    apply ih _ c
    have hsplit : T.cacheAfter cache (s :: rest) =
        T.cacheAfter (T.cacheAfter cache [s]) rest :=
      T.cacheAfter_append cache [s] rest
    rw [← hsplit]
    exact h2

theorem MeshTiler.borderStep_heightfield (T : MeshTiler α κ β η) (coord : TileCoordinate)
    (TILE_SIZE : Nat) (err : α) (heightfield : η) (st : TilerState κ α) (borderIndex : Nat)
    (heightfield1 : η) (st1 : TilerState κ α)
    (h : T.borderStep coord TILE_SIZE err heightfield st borderIndex =
      Except.ok (heightfield1, st1)) :
    ∃ steps : List (Nat × Bool × RasterHeightsBuff β),
      steps.map Prod.fst = T.overlappingBorders coord [borderIndex] ∧
      T.BuffersObtained coord st.cache steps ∧
      st1.cache = T.cacheAfter st.cache steps ∧
      heightfield1 = T.propagateBorders TILE_SIZE err heightfield steps := by
  unfold MeshTiler.borderStep at h
  by_cases hov : T.overlaps T.bounds (T.tileBounds (T.neighborCoord coord borderIndex)) = true
  · simp only [hov, if_true] at h
    cases hY : (borderIndex % 2 != 0) with
    | false =>
      cases hread : T.readRasterHeights (T.neighborCoord coord borderIndex) T.tileSize
          T.tileSize with
      | none =>
        simp only [hY, hread, Bool.false_eq_true, if_false] at h
        exact Except.noConfusion h
      | some nheights =>
        simp only [hY, hread, Bool.false_eq_true, if_false, if_true, Option.isNone_none,
          TilerState.log] at h
        have hhf := (Prod.mk.inj (Except.ok.inj h)).1
        have hst := (Prod.mk.inj (Except.ok.inj h)).2
        subst hst
        subst hhf
        refine ⟨[(borderIndex, false, ⟨T.neighborCoord coord borderIndex, nheights⟩)],
          ?_, ?_, ?_, ?_⟩
        · simp [MeshTiler.overlappingBorders, hov]
        · refine ⟨?_, ?_, trivial⟩
          · simp only [hY, Bool.false_eq_true, if_false]
          · intro _
            exact ⟨rfl, hread⟩
        · simp only [MeshTiler.cacheAfter, List.foldl_cons, List.foldl_nil, hY,
            Bool.false_and, Bool.false_eq_true, if_false]
        · rfl
    | true =>
      cases hget : T.cacheGet st.cache (T.neighborCoord coord borderIndex) with
      | some nb =>
        simp only [hY, hget, if_true, Option.isNone_some, Option.isSome_some,
          Bool.false_eq_true, if_false, TilerState.log] at h
        have hhf := (Prod.mk.inj (Except.ok.inj h)).1
        have hst := (Prod.mk.inj (Except.ok.inj h)).2
        subst hst
        subst hhf
        refine ⟨[(borderIndex, true, nb)], ?_, ?_, ?_, ?_⟩
        · simp [MeshTiler.overlappingBorders, hov]
        · refine ⟨?_, ?_, trivial⟩
          · simp only [hY, if_true]
            exact hget
          · intro hf
            exact Bool.noConfusion hf
        · simp only [MeshTiler.cacheAfter, List.foldl_cons, List.foldl_nil, hY,
            Bool.not_true, Bool.and_false, Bool.false_eq_true, if_false]
        · rfl
      | none =>
        cases hread : T.readRasterHeights (T.neighborCoord coord borderIndex) T.tileSize
            T.tileSize with
        | none =>
          simp only [hY, hget, hread, if_true] at h
          exact Except.noConfusion h
        | some nheights =>
          simp only [hY, hget, hread, if_true, Option.isNone_none, Option.isSome_none,
            TilerState.log] at h
          have hhf := (Prod.mk.inj (Except.ok.inj h)).1
          have hst := (Prod.mk.inj (Except.ok.inj h)).2
          subst hst
          subst hhf
          refine ⟨[(borderIndex, false, ⟨T.neighborCoord coord borderIndex, nheights⟩)],
            ?_, ?_, ?_, ?_⟩
          · simp [MeshTiler.overlappingBorders, hov]
          · refine ⟨?_, ?_, trivial⟩
            · simp only [hY, if_true, Bool.false_eq_true, if_false]
              exact hget
            · intro _
              exact ⟨rfl, hread⟩
          · simp only [MeshTiler.cacheAfter, List.foldl_cons, List.foldl_nil, hY,
              Bool.not_false, Bool.and_self, if_true]
          · rfl
  · simp only [hov, Bool.false_eq_true, if_false] at h
    have hhf := (Prod.mk.inj (Except.ok.inj h)).1
    have hst := (Prod.mk.inj (Except.ok.inj h)).2
    subst hst
    subst hhf
    refine ⟨[], ?_, trivial, rfl, rfl⟩
    simp [MeshTiler.overlappingBorders, hov]

theorem MeshTiler.borderLoop_heightfield (T : MeshTiler α κ β η) (coord : TileCoordinate)
    (TILE_SIZE : Nat) (err : α) (borders : List Nat) :
    ∀ (heightfield : η) (st : TilerState κ α) (heightfield1 : η) (st1 : TilerState κ α),
      T.borderLoop coord TILE_SIZE err borders heightfield st = Except.ok (heightfield1, st1) →
      ∃ steps : List (Nat × Bool × RasterHeightsBuff β),
        steps.map Prod.fst = T.overlappingBorders coord borders ∧
        T.BuffersObtained coord st.cache steps ∧
        st1.cache = T.cacheAfter st.cache steps ∧
        heightfield1 = T.propagateBorders TILE_SIZE err heightfield steps := by
  induction borders with
  | nil =>
    intro heightfield st heightfield1 st1 h
    unfold MeshTiler.borderLoop at h
    have hhf := (Prod.mk.inj (Except.ok.inj h)).1
    have hst := (Prod.mk.inj (Except.ok.inj h)).2
    subst hst
    subst hhf
    exact ⟨[], rfl, trivial, rfl, rfl⟩
  | cons borderIndex rest ih =>
    intro heightfield st heightfield1 st1 h
    unfold MeshTiler.borderLoop at h
    cases hr : T.borderStep coord TILE_SIZE err heightfield st borderIndex with
    | error e =>
      simp only [hr] at h
      exact Except.noConfusion h
    | ok r =>
      obtain ⟨heightfield2, st2⟩ := r
      simp only [hr] at h
      obtain ⟨s1, a1, a2, a3, a4⟩ := T.borderStep_heightfield coord TILE_SIZE err heightfield
        st borderIndex heightfield2 st2 hr
      obtain ⟨s2, b1, b2, b3, b4⟩ := ih heightfield2 st2 heightfield1 st1 h
      refine ⟨s1 ++ s2, ?_, ?_, ?_, ?_⟩
      · simp only [MeshTiler.overlappingBorders] at a1 b1 ⊢
        rw [List.map_append, a1, b1, ← List.filter_append]
        rfl
      · apply T.buffersObtained_append coord s1 s2 st.cache a2
        rw [← a3]
        exact b2
      · rw [b3, a3, T.cacheAfter_append]
      · rw [b4, a4, T.propagateBorders_append]

theorem MeshTiler.setChildFlags_mesh (T : MeshTiler α κ β η) (t : MeshTile α)
    (coord : TileCoordinate) : (T.setChildFlags t coord).mesh = t.mesh := by
  unfold MeshTiler.setChildFlags
  simp only [MeshTile.setAllChildren]
  split_ifs <;> rfl

/-- The mesh of the tile a returning `prepareSettingsOfTile` call hands back
is assembled from the strip that `generateMesh` emits for the heightfield
built over the buffer of the tile, thresholded with the flag `zoom <= 6`, and
then, when `zoom > 6`, changed by the border propagation of each overlapping
border in turn. -/
theorem MeshTiler.prepareSettingsOfTile_heightfield [Add α] [Sub α] [Mul α] [Div α]
    [IntCast α] [NatCast α] (T : MeshTiler α κ β η) (st : TilerState κ α)
    (terrainTile : MeshTile α) (coord : TileCoordinate) (rasterHeights : RasterHeightsBuff β)
    (tileSizeX tileSizeY : Nat) (tile : MeshTile α) (st1 : TilerState κ α)
    (h : T.prepareSettingsOfTile st terrainTile coord rasterHeights tileSizeX tileSizeY =
      Except.ok (tile, st1)) :
    ∃ (steps : List (Nat × Bool × RasterHeightsBuff β)) (mesh1 : WrapperMesh α),
      steps.map Prod.fst =
        T.overlappingBorders coord (if 6 < coord.zoom then [0, 1, 2, 3] else []) ∧
      T.BuffersObtained coord st.cache steps ∧
      WrapperMesh.emitAll
        (T.view (T.propagateBorders tileSizeX (T.maximumGeometricError coord tileSizeX)
          (T.applyGeometricError (T.heightfieldNew rasterHeights.mHeights tileSizeX)
            (T.maximumGeometricError coord tileSizeX) (decide (coord.zoom ≤ 6))) steps))
        (WrapperMesh.construct (T.tileBounds coord) terrainTile.mesh tileSizeX tileSizeY).clear
        (T.generateMesh (T.propagateBorders tileSizeX (T.maximumGeometricError coord tileSizeX)
          (T.applyGeometricError (T.heightfieldNew rasterHeights.mHeights tileSizeX)
            (T.maximumGeometricError coord tileSizeX) (decide (coord.zoom ≤ 6))) steps)) =
        some mesh1 ∧
      tile = T.setChildFlags { terrainTile with mesh := mesh1.mMesh } coord := by
  have hprop : ∀ r : Outcome κ α η,
      (match r with
        | Except.error e => (Except.error e : Outcome κ α (MeshTile α))
        | Except.ok (heightfield, st1) =>
          match WrapperMesh.emitAll (T.view heightfield)
              (WrapperMesh.construct (T.tileBounds coord) terrainTile.mesh tileSizeX
                tileSizeY).clear (T.generateMesh heightfield) with
          | none => Except.error (Failure.slotOverrun, st1.log (Event.generateMesh coord))
          | some mesh1 =>
            Except.ok (T.setChildFlags { terrainTile with mesh := mesh1.mMesh } coord,
              (st1.log (Event.generateMesh coord)).log (Event.heightfieldClear coord)))
        = Except.ok (tile, st1) →
      ∃ heightfield st0 mesh1, r = Except.ok (heightfield, st0) ∧
        WrapperMesh.emitAll (T.view heightfield)
          (WrapperMesh.construct (T.tileBounds coord) terrainTile.mesh tileSizeX
            tileSizeY).clear (T.generateMesh heightfield) = some mesh1 ∧
        tile = T.setChildFlags { terrainTile with mesh := mesh1.mMesh } coord := by
    intro r hr
    cases r with
    | error e => exact Except.noConfusion hr
    | ok r =>
      obtain ⟨heightfield, st2⟩ := r
      cases hemit : WrapperMesh.emitAll (T.view heightfield)
          (WrapperMesh.construct (T.tileBounds coord) terrainTile.mesh tileSizeX
            tileSizeY).clear (T.generateMesh heightfield) with
      | none =>
        simp only [hemit] at hr
        exact Except.noConfusion hr
      | some mesh1 =>
        simp only [hemit] at hr
        exact ⟨heightfield, st2, mesh1, rfl, hemit, (Prod.mk.inj (Except.ok.inj hr)).1.symm⟩
  unfold MeshTiler.prepareSettingsOfTile at h
  obtain ⟨heightfield, st0, mesh1, hr, hemit, htile⟩ := hprop _ h
  by_cases hz : 6 < coord.zoom
  · simp only [gt_iff_lt, hz, if_true] at hr
    obtain ⟨steps, b1, b2, _, b4⟩ :=
      T.borderLoop_heightfield coord tileSizeX _ [0, 1, 2, 3] _ _ _ _ hr
    refine ⟨steps, mesh1, by simpa only [hz, if_true] using b1, b2, ?_, htile⟩
    rw [← b4]
    exact hemit
  · simp only [gt_iff_lt, hz, if_false] at hr
    have hhf := (Prod.mk.inj (Except.ok.inj hr)).1
    refine ⟨[], mesh1, by simp [hz, MeshTiler.overlappingBorders], trivial, ?_, htile⟩
    rw [← hhf] at hemit
    exact hemit

/-- The mesh of the tile a returning `createMesh` call hands back, through the
heightfield of `prepareSettingsOfTile`, with the buffer of the tile taken from
the cache or, on a miss, from the reader. -/
theorem MeshTiler.createMesh_heightfield [Add α] [Sub α] [Mul α] [Div α]
    [IntCast α] [NatCast α] (T : MeshTiler α κ β η) (cache : κ) (coord : TileCoordinate)
    (tile : MeshTile α) (st : TilerState κ α)
    (hret : T.createMesh cache coord = Except.ok (tile, st)) :
    ∃ (rasterHeights : RasterHeightsBuff β) (steps : List (Nat × Bool × RasterHeightsBuff β))
      (mesh1 : WrapperMesh α),
      (T.cacheGet cache coord = some rasterHeights ∨
        (T.cacheGet cache coord = none ∧ rasterHeights.coord = coord ∧
          T.readRasterHeights coord T.tileSize T.tileSize = some rasterHeights.mHeights)) ∧
      steps.map Prod.fst =
        T.overlappingBorders coord (if 6 < coord.zoom then [0, 1, 2, 3] else []) ∧
      T.BuffersObtained coord cache steps ∧
      WrapperMesh.emitAll
        (T.view (T.propagateBorders T.tileSize (T.maximumGeometricError coord T.tileSize)
          (T.applyGeometricError (T.heightfieldNew rasterHeights.mHeights T.tileSize)
            (T.maximumGeometricError coord T.tileSize) (decide (coord.zoom ≤ 6))) steps))
        (WrapperMesh.construct (T.tileBounds coord) (MeshTile.new coord : MeshTile α).mesh
          T.tileSize T.tileSize).clear
        (T.generateMesh (T.propagateBorders T.tileSize
          (T.maximumGeometricError coord T.tileSize)
          (T.applyGeometricError (T.heightfieldNew rasterHeights.mHeights T.tileSize)
            (T.maximumGeometricError coord T.tileSize) (decide (coord.zoom ≤ 6))) steps)) =
        some mesh1 ∧
      tile.mesh = mesh1.mMesh := by
  have hpush : ∀ (r : Outcome κ α (MeshTile α)) (b : Bool) (rh : RasterHeightsBuff β),
      (match r with
        | Except.error e => (Except.error e : Outcome κ α (MeshTile α))
        | Except.ok (terrainTile1, st3) =>
          if b = true then
            Except.ok (terrainTile1,
              { cache := T.cachePush st3.cache rh
                trace := st3.trace ++ [Event.cachePush coord] })
          else Except.ok (terrainTile1, st3)) = Except.ok (tile, st) →
      ∃ st3, r = Except.ok (tile, st3) := by
    intro r b rh hr
    cases r with
    | error e => exact Except.noConfusion hr
    | ok r =>
      obtain ⟨tile1, st3⟩ := r
      cases b
      · simp only [Bool.false_eq_true, if_false] at hr
        have := Prod.mk.inj (Except.ok.inj hr)
        exact ⟨st3, by rw [this.1]⟩
      · simp only [if_true] at hr
        have := Prod.mk.inj (Except.ok.inj hr)
        exact ⟨st3, by rw [this.1]⟩
  unfold MeshTiler.createMesh at hret
  cases hget : T.cacheGet cache coord with
  | some rasterHeights =>
    simp only [hget, Option.isSome_some, Option.isNone_some] at hret
    obtain ⟨st3, h3⟩ := hpush _ false rasterHeights hret
    obtain ⟨steps, mesh1, c1, c2, c3, c4⟩ :=
      T.prepareSettingsOfTile_heightfield _ _ coord _ _ _ tile st3 h3
    refine ⟨rasterHeights, steps, mesh1, Or.inl rfl, c1, c2, c3, ?_⟩
    rw [c4, T.setChildFlags_mesh]
  | none =>
    cases hread : T.readRasterHeights coord T.tileSize T.tileSize with
    | none =>
      simp only [hget, hread] at hret
      exact Except.noConfusion hret
    | some heights =>
      simp only [hget, hread, Option.isSome_none, Option.isNone_none] at hret
      obtain ⟨st3, h3⟩ := hpush _ true ⟨coord, heights⟩ hret
      obtain ⟨steps, mesh1, c1, c2, c3, c4⟩ :=
        T.prepareSettingsOfTile_heightfield _ _ coord _ _ _ tile st3 h3
      refine ⟨⟨coord, heights⟩, steps, mesh1, Or.inr ⟨rfl, rfl, rfl⟩, c1, c2, c3, ?_⟩
      rw [c4, T.setChildFlags_mesh]

end HeightfieldProofs

/-! ## The two simplification regimes -/

section RegimeProofs

variable {α κ β η : Type}

/-- C16: exactly one of the two regimes applies to a tile. When `zoom <= 6`
every call, returning or not, makes a prefix of the calls on the tile alone
(lookup, read on a miss, threshold with all samples forced, `generateMesh`,
`clear`, push on a miss), so no neighbour is looked up, read or propagated; a
returning call makes all of them, and the mesh of its tile is assembled from
what `generateMesh` emits for the heightfield built over the buffer of the
tile and thresholded by `applyGeometricError` with the flag `true`, nothing
else applied to it. When `zoom > 6` every call propagates border activation
once for each index of a prefix of the border indices `0..3` whose neighbour
bounds overlap the dataset bounds, in increasing order and for no other
index; a returning call applies the threshold once, without forcing, and
propagates every such border, and the mesh of its tile is assembled from what
`generateMesh` emits for the heightfield built over the buffer of the tile,
thresholded by `applyGeometricError` with the flag `false` and then changed
by `applyBorderActivationState`, once for each overlapping border index in
increasing order, with the heightfield built over the buffer of that
neighbour (from the cache or the reader) and thresholded with the same
budget. -/
theorem createMesh_simplification_regime [Add α] [Sub α] [Mul α] [Div α]
    [IntCast α] [NatCast α] (T : MeshTiler α κ β η) (cache : κ) (coord : TileCoordinate) :
    (coord.zoom ≤ 6 →
      (∃ ok0 : Bool, (T.createMesh cache coord).state.trace <+:
        [Event.cacheGet coord (T.cacheGet cache coord).isSome] ++
          (if (T.cacheGet cache coord).isSome then [] else [Event.rasterRead coord ok0]) ++
          [Event.applyGeometricError coord (T.maximumGeometricError coord T.tileSize) true,
            Event.generateMesh coord, Event.heightfieldClear coord] ++
          (if (T.cacheGet cache coord).isSome then [] else [Event.cachePush coord])) ∧
      propagations (T.createMesh cache coord).state.trace = [] ∧
      ∀ tile st, T.createMesh cache coord = Except.ok (tile, st) →
        st.trace = [Event.cacheGet coord (T.cacheGet cache coord).isSome] ++
          (if (T.cacheGet cache coord).isSome then [] else [Event.rasterRead coord true]) ++
          [Event.applyGeometricError coord (T.maximumGeometricError coord T.tileSize) true,
            Event.generateMesh coord, Event.heightfieldClear coord] ++
          (if (T.cacheGet cache coord).isSome then [] else [Event.cachePush coord]) ∧
        ∃ (rasterHeights : RasterHeightsBuff β) (mesh1 : WrapperMesh α),
          (T.cacheGet cache coord = some rasterHeights ∨
            (T.cacheGet cache coord = none ∧ rasterHeights.coord = coord ∧
              T.readRasterHeights coord T.tileSize T.tileSize =
                some rasterHeights.mHeights)) ∧
          WrapperMesh.emitAll
            (T.view (T.applyGeometricError (T.heightfieldNew rasterHeights.mHeights T.tileSize)
              (T.maximumGeometricError coord T.tileSize) true))
            (WrapperMesh.construct (T.tileBounds coord) (MeshTile.new coord : MeshTile α).mesh
              T.tileSize T.tileSize).clear
            (T.generateMesh
              (T.applyGeometricError (T.heightfieldNew rasterHeights.mHeights T.tileSize)
                (T.maximumGeometricError coord T.tileSize) true)) = some mesh1 ∧
          tile.mesh = mesh1.mMesh) ∧
    (6 < coord.zoom →
      (∃ done, done <+: T.overlappingBorders coord [0, 1, 2, 3] ∧
        propagations (T.createMesh cache coord).state.trace =
          done.map (fun i => (coord, T.neighborCoord coord i, i))) ∧
      ∀ tile st, T.createMesh cache coord = Except.ok (tile, st) →
        thresholds st.trace = [(coord, T.maximumGeometricError coord T.tileSize, false)] ∧
        propagations st.trace =
          (T.overlappingBorders coord [0, 1, 2, 3]).map
            (fun i => (coord, T.neighborCoord coord i, i)) ∧
        ∃ (rasterHeights : RasterHeightsBuff β)
          (steps : List (Nat × Bool × RasterHeightsBuff β)) (mesh1 : WrapperMesh α),
          (T.cacheGet cache coord = some rasterHeights ∨
            (T.cacheGet cache coord = none ∧ rasterHeights.coord = coord ∧
              T.readRasterHeights coord T.tileSize T.tileSize =
                some rasterHeights.mHeights)) ∧
          steps.map Prod.fst = T.overlappingBorders coord [0, 1, 2, 3] ∧
          T.BuffersObtained coord cache steps ∧
          WrapperMesh.emitAll
            (T.view (T.propagateBorders T.tileSize (T.maximumGeometricError coord T.tileSize)
              (T.applyGeometricError (T.heightfieldNew rasterHeights.mHeights T.tileSize)
                (T.maximumGeometricError coord T.tileSize) false) steps))
            (WrapperMesh.construct (T.tileBounds coord) (MeshTile.new coord : MeshTile α).mesh
              T.tileSize T.tileSize).clear
            (T.generateMesh
              (T.propagateBorders T.tileSize (T.maximumGeometricError coord T.tileSize)
                (T.applyGeometricError (T.heightfieldNew rasterHeights.mHeights T.tileSize)
                  (T.maximumGeometricError coord T.tileSize) false) steps)) = some mesh1 ∧
          tile.mesh = mesh1.mMesh) := by
  refine ⟨?_, ?_⟩
  · intro hz
    have hz6 : ¬ 6 < coord.zoom := by omega
    refine ⟨T.createMesh_low_zoom cache coord hz, ?_, ?_⟩
    · obtain ⟨done, hpre, hdone⟩ := T.createMesh_propagations cache coord
      simp only [hz6, if_false, MeshTiler.overlappingBorders, List.filter_nil,
        List.prefix_nil] at hpre
      rw [hdone, hpre]
      rfl
    · intro tile st hret
      refine ⟨?_, ?_⟩
      · obtain ⟨visits, pushed, a1, _, a3, _⟩ := T.createMesh_shape cache coord tile st hret
        simp only [hz6, if_false, MeshTiler.overlappingBorders, List.filter_nil,
          List.map_eq_nil_iff] at a1
        rw [a3, a1]
        simp [MeshTiler.visitEvents, hz]
      · obtain ⟨rasterHeights, steps, mesh1, c0, c1, _, c3, c4⟩ :=
          T.createMesh_heightfield cache coord tile st hret
        simp only [hz6, if_false, MeshTiler.overlappingBorders, List.filter_nil,
          List.map_eq_nil_iff] at c1
        rw [c1] at c3
        simp only [MeshTiler.propagateBorders, List.foldl_nil, hz, decide_True] at c3
        exact ⟨rasterHeights, mesh1, c0, c3, c4⟩
  · intro hz
    have hz6 : ¬ coord.zoom ≤ 6 := by omega
    refine ⟨?_, ?_⟩
    · obtain ⟨done, hpre, hdone⟩ := T.createMesh_propagations cache coord
      simp only [hz, if_true] at hpre
      exact ⟨done, hpre, hdone⟩
    · intro tile st hret
      obtain ⟨visits, pushed, a1, _, a3, _⟩ := T.createMesh_shape cache coord tile st hret
      simp only [hz, if_true] at a1
      refine ⟨?_, ?_, ?_⟩
      · rw [a3]
        simp only [thresholds_append, T.thresholds_visitEvents]
        cases (T.cacheGet cache coord).isSome <;> simp [thresholds, hz6]
      · rw [a3]
        simp only [propagations_append, T.propagations_visitEvents]
        rw [← a1, List.map_map]
        cases (T.cacheGet cache coord).isSome <;> simp [propagations]
      · obtain ⟨rasterHeights, steps, mesh1, c0, c1, c2, c3, c4⟩ :=
          T.createMesh_heightfield cache coord tile st hret
        simp only [hz, if_true] at c1
        simp only [hz6, decide_False] at c3
        exact ⟨rasterHeights, steps, mesh1, c0, c1, c2, c3, c4⟩

set_option maxRecDepth 10000 in
set_option exponentiation.threshold 3000 in
/-- Witness for C16: the regional sample tiler on tiles at the south-west
corner of its dataset, of zoom 7, where only the borders 0 and 3 have a
neighbour that overlaps the dataset, and of zoom 3. -/
theorem createMesh_simplification_regime_witness :
    (6 < 7 ∧ ∃ tile st,
      (regionalTiler readerAlwaysOk).createMesh [] ⟨7, 128, 64⟩ = Except.ok (tile, st) ∧
      thresholds st.trace =
          [(⟨7, 128, 64⟩, (regionalTiler readerAlwaysOk).maximumGeometricError ⟨7, 128, 64⟩
            (regionalTiler readerAlwaysOk).tileSize, false)] ∧
      propagations st.trace =
          ((regionalTiler readerAlwaysOk).overlappingBorders ⟨7, 128, 64⟩ [0, 1, 2, 3]).map
            (fun i => (⟨7, 128, 64⟩,
              (regionalTiler readerAlwaysOk).neighborCoord ⟨7, 128, 64⟩ i, i)) ∧
      (∃ (steps : List (Nat × Bool × RasterHeightsBuff Unit)) (mesh1 : WrapperMesh Binary64),
        steps.map Prod.fst = [0, 3] ∧
        (regionalTiler readerAlwaysOk).BuffersObtained ⟨7, 128, 64⟩ [] steps ∧
        tile.mesh = mesh1.mMesh) ∧
      propagations st.trace =
        [(⟨7, 128, 64⟩, ⟨7, 129, 64⟩, 0), (⟨7, 128, 64⟩, ⟨7, 128, 65⟩, 3)]) ∧
    (3 ≤ 6 ∧ ∃ tile st,
      (regionalTiler readerAlwaysOk).createMesh [] ⟨3, 8, 4⟩ = Except.ok (tile, st) ∧
      st.trace = [Event.cacheGet ⟨3, 8, 4⟩ false, Event.rasterRead ⟨3, 8, 4⟩ true,
        Event.applyGeometricError ⟨3, 8, 4⟩
          ((regionalTiler readerAlwaysOk).maximumGeometricError ⟨3, 8, 4⟩
            (regionalTiler readerAlwaysOk).tileSize) true,
        Event.generateMesh ⟨3, 8, 4⟩, Event.heightfieldClear ⟨3, 8, 4⟩,
        Event.cachePush ⟨3, 8, 4⟩]) :=
  ⟨⟨by decide, _, _, rfl,
      (((createMesh_simplification_regime (regionalTiler readerAlwaysOk) [] ⟨7, 128, 64⟩).2
        (by decide)).2 _ _ rfl).1,
      (((createMesh_simplification_regime (regionalTiler readerAlwaysOk) [] ⟨7, 128, 64⟩).2
        (by decide)).2 _ _ rfl).2.1,
      (((createMesh_simplification_regime (regionalTiler readerAlwaysOk) [] ⟨7, 128, 64⟩).2
        (by decide)).2 _ _ rfl).2.2.elim
        (fun _ h1 => h1.elim (fun steps h2 => h2.elim (fun mesh1 h3 =>
          ⟨steps, mesh1, h3.2.1.trans (by decide), h3.2.2.1, h3.2.2.2.2⟩))),
      rfl⟩,
    ⟨by decide, _, _, rfl,
      (((createMesh_simplification_regime (regionalTiler readerAlwaysOk) [] ⟨3, 8, 4⟩).1
        (by decide)).2.2 _ _ rfl).1⟩⟩

end RegimeProofs

/-! ## Cache traffic of `createMesh` -/

section CacheProofs

variable {α κ β η : Type}

theorem borderEvents_projections (coord n : TileCoordinate) (i : Nat) (err : α) (hit : Bool)
    (h : hit = true → i % 2 = 1) :
    lookups (borderEvents coord n i err hit) = (if i % 2 = 1 then [(n, hit)] else []) ∧
    reads (borderEvents coord n i err hit) = (if hit = false then [(n, true)] else []) ∧
    pushes (borderEvents coord n i err hit) =
      (if i % 2 = 1 ∧ hit = false then [n] else []) ∧
    deletes (borderEvents coord n i err hit) = (if i % 2 = 0 then [n] else []) := by
  cases hit with
  | true =>
    have hodd : i % 2 = 1 := h rfl
    have hne : ¬ i % 2 = 0 := by omega
    simp [borderEvents, lookups, reads, pushes, deletes, hodd]
  | false =>
    by_cases hodd : i % 2 = 1
    · have hne : ¬ i % 2 = 0 := by omega
      simp [borderEvents, lookups, reads, pushes, deletes, hodd]
    · have he : i % 2 = 0 := by omega
      simp [borderEvents, lookups, reads, pushes, deletes, he]

theorem MeshTiler.visitEvents_projections (T : MeshTiler α κ β η) (coord : TileCoordinate)
    (err : α) (visits : List (Nat × Bool)) (h : ∀ v ∈ visits, v.2 = true → v.1 % 2 = 1) :
    lookups (T.visitEvents coord err visits) =
      (visits.filter (fun v => v.1 % 2 = 1)).map (fun v => (T.neighborCoord coord v.1, v.2)) ∧
    reads (T.visitEvents coord err visits) =
      (visits.filter (fun v => v.2 = false)).map (fun v => (T.neighborCoord coord v.1, true)) ∧
    pushes (T.visitEvents coord err visits) =
      (visits.filter (fun v => v.1 % 2 = 1 ∧ v.2 = false)).map
        (fun v => T.neighborCoord coord v.1) ∧
    deletes (T.visitEvents coord err visits) =
      (visits.filter (fun v => v.1 % 2 = 0)).map (fun v => T.neighborCoord coord v.1) := by
  induction visits with
  | nil => exact ⟨rfl, rfl, rfl, rfl⟩
  | cons v rest ih =>
    have hcons : T.visitEvents coord err (v :: rest) =
        borderEvents coord (T.neighborCoord coord v.1) v.1 err v.2 ++
          T.visitEvents coord err rest := by
      simp [MeshTiler.visitEvents]
    obtain ⟨i1, i2, i3, i4⟩ := ih (fun w hw => h w (List.mem_cons_of_mem _ hw))
    obtain ⟨b1, b2, b3, b4⟩ := borderEvents_projections coord (T.neighborCoord coord v.1) v.1 err
      v.2 (h v (List.mem_cons_self _ _))
    rw [hcons]
    refine ⟨?_, ?_, ?_, ?_⟩
    · have : lookups (borderEvents coord (T.neighborCoord coord v.1) v.1 err v.2 ++
          T.visitEvents coord err rest) =
          lookups (borderEvents coord (T.neighborCoord coord v.1) v.1 err v.2) ++
            lookups (T.visitEvents coord err rest) := by
        simp [lookups, List.filterMap_append]
      rw [this, b1, i1, List.filter_cons]
      split_ifs <;> simp_all
    · have : reads (borderEvents coord (T.neighborCoord coord v.1) v.1 err v.2 ++
          T.visitEvents coord err rest) =
          reads (borderEvents coord (T.neighborCoord coord v.1) v.1 err v.2) ++
            reads (T.visitEvents coord err rest) := by
        simp [reads, List.filterMap_append]
      rw [this, b2, i2, List.filter_cons]
      split_ifs <;> simp_all
    · rw [pushes_append, b3, i3, List.filter_cons]
      split_ifs <;> simp_all
    · have : deletes (borderEvents coord (T.neighborCoord coord v.1) v.1 err v.2 ++
          T.visitEvents coord err rest) =
          deletes (borderEvents coord (T.neighborCoord coord v.1) v.1 err v.2) ++
            deletes (T.visitEvents coord err rest) := by
        simp [deletes, List.filterMap_append]
      rw [this, b4, i4, List.filter_cons]
      split_ifs <;> simp_all

/-- C17: with the height cache as explicit state, a returning `createMesh`
call makes the border iterations `visits` (the overlapping border indices in
order, each with whether the cache served the neighbour, which only happens
at odd indices) and: it looks up the tile and the odd-index neighbours only;
it reads the tile when its lookup missed and every neighbour the cache did not
serve, so every even-index neighbour; it pushes exactly the odd-index
neighbours whose lookup missed and, last, the tile when its lookup missed; it
deletes exactly the even-index neighbours; and the cache it leaves is the
initial one after the pushes of the buffers `pushed`, one per push of the
trace, each holding what the reader returned in this call. -/
theorem createMesh_cache_pushes [Add α] [Sub α] [Mul α] [Div α]
    [IntCast α] [NatCast α] (T : MeshTiler α κ β η) (cache : κ) (coord : TileCoordinate)
    (tile : MeshTile α) (st : TilerState κ α)
    (hret : T.createMesh cache coord = Except.ok (tile, st)) :
    ∃ (visits : List (Nat × Bool)) (pushed : List (RasterHeightsBuff β)),
      visits.map Prod.fst =
        T.overlappingBorders coord (if 6 < coord.zoom then [0, 1, 2, 3] else []) ∧
      (∀ v ∈ visits, v.2 = true → v.1 % 2 = 1) ∧
      lookups st.trace = (coord, (T.cacheGet cache coord).isSome) ::
        (visits.filter (fun v => v.1 % 2 = 1)).map
          (fun v => (T.neighborCoord coord v.1, v.2)) ∧
      reads st.trace = (if (T.cacheGet cache coord).isSome then [] else [(coord, true)]) ++
        (visits.filter (fun v => v.2 = false)).map
          (fun v => (T.neighborCoord coord v.1, true)) ∧
      pushes st.trace =
        (visits.filter (fun v => v.1 % 2 = 1 ∧ v.2 = false)).map
          (fun v => T.neighborCoord coord v.1) ++
        (if (T.cacheGet cache coord).isSome then [] else [coord]) ∧
      deletes st.trace =
        (visits.filter (fun v => v.1 % 2 = 0)).map (fun v => T.neighborCoord coord v.1) ∧
      st.cache = pushed.foldl T.cachePush cache ∧
      pushed.map (fun b => b.coord) = pushes st.trace ∧
      (∀ b ∈ pushed, T.readRasterHeights b.coord T.tileSize T.tileSize = some b.mHeights) := by
  obtain ⟨visits, pushed, a1, a2, a3, a4, a5, a6⟩ := T.createMesh_shape cache coord tile st hret
  obtain ⟨p1, p2, p3, p4⟩ := T.visitEvents_projections coord
    (T.maximumGeometricError coord T.tileSize) visits a2
  refine ⟨visits, pushed, a1, a2, ?_, ?_, ?_, ?_, a4, a5, a6⟩
  · rw [a3]
    simp only [lookups, List.filterMap_append] at p1 ⊢
    rw [p1]
    cases (T.cacheGet cache coord).isSome <;> simp
  · rw [a3]
    simp only [reads, List.filterMap_append] at p2 ⊢
    rw [p2]
    cases (T.cacheGet cache coord).isSome <;> simp
  · rw [a3]
    simp only [pushes, List.filterMap_append] at p3 ⊢
    rw [p3]
    cases (T.cacheGet cache coord).isSome <;> simp
  · rw [a3]
    simp only [deletes, List.filterMap_append] at p4 ⊢
    rw [p4]
    cases (T.cacheGet cache coord).isSome <;> simp

set_option maxRecDepth 10000 in
set_option exponentiation.threshold 3000 in
/-- Witness for C17: the sample geodetic tiler on a tile of zoom 7 whose
southern neighbour alone is in the cache. -/
theorem createMesh_cache_pushes_witness :
    ∃ tile st,
      (geodeticTiler readerAlwaysOk).createMesh [⟨⟨7, 3, 2⟩, ()⟩] ⟨7, 3, 3⟩ =
        Except.ok (tile, st) ∧
      (∃ pushed : List (RasterHeightsBuff Unit),
        st.cache = pushed.foldl (geodeticTiler readerAlwaysOk).cachePush [⟨⟨7, 3, 2⟩, ()⟩] ∧
        pushed.map (fun b => b.coord) = pushes st.trace) ∧
      lookups st.trace = [(⟨7, 3, 3⟩, false), (⟨7, 3, 2⟩, true), (⟨7, 3, 4⟩, false)] ∧
      reads st.trace =
        [(⟨7, 3, 3⟩, true), (⟨7, 4, 3⟩, true), (⟨7, 2, 3⟩, true), (⟨7, 3, 4⟩, true)] ∧
      pushes st.trace = [⟨7, 3, 4⟩, ⟨7, 3, 3⟩] ∧
      deletes st.trace = [⟨7, 4, 3⟩, ⟨7, 2, 3⟩] ∧
      st.cache.map (fun b => b.coord) = [⟨7, 3, 3⟩, ⟨7, 3, 4⟩, ⟨7, 3, 2⟩] :=
  ⟨_, _, rfl,
    (createMesh_cache_pushes (geodeticTiler readerAlwaysOk) [⟨⟨7, 3, 2⟩, ()⟩] ⟨7, 3, 3⟩ _ _
      rfl).elim
      (fun _ h => h.elim (fun pushed h => ⟨pushed, h.2.2.2.2.2.2.1, h.2.2.2.2.2.2.2.1⟩)),
    rfl, rfl, rfl, rfl, rfl⟩

end CacheProofs

/-! ## Reads of cached buffers after a push -/

section BorrowProofs

variable {α κ β η : Type}

theorem readAfterPush_append_of_no_push (b : TileCoordinate) (l1 l2 : List (Event α))
    (h : pushes l1 = []) : readAfterPush b (l1 ++ l2) = readAfterPush b l2 := by
  induction l1 with
  | nil => rfl
  | cons e rest ih =>
    cases e <;> simp_all [pushes, readAfterPush]

theorem readAfterPush_append_of_push (b : TileCoordinate) (l1 l2 : List (Event α))
    (h : pushes l1 ≠ []) (hread : l2.any (fun e => e.readsBuffer b) = true) :
    readAfterPush b (l1 ++ l2) = true := by
  induction l1 with
  | nil => exact absurd rfl h
  | cons e rest ih =>
    cases e with
    | cachePush c =>
      show (rest ++ l2).any (fun e1 => e1.readsBuffer b) = true
      rw [List.any_append, hread, Bool.or_true]
    | cacheGet c hit => exact ih (by simpa [pushes] using h)
    | rasterRead c ok => exact ih (by simpa [pushes] using h)
    | bufferDelete c => exact ih (by simpa [pushes] using h)
    | applyGeometricError c error force => exact ih (by simpa [pushes] using h)
    | applyNeighborGeometricError c error => exact ih (by simpa [pushes] using h)
    | applyBorderActivationState c n i => exact ih (by simpa [pushes] using h)
    | generateMesh c => exact ih (by simpa [pushes] using h)
    | heightfieldClear c => exact ih (by simpa [pushes] using h)

theorem borrowedReadAfterPush_of_no_push (b : TileCoordinate) (l : List (Event α))
    (h : pushes l = []) : borrowedReadAfterPush b l = false := by
  induction l with
  | nil => rfl
  | cons e rest ih =>
    have hrest : readAfterPush b rest = false := by
      have := readAfterPush_append_of_no_push b rest [] (by
        cases e <;> simp_all [pushes])
      simpa [readAfterPush] using this
    cases e with
    | cacheGet c hit =>
      have h1 : pushes rest = [] := by simpa [pushes] using h
      cases hit <;> simp [borrowedReadAfterPush, ih h1, hrest]
    | cachePush c => simp [pushes] at h
    | rasterRead c ok => exact ih (by simpa [pushes] using h)
    | bufferDelete c => exact ih (by simpa [pushes] using h)
    | applyGeometricError c error force => exact ih (by simpa [pushes] using h)
    | applyNeighborGeometricError c error => exact ih (by simpa [pushes] using h)
    | applyBorderActivationState c n i => exact ih (by simpa [pushes] using h)
    | generateMesh c => exact ih (by simpa [pushes] using h)
    | heightfieldClear c => exact ih (by simpa [pushes] using h)

set_option maxRecDepth 10000 in
set_option exponentiation.threshold 3000 in
/-- Counterexample to C12: the sample geodetic tiler on a tile of zoom 7
whose buffer is in the cache while its neighbours are not. The call obtains
the buffer of the tile from the cache (call 0), pushes the buffer of the
southern neighbour (call 10), and afterwards reads the heightfield built over
the buffer of the tile, in the border propagation of index 2 (call 13) and in
`generateMesh` (call 20). -/
theorem borrowed_buffer_read_after_push_counterexample :
    ∃ tile st,
      (geodeticTiler readerAlwaysOk).createMesh [⟨⟨7, 3, 3⟩, ()⟩] ⟨7, 3, 3⟩ =
        Except.ok (tile, st) ∧
      st.trace[0]? = some (Event.cacheGet ⟨7, 3, 3⟩ true) ∧
      st.trace[10]? = some (Event.cachePush ⟨7, 3, 2⟩) ∧
      st.trace[13]? = some (Event.applyBorderActivationState ⟨7, 3, 3⟩ ⟨7, 2, 3⟩ 2) ∧
      st.trace[20]? = some (Event.generateMesh ⟨7, 3, 3⟩) ∧
      lookups st.trace = [(⟨7, 3, 3⟩, true), (⟨7, 3, 2⟩, false), (⟨7, 3, 4⟩, false)] ∧
      pushes st.trace = [⟨7, 3, 2⟩, ⟨7, 3, 4⟩] ∧
      borrowedReadAfterPush ⟨7, 3, 3⟩ st.trace = true :=
  ⟨_, _, rfl, rfl, rfl, rfl, rfl, rfl, rfl, rfl⟩

/-- C12 as amended: in a returning `createMesh` call, with the border
iterations `visits` (border index, and whether the cache served the
neighbour), a neighbour buffer obtained from the cache is used by the two
calls that follow its lookup and its iteration pushes nothing; the buffer of
the tile is read after a push exactly when the lookup of some overlapping
odd-index neighbour missed, so a tile buffer obtained from the cache is read
after a later push exactly in that case; with `zoom <= 6` no read of the
tile buffer follows a push. -/
theorem createMesh_reads_after_push [Add α] [Sub α] [Mul α] [Div α]
    [IntCast α] [NatCast α] (T : MeshTiler α κ β η) (cache : κ) (coord : TileCoordinate)
    (tile : MeshTile α) (st : TilerState κ α)
    (hret : T.createMesh cache coord = Except.ok (tile, st)) :
    ∃ visits : List (Nat × Bool),
      visits.map Prod.fst =
        T.overlappingBorders coord (if 6 < coord.zoom then [0, 1, 2, 3] else []) ∧
      (∀ v ∈ visits, v.2 = true → v.1 % 2 = 1) ∧
      st.trace = [Event.cacheGet coord (T.cacheGet cache coord).isSome] ++
        (if (T.cacheGet cache coord).isSome then [] else [Event.rasterRead coord true]) ++
        [Event.applyGeometricError coord (T.maximumGeometricError coord T.tileSize)
          (decide (coord.zoom ≤ 6))] ++
        T.visitEvents coord (T.maximumGeometricError coord T.tileSize) visits ++
        [Event.generateMesh coord, Event.heightfieldClear coord] ++
        (if (T.cacheGet cache coord).isSome then [] else [Event.cachePush coord]) ∧
      (∀ v ∈ visits, v.2 = true →
        borderEvents coord (T.neighborCoord coord v.1) v.1
            (T.maximumGeometricError coord T.tileSize) v.2 =
          [Event.cacheGet (T.neighborCoord coord v.1) true,
            Event.applyNeighborGeometricError (T.neighborCoord coord v.1)
              (T.maximumGeometricError coord T.tileSize),
            Event.applyBorderActivationState coord (T.neighborCoord coord v.1) v.1]) ∧
      (readAfterPush coord st.trace = true ↔ ∃ v ∈ visits, v.1 % 2 = 1 ∧ v.2 = false) ∧
      ((T.cacheGet cache coord).isSome = true →
        (borrowedReadAfterPush coord st.trace = true ↔
          ∃ v ∈ visits, v.1 % 2 = 1 ∧ v.2 = false)) ∧
      (coord.zoom ≤ 6 → readAfterPush coord st.trace = false) := by
  obtain ⟨visits, pushed, a1, a2, a3, _⟩ := T.createMesh_shape cache coord tile st hret
  obtain ⟨_, _, p3, _⟩ := T.visitEvents_projections coord
    (T.maximumGeometricError coord T.tileSize) visits a2
  have hP : (∃ v ∈ visits, v.1 % 2 = 1 ∧ v.2 = false) ↔
      pushes (T.visitEvents coord (T.maximumGeometricError coord T.tileSize) visits) ≠ [] := by
    rw [p3]
    simp only [ne_eq, List.map_eq_nil_iff, List.filter_eq_nil_iff, decide_eq_true_eq,
      not_forall, Classical.not_not, exists_prop]
  have ht : st.trace =
      ([Event.cacheGet coord (T.cacheGet cache coord).isSome] ++
        (if (T.cacheGet cache coord).isSome then [] else [Event.rasterRead coord true]) ++
        [Event.applyGeometricError coord (T.maximumGeometricError coord T.tileSize)
          (decide (coord.zoom ≤ 6))] ++
        T.visitEvents coord (T.maximumGeometricError coord T.tileSize) visits) ++
      ([Event.generateMesh coord, Event.heightfieldClear coord] ++
        (if (T.cacheGet cache coord).isSome then [] else [Event.cachePush coord])) := by
    rw [a3]
    simp only [List.append_assoc]
  have hhead : pushes ([Event.cacheGet coord (T.cacheGet cache coord).isSome] ++
        (if (T.cacheGet cache coord).isSome then [] else [Event.rasterRead coord true]) ++
        [Event.applyGeometricError coord (T.maximumGeometricError coord T.tileSize)
          (decide (coord.zoom ≤ 6))] ++
        T.visitEvents coord (T.maximumGeometricError coord T.tileSize) visits) =
      pushes (T.visitEvents coord (T.maximumGeometricError coord T.tileSize) visits) := by
    rw [pushes_append]
    cases (T.cacheGet cache coord).isSome <;> simp [pushes]
  have hread : readAfterPush coord st.trace = true ↔
      ∃ v ∈ visits, v.1 % 2 = 1 ∧ v.2 = false := by
    rw [hP, ht]
    by_cases hE : pushes (T.visitEvents coord (T.maximumGeometricError coord T.tileSize)
        visits) = []
    · rw [readAfterPush_append_of_no_push coord _ _ (hhead.trans hE)]
      cases (T.cacheGet cache coord).isSome <;> simp [readAfterPush, hE]
    · rw [readAfterPush_append_of_push coord _ _ (by rw [hhead]; exact hE)
        (by simp [Event.readsBuffer])]
      simp [hE]
  refine ⟨visits, a1, a2, a3, ?_, hread, ?_, ?_⟩
  · intro v hv hhit
    have hodd := a2 v hv hhit
    simp [borderEvents, hhit, hodd]
  · intro hhit
    rw [hP]
    by_cases hE : pushes (T.visitEvents coord (T.maximumGeometricError coord T.tileSize)
        visits) = []
    · have hnone : pushes st.trace = [] := by
        rw [ht, pushes_append, hhead, hE, hhit]
        simp [pushes]
      rw [borrowedReadAfterPush_of_no_push coord st.trace hnone]
      simp [hE]
    · have hrp := hread.2 (hP.2 hE)
      rw [a3, hhit] at hrp ⊢
      simp only [if_true, List.append_nil, List.singleton_append, List.cons_append,
        readAfterPush, borrowedReadAfterPush, decide_True, Bool.true_and] at hrp ⊢
      rw [hrp]
      simp [hE]
  · intro hz
    have hz6 : ¬ 6 < coord.zoom := by omega
    simp only [hz6, if_false, MeshTiler.overlappingBorders, List.filter_nil,
      List.map_eq_nil_iff] at a1
    cases hr : readAfterPush coord st.trace with
    | false => rfl
    | true =>
      obtain ⟨v, hv, _⟩ := hread.1 hr
      rw [a1] at hv
      simp at hv

set_option maxRecDepth 10000 in
set_option exponentiation.threshold 3000 in
/-- Witness for C12 as amended: the sample geodetic tiler on a tile of zoom 7
whose buffer and whose northern and southern neighbours are in the cache:
nothing is pushed and no cached buffer is read after a push. -/
theorem createMesh_reads_after_push_witness :
    ∃ tile st,
      (geodeticTiler readerAlwaysOk).createMesh
          [⟨⟨7, 3, 3⟩, ()⟩, ⟨⟨7, 3, 2⟩, ()⟩, ⟨⟨7, 3, 4⟩, ()⟩] ⟨7, 3, 3⟩ =
        Except.ok (tile, st) ∧
      (∃ visits : List (Nat × Bool),
        visits.map Prod.fst =
          (geodeticTiler readerAlwaysOk).overlappingBorders ⟨7, 3, 3⟩
            (if 6 < (⟨7, 3, 3⟩ : TileCoordinate).zoom then [0, 1, 2, 3] else []) ∧
        (readAfterPush ⟨7, 3, 3⟩ st.trace = true ↔
          ∃ v ∈ visits, v.1 % 2 = 1 ∧ v.2 = false)) ∧
      lookups st.trace = [(⟨7, 3, 3⟩, true), (⟨7, 3, 2⟩, true), (⟨7, 3, 4⟩, true)] ∧
      pushes st.trace = [] ∧
      readAfterPush ⟨7, 3, 3⟩ st.trace = false ∧
      borrowedReadAfterPush ⟨7, 3, 3⟩ st.trace = false :=
  ⟨_, _, rfl,
    (createMesh_reads_after_push (geodeticTiler readerAlwaysOk)
      [⟨⟨7, 3, 3⟩, ()⟩, ⟨⟨7, 3, 2⟩, ()⟩, ⟨⟨7, 3, 4⟩, ()⟩] ⟨7, 3, 3⟩ _ _ rfl).elim
      (fun visits h => ⟨visits, h.1, h.2.2.2.2.1⟩),
    rfl, rfl, rfl, rfl⟩

end BorrowProofs

end ctb
